import Mathlib

/-!
Fuel injector tester: parameter store, persistence, timing and menu state machine

A shallow embedding of `src/fuel-injector-tester.cpp`.

* C integers are mathematical integers reduced to the width of their C type after
  every arithmetic step (two's complement wrap-around).  The width of `short`,
  `int`, `long` and `long long` is a property of the compiler target, not of the
  sketch, so it is carried by a `Platform` record; `avr` is the ATmega2560 target
  the header of the source names.
* The global variables of the sketch are fields of explicit records that every
  function receives and returns.
-/

namespace InjectorTester

/-! ## Machine integers -/

/-- Byte sizes (`sizeof`) of the integer types used by the sketch. -/
structure Platform where
  sizeof_short : Nat
  sizeof_int : Nat
  sizeof_long : Nat
  sizeof_long_long : Nat
deriving DecidableEq

/-- The avr-gcc target of the sketch ("Pin-outs on my mega2560", `PORTB`, `DDRB`):
16-bit `short` and `int`, 32-bit `long`, 64-bit `long long`. -/
def avr : Platform := { sizeof_short := 2, sizeof_int := 2, sizeof_long := 4, sizeof_long_long := 8 }

/-- A 32-bit target (`int` of four bytes), for comparison. -/
def ilp32 : Platform := { sizeof_short := 2, sizeof_int := 4, sizeof_long := 4, sizeof_long_long := 8 }

/-- What the C standard guarantees about the widths: `short` and `int` have at least
16 bits, `long` at least 32, `long long` at least 64, and the ranks are ordered. -/
def Platform.conforming (pf : Platform) : Prop :=
  2 ≤ pf.sizeof_short ∧ pf.sizeof_short ≤ pf.sizeof_int ∧ pf.sizeof_int ≤ pf.sizeof_long ∧
  4 ≤ pf.sizeof_long ∧ pf.sizeof_long ≤ pf.sizeof_long_long ∧ 8 ≤ pf.sizeof_long_long

instance (pf : Platform) : Decidable pf.conforming := by
  unfold Platform.conforming; infer_instance

/-- Two's complement reduction of `x` to a signed integer of `bits` bits. -/
def wrapSigned (bits : Nat) (x : Int) : Int :=
  (x + 2 ^ (bits - 1)) % 2 ^ bits - 2 ^ (bits - 1)

/-- Reduction of `x` to an unsigned integer of `bits` bits. -/
def wrapUnsigned (bits : Nat) (x : Int) : Int := x % 2 ^ bits

/-- Conversion to `short`. -/
def toShort (pf : Platform) (x : Int) : Int := wrapSigned (8 * pf.sizeof_short) x

/-- Conversion to `int`. -/
def toInt (pf : Platform) (x : Int) : Int := wrapSigned (8 * pf.sizeof_int) x

/-- Conversion to `long`. -/
def toLong (pf : Platform) (x : Int) : Int := wrapSigned (8 * pf.sizeof_long) x

/-- Conversion to `long long`. -/
def toLongLong (pf : Platform) (x : Int) : Int := wrapSigned (8 * pf.sizeof_long_long) x

/-- Conversion to `unsigned long`. -/
def toULong (pf : Platform) (x : Int) : Int := wrapUnsigned (8 * pf.sizeof_long) x

/-- Whether `x` is a value of a signed type of `n` bytes. -/
def fitsSigned (n : Nat) (x : Int) : Prop := -(2 ^ (8 * n - 1)) ≤ x ∧ x < 2 ^ (8 * n - 1)

instance (n : Nat) (x : Int) : Decidable (fitsSigned n x) := by
  unfold fitsSigned; infer_instance

/-! ## Parameter records (lines 42-81) and their initial values (lines 112-140) -/

structure leak_test_params where
  seconds : Int
  max_seconds : Int
  min_seconds : Int
  second_step : Int
deriving DecidableEq

structure rpm_mode_params where
  seconds : Int
  max_seconds : Int
  min_seconds : Int
  second_step : Int
  duty : Int
  duty_step : Int
  min_duty : Int
  max_duty : Int
  rpm : Int
  rpm_step : Int
  min_rpm : Int
  max_rpm : Int
deriving DecidableEq

structure full_flow_params where
  seconds : Int
  max_seconds : Int
  min_seconds : Int
  second_step : Int
deriving DecidableEq

structure pwm_params where
  pulses : Int
  max_pulses : Int
  min_pulses : Int
  pulse_step : Int
  microseconds : Int
  max_microseconds : Int
  min_microseconds : Int
  microsecond_step : Int
deriving DecidableEq

/-- Initial value of the global `LEAK_TEST_PARAMS`. -/
def LEAK_TEST_PARAMS : leak_test_params :=
  { seconds := 60, max_seconds := 300, min_seconds := 10, second_step := 10 }

/-- Initial value of the global `RPM_MODE_PARAMS`. -/
def RPM_MODE_PARAMS : rpm_mode_params :=
  { seconds := 15, max_seconds := 60, min_seconds := 5, second_step := 1,
    duty := 50, duty_step := 1, min_duty := 1, max_duty := 99,
    rpm := 1000, rpm_step := 200, min_rpm := 600, max_rpm := 6000 }

/-- Initial value of the global `FULL_FLOW_PARAMS`. -/
def FULL_FLOW_PARAMS : full_flow_params :=
  { seconds := 10, max_seconds := 30, min_seconds := 1, second_step := 1 }

/-- Initial value of the global `PWM_PARAMS`. -/
def PWM_PARAMS : pwm_params :=
  { pulses := 30, max_pulses := 100, min_pulses := 1, pulse_step := 1,
    microseconds := 1000, max_microseconds := 1000000, min_microseconds := 100,
    microsecond_step := 10 }

/-- The four global parameter records together. -/
structure ParameterStore where
  leak : leak_test_params
  rpm : rpm_mode_params
  full_flow : full_flow_params
  pwm : pwm_params
deriving DecidableEq

/-- The parameter globals as the program image initialises them. -/
def defaultStore : ParameterStore :=
  { leak := LEAK_TEST_PARAMS, rpm := RPM_MODE_PARAMS, full_flow := FULL_FLOW_PARAMS,
    pwm := PWM_PARAMS }

/-! ## Parameter edits (lines 370-438) -/

/-- `leak_test_change_param`: `seconds += modifier * second_step`, then the two
conditional assignments against `max_seconds` and `min_seconds`. -/
def leak_test_change_param (pf : Platform) (L : leak_test_params) (_p : Int) (increase : Bool) :
    leak_test_params :=
  let modifier : Int := if increase then 1 else -1
  let s1 := toInt pf (L.seconds + toInt pf (modifier * L.second_step))
  let s2 := if s1 > L.max_seconds then L.max_seconds else s1
  let s3 := if s2 < L.min_seconds then L.min_seconds else s2
  { L with seconds := s3 }

/-- `full_flow_mode_change_param`. -/
def full_flow_mode_change_param (pf : Platform) (F : full_flow_params) (_p : Int)
    (increase : Bool) : full_flow_params :=
  let modifier : Int := if increase then 1 else -1
  let s1 := toInt pf (F.seconds + toInt pf (modifier * F.second_step))
  let s2 := if s1 > F.max_seconds then F.max_seconds else s1
  let s3 := if s2 < F.min_seconds then F.min_seconds else s2
  { F with seconds := s3 }

/-- `rpm_mode_change_param`: `switch (p)` over seconds (0), rpm (1) and duty (2); any
other `p` falls through the switch.  `duty` is a `short`: the sum is formed in `int`
and every assignment to the field converts back to `short`. -/
def rpm_mode_change_param (pf : Platform) (R : rpm_mode_params) (p : Int) (increase : Bool) :
    rpm_mode_params :=
  let modifier : Int := if increase then 1 else -1
  if p = 0 then
    let s1 := toInt pf (R.seconds + toInt pf (modifier * R.second_step))
    let s2 := if s1 > R.max_seconds then R.max_seconds else s1
    let s3 := if s2 < R.min_seconds then R.min_seconds else s2
    { R with seconds := s3 }
  else if p = 1 then
    let r1 := toInt pf (R.rpm + toInt pf (modifier * R.rpm_step))
    let r2 := if r1 > R.max_rpm then R.max_rpm else r1
    let r3 := if r2 < R.min_rpm then R.min_rpm else r2
    { R with rpm := r3 }
  else if p = 2 then
    let d1 := toShort pf (toInt pf (R.duty + toInt pf (modifier * R.duty_step)))
    let d2 := toShort pf (if d1 > R.max_duty then R.max_duty else d1)
    let d3 := toShort pf (if d2 < R.min_duty then R.min_duty else d2)
    { R with duty := d3 }
  else R

/-- `pwm_mode_change_param`: `switch (p)` over pulses (0) and microseconds (1).  The
microsecond arithmetic is `long long`. -/
def pwm_mode_change_param (pf : Platform) (W : pwm_params) (p : Int) (increase : Bool) :
    pwm_params :=
  let modifier : Int := if increase then 1 else -1
  if p = 0 then
    let n1 := toInt pf (W.pulses + toInt pf (modifier * W.pulse_step))
    let n2 := if n1 > W.max_pulses then W.max_pulses else n1
    let n3 := if n2 < W.min_pulses then W.min_pulses else n2
    { W with pulses := n3 }
  else if p = 1 then
    let u1 := toLongLong pf (W.microseconds + toLongLong pf (modifier * W.microsecond_step))
    let u2 := if u1 > W.max_microseconds then W.max_microseconds else u1
    let u3 := if u2 < W.min_microseconds then W.min_microseconds else u2
    { W with microseconds := u3 }
  else W

/-- One call of one of the four edit functions. -/
inductive Edit where
  | leak_test (p : Int) (increase : Bool)
  | full_flow (p : Int) (increase : Bool)
  | rpm_mode (p : Int) (increase : Bool)
  | pwm_mode (p : Int) (increase : Bool)
deriving DecidableEq

/-- The effect of one edit call on the parameter globals. -/
def applyEdit (pf : Platform) (S : ParameterStore) : Edit → ParameterStore
  | .leak_test p i => { S with leak := leak_test_change_param pf S.leak p i }
  | .full_flow p i => { S with full_flow := full_flow_mode_change_param pf S.full_flow p i }
  | .rpm_mode p i => { S with rpm := rpm_mode_change_param pf S.rpm p i }
  | .pwm_mode p i => { S with pwm := pwm_mode_change_param pf S.pwm p i }

/-- A finite sequence of edit calls, applied from left to right. -/
def applyEdits (pf : Platform) (S : ParameterStore) (es : List Edit) : ParameterStore :=
  es.foldl (applyEdit pf) S

/-- Every current value lies between its own `min` and `max`. -/
def inRange (S : ParameterStore) : Prop :=
  (S.leak.min_seconds ≤ S.leak.seconds ∧ S.leak.seconds ≤ S.leak.max_seconds) ∧
  (S.full_flow.min_seconds ≤ S.full_flow.seconds ∧
    S.full_flow.seconds ≤ S.full_flow.max_seconds) ∧
  (S.rpm.min_seconds ≤ S.rpm.seconds ∧ S.rpm.seconds ≤ S.rpm.max_seconds) ∧
  (S.rpm.min_rpm ≤ S.rpm.rpm ∧ S.rpm.rpm ≤ S.rpm.max_rpm) ∧
  (S.rpm.min_duty ≤ S.rpm.duty ∧ S.rpm.duty ≤ S.rpm.max_duty) ∧
  (S.pwm.min_pulses ≤ S.pwm.pulses ∧ S.pwm.pulses ≤ S.pwm.max_pulses) ∧
  (S.pwm.min_microseconds ≤ S.pwm.microseconds ∧
    S.pwm.microseconds ≤ S.pwm.max_microseconds)

instance (S : ParameterStore) : Decidable (inRange S) := by
  unfold inRange; infer_instance

/-- The `min`, `max` and `step` members hold the values of the initialisers. -/
def hasDefaultConstants (S : ParameterStore) : Prop :=
  (S.leak.max_seconds = 300 ∧ S.leak.min_seconds = 10 ∧ S.leak.second_step = 10) ∧
  (S.full_flow.max_seconds = 30 ∧ S.full_flow.min_seconds = 1 ∧
    S.full_flow.second_step = 1) ∧
  (S.rpm.max_seconds = 60 ∧ S.rpm.min_seconds = 5 ∧ S.rpm.second_step = 1) ∧
  (S.rpm.max_rpm = 6000 ∧ S.rpm.min_rpm = 600 ∧ S.rpm.rpm_step = 200) ∧
  (S.rpm.max_duty = 99 ∧ S.rpm.min_duty = 1 ∧ S.rpm.duty_step = 1) ∧
  (S.pwm.max_pulses = 100 ∧ S.pwm.min_pulses = 1 ∧ S.pwm.pulse_step = 1) ∧
  (S.pwm.max_microseconds = 1000000 ∧ S.pwm.min_microseconds = 100 ∧
    S.pwm.microsecond_step = 10)

instance (S : ParameterStore) : Decidable (hasDefaultConstants S) := by
  unfold hasDefaultConstants; infer_instance

/-- The mathematical clamp of `x` into `[lo, hi]`, as the specification words it:
`hi` above `hi`, `lo` below `lo`, otherwise `x`. -/
def clamp (x lo hi : Int) : Int := if x > hi then hi else if x < lo then lo else x

/-! ## Non-volatile storage (lines 255-345)

`EEPROM.put(idx, t)` of the Arduino core copies the `sizeof(T)` bytes of the object
`t`, lowest address first, to the cells `idx, idx + 1, ...`; `EEPROM.get(idx, t)`
copies them back.  The target is little-endian and signed integers are two's
complement, so byte `i` of an object holds bits `8 i .. 8 i + 7` of its value. -/

/-- The EEPROM cells: one byte per address. -/
abbrev Eeprom := Nat → Nat

/-- Store byte `b` in cell `a`. -/
def writeByte (e : Eeprom) (a b : Nat) : Eeprom := fun i => if i = a then b else e i

/-- The byte loop of `EEPROM.put`: the `n` low bytes of `v`, lowest first, go to the
cells from `idx` upwards. -/
def writeBytes : Nat → Eeprom → Nat → Nat → Eeprom
  | 0, e, _, _ => e
  | n + 1, e, idx, v => writeBytes n (writeByte e idx (v % 256)) (idx + 1) (v / 256)

/-- The byte loop of `EEPROM.get`: the `n` cells from `idx` upwards, read as one
little-endian number. -/
def readBytes : Nat → Eeprom → Nat → Nat
  | 0, _, _ => 0
  | n + 1, e, idx => e idx % 256 + 256 * readBytes n e (idx + 1)

/-- `EEPROM.put(idx, t)` for a signed integer object `t` of `size` bytes holding `v`. -/
def EEPROM_put (e : Eeprom) (idx size : Nat) (v : Int) : Eeprom :=
  writeBytes size e idx (v % 2 ^ (8 * size)).toNat

/-- `EEPROM.get(idx, t)` for a signed integer object `t` of `size` bytes: the value
the object holds afterwards. -/
def EEPROM_get (e : Eeprom) (idx size : Nat) : Int :=
  wrapSigned (8 * size) (readBytes size e idx)

/-- `save_settings`: seven `EEPROM.put` calls, the address `eadr` advancing by the
`sizeof` of each member.  The flag `immediate` only selects a message and a delay. -/
def save_settings (pf : Platform) (_immediate : Bool) (S : ParameterStore) (e : Eeprom) :
    Eeprom :=
  let eadr := 0
  let e := EEPROM_put e eadr pf.sizeof_int S.leak.seconds
  let eadr := eadr + pf.sizeof_int
  let e := EEPROM_put e eadr pf.sizeof_int S.rpm.seconds
  let eadr := eadr + pf.sizeof_int
  let e := EEPROM_put e eadr pf.sizeof_short S.rpm.duty
  let eadr := eadr + pf.sizeof_short
  let e := EEPROM_put e eadr pf.sizeof_int S.rpm.rpm
  let eadr := eadr + pf.sizeof_int
  let e := EEPROM_put e eadr pf.sizeof_int S.full_flow.seconds
  let eadr := eadr + pf.sizeof_int
  let e := EEPROM_put e eadr pf.sizeof_int S.pwm.pulses
  let eadr := eadr + pf.sizeof_int
  let e := EEPROM_put e eadr pf.sizeof_long_long S.pwm.microseconds
  e

/-- `load_settings`: seven `EEPROM.get` calls into the same members, `eadr` advancing
the same way. -/
def load_settings (pf : Platform) (S : ParameterStore) (e : Eeprom) : ParameterStore :=
  let eadr := 0
  let leak_seconds := EEPROM_get e eadr pf.sizeof_int
  let eadr := eadr + pf.sizeof_int
  let rpm_seconds := EEPROM_get e eadr pf.sizeof_int
  let eadr := eadr + pf.sizeof_int
  let rpm_duty := EEPROM_get e eadr pf.sizeof_short
  let eadr := eadr + pf.sizeof_short
  let rpm_rpm := EEPROM_get e eadr pf.sizeof_int
  let eadr := eadr + pf.sizeof_int
  let full_flow_seconds := EEPROM_get e eadr pf.sizeof_int
  let eadr := eadr + pf.sizeof_int
  let pwm_pulses := EEPROM_get e eadr pf.sizeof_int
  let eadr := eadr + pf.sizeof_int
  let pwm_microseconds := EEPROM_get e eadr pf.sizeof_long_long
  { leak := { S.leak with seconds := leak_seconds },
    rpm := { S.rpm with seconds := rpm_seconds, duty := rpm_duty, rpm := rpm_rpm },
    full_flow := { S.full_flow with seconds := full_flow_seconds },
    pwm := { S.pwm with pulses := pwm_pulses, microseconds := pwm_microseconds } }

/-- The seven current values fit the C types of their members. -/
def fitsFields (pf : Platform) (S : ParameterStore) : Prop :=
  fitsSigned pf.sizeof_int S.leak.seconds ∧ fitsSigned pf.sizeof_int S.rpm.seconds ∧
  fitsSigned pf.sizeof_short S.rpm.duty ∧ fitsSigned pf.sizeof_int S.rpm.rpm ∧
  fitsSigned pf.sizeof_int S.full_flow.seconds ∧ fitsSigned pf.sizeof_int S.pwm.pulses ∧
  fitsSigned pf.sizeof_long_long S.pwm.microseconds

instance (pf : Platform) (S : ParameterStore) : Decidable (fitsFields pf S) := by
  unfold fitsFields; infer_instance

/-! ## Timing calculations (lines 444-457, 475-481)

`calculate_720_time_us` computes in `float`.  The model is IEEE 754 binary32 with
round-to-nearest-even, carried out exactly on fractions of naturals.  On the AVR
target `double` is the same 32-bit type, so `60.0 / x` is a binary32 division; where
`double` has 53 bits the quotient is rounded once more when it is stored in the
`float t`, which gives the same binary32 value. -/

/-- A positive rational `num / den`. -/
structure Frac where
  num : Nat
  den : Nat
deriving DecidableEq

/-- Nearest integer to `n / d`, ties to the even neighbour. -/
def roundNearestEven (n d : Nat) : Nat :=
  let q := n / d
  let r := n % d
  if 2 * r < d then q else if d < 2 * r then q + 1 else if q % 2 = 0 then q else q + 1

/-- Binary search for the exponent: adds to `acc` every power `2 ^ j` (from `j`
downwards) that keeps `2 ^ acc ≤ n`. -/
def log2Go : Nat → Nat → Nat → Nat
  | 0, acc, _ => acc
  | j + 1, acc, n => if 2 ^ (acc + 2 ^ j) ≤ n then log2Go j (acc + 2 ^ j) n else log2Go j acc n

/-- The exponent `k` with `2 ^ k ≤ n < 2 ^ (k + 1)`, for `1 ≤ n < 2 ^ 512`: more than
any numerator or denominator that a product or quotient of two binary32 numbers has. -/
def floorLog2 (n : Nat) : Nat := log2Go 9 0 n

/-- The exponent `k` with `2 ^ k ≤ n / d < 2 ^ (k + 1)`. -/
def binade (n d : Nat) : Int :=
  let k : Int := (floorLog2 n : Int) - (floorLog2 d : Int)
  if d * 2 ^ k.toNat ≤ n * 2 ^ (-k).toNat then k else k - 1

/-- Rounding of a positive rational to binary32 (24-bit significand, nearest, ties to
even), for results in the normal range. -/
def rn32 (q : Frac) : Frac :=
  let e := binade q.num q.den - 23
  let m := roundNearestEven (q.num * 2 ^ (-e).toNat) (q.den * 2 ^ e.toNat)
  { num := m * 2 ^ e.toNat, den := 2 ^ (-e).toNat }

/-- The magnitude of `calculate_720_time_us` for `|rpm| = a > 0`:
`(float)rpm`, `/ 2`, `60.0 / ...`, `t * 1000000L`, and the truncation of `(long)`. -/
def cycle_time_magnitude (a : Nat) : Nat :=
  let x := rn32 { num := a, den := 1 }
  let y : Frac := { num := x.num, den := x.den * 2 }
  let t := rn32 { num := 60 * y.den, den := y.num }
  let u := rn32 { num := t.num * 1000000, den := t.den }
  u.num / u.den

/-- `calculate_720_time_us`.  For `rpm = 0` the quotient is a division by zero (not a
finite number, no defined conversion to `long`): `none`.  Binary32 arithmetic is
symmetric in the sign, and the conversion truncates toward zero. -/
def calculate_720_time_us (rpm : Int) : Option Int :=
  if rpm = 0 then none
  else if rpm < 0 then some (-(cycle_time_magnitude rpm.natAbs : Int))
  else some (cycle_time_magnitude rpm.natAbs : Int)

/-- `calculate_injector_open_time_us`: the product `duty * cycle` is formed in `long`,
the division by 100 truncates toward zero. -/
def calculate_injector_open_time_us (pf : Platform) (rpm duty : Int) : Option Int :=
  (calculate_720_time_us rpm).map fun cycle => Int.tdiv (toLong pf (duty * cycle)) 100

/-- The three intervals that `do_constant_rpm_mode` computes before it drives any
output (lines 479-481). -/
structure rpm_intervals where
  cycle_720_time : Int
  injector_open_time : Int
  injector_close_time : Int
deriving DecidableEq

/-- Lines 475-481 of `do_constant_rpm_mode`: `rpm` and `duty` are read from
`RPM_MODE_PARAMS`, the close interval is `cycle_720_time - injector_open_time` in
`long`. -/
def do_constant_rpm_mode_intervals (pf : Platform) (R : rpm_mode_params) :
    Option rpm_intervals :=
  let rpm := R.rpm
  let duty := R.duty
  match calculate_720_time_us rpm, calculate_injector_open_time_us pf rpm duty with
  | some cycle_720_time, some injector_open_time =>
      some { cycle_720_time := cycle_720_time,
             injector_open_time := injector_open_time,
             injector_close_time := toLong pf (cycle_720_time - injector_open_time) }
  | _, _ => none

/-! ## Buttons, modes and the polling loop (lines 83-110, 348-367, 670-791) -/

inductive button_t where
  | NO_BUTTON
  | LEFT
  | RIGHT
  | UP
  | DOWN
  | SELECT
deriving DecidableEq

open button_t

/-- An `operation_t` value, by its enumerator number (the loop does arithmetic on
it). -/
abbrev operation_t := Int

abbrev LEAK_TEST : operation_t := 0
abbrev RPM_MODE : operation_t := 1
abbrev FULL_FLOW_MODE : operation_t := 2
abbrev PWM_MODE : operation_t := 3
abbrev NO_MODE : operation_t := 4

/-- `get_button` applied to the analog reading `x`. -/
def get_button (x : Int) : button_t :=
  if x < 60 then RIGHT
  else if x < 200 then UP
  else if x < 400 then DOWN
  else if x < 600 then LEFT
  else if x < 800 then SELECT
  else NO_BUTTON

/-- The globals that `loop` reads and writes, and the EEPROM. -/
structure State where
  LAST_BUTTON : button_t
  CURRENT_MODE : operation_t
  PARAM_NUM : Int
  last_button_press_time : Int
  params : ParameterStore
  eeprom : Eeprom

/-- The globals as initialised (lines 106-110), over a given parameter store and
EEPROM content. -/
def initialState (P : ParameterStore) (e : Eeprom) : State :=
  { LAST_BUTTON := NO_BUTTON, CURRENT_MODE := LEAK_TEST, PARAM_NUM := 0,
    last_button_press_time := 0, params := P, eeprom := e }

/-- One pass of `loop`, as a function on the globals and the EEPROM.  `x` is the
analog reading behind `get_button`, `now` the value that the pass obtains from
`micros()`.  The test procedures started by RIGHT write the pump relay, the injector
port, the display and the serial line, and none of the globals, so a pass that runs
one returns the globals as the branch found them. -/
def loop (pf : Platform) (s : State) (x : Int) (now : Int) : State :=
  let button := get_button x
  if s.LAST_BUTTON = button then
    if button = UP ∨ button = DOWN then
      let threshold : Int :=
        if (s.CURRENT_MODE = PWM_MODE ∧ s.PARAM_NUM = 1) ∨
           (s.CURRENT_MODE = RPM_MODE ∧ s.PARAM_NUM = 2) then 100000 else 300000
      if toULong pf (toULong pf now - s.last_button_press_time) > threshold then
        { s with LAST_BUTTON := NO_BUTTON }
      else s
    else if button = SELECT then
      let threshold : Int := 1000000
      if toULong pf (toULong pf now - s.last_button_press_time) > threshold then
        { s with eeprom := save_settings pf false s.params s.eeprom }
      else s
    else s
  else
    let s := { s with LAST_BUTTON := button, last_button_press_time := toULong pf now }
    if button = SELECT then
      let mode := toInt pf (s.CURRENT_MODE + 1)
      let mode := if mode = NO_MODE then LEAK_TEST else mode
      { s with CURRENT_MODE := mode, PARAM_NUM := 0 }
    else if button = LEFT then
      if s.CURRENT_MODE = LEAK_TEST ∨ s.CURRENT_MODE = FULL_FLOW_MODE then
        { s with PARAM_NUM := 0 }
      else if s.CURRENT_MODE = RPM_MODE then
        { s with PARAM_NUM := Int.tmod (toInt pf (s.PARAM_NUM + 1)) 3 }
      else if s.CURRENT_MODE = PWM_MODE then
        { s with PARAM_NUM := Int.tmod (toInt pf (s.PARAM_NUM + 1)) 2 }
      else { s with PARAM_NUM := 0 }
    else if button = UP ∨ button = DOWN then
      let increase := decide (button = UP)
      if s.CURRENT_MODE = LEAK_TEST then
        { s with params :=
            { s.params with leak := leak_test_change_param pf s.params.leak s.PARAM_NUM increase } }
      else if s.CURRENT_MODE = FULL_FLOW_MODE then
        { s with params :=
            { s.params with
              full_flow := full_flow_mode_change_param pf s.params.full_flow s.PARAM_NUM increase } }
      else if s.CURRENT_MODE = RPM_MODE then
        { s with params :=
            { s.params with rpm := rpm_mode_change_param pf s.params.rpm s.PARAM_NUM increase } }
      else if s.CURRENT_MODE = PWM_MODE then
        { s with params :=
            { s.params with pwm := pwm_mode_change_param pf s.params.pwm s.PARAM_NUM increase } }
      else s
    else s

/-- The globals after a sequence of passes; each input is the pair of the analog
reading and the clock reading of one pass. -/
def run (pf : Platform) (s : State) (inputs : List (Int × Int)) : State :=
  inputs.foldl (fun st i => loop pf st i.1 i.2) s

/-- The number of editable fields of a mode, as the specification gives it: 1 for the
leak test and full flow, 3 for RPM mode, 2 for PWM mode (and none for a value that is
not one of the four modes). -/
def fieldCount (mode : operation_t) : Int :=
  if mode = LEAK_TEST ∨ mode = FULL_FLOW_MODE then 1
  else if mode = RPM_MODE then 3
  else if mode = PWM_MODE then 2
  else 0

/-- The mode is one of the four test modes and `PARAM_NUM` indexes one of its
fields. -/
def validSelection (s : State) : Prop :=
  (s.CURRENT_MODE = LEAK_TEST ∨ s.CURRENT_MODE = RPM_MODE ∨
    s.CURRENT_MODE = FULL_FLOW_MODE ∨ s.CURRENT_MODE = PWM_MODE) ∧
  0 ≤ s.PARAM_NUM ∧ s.PARAM_NUM < fieldCount s.CURRENT_MODE

instance (s : State) : Decidable (validSelection s) := by
  unfold validSelection; infer_instance

/-- What one edit does to a member of `bytes` bytes: the new value `new` lies in
`[lo, hi]`, and it is the clamp of `cur + d * step` whenever that sum is a value of the
member's type. -/
def stepsTo (bytes : Nat) (cur step lo hi d new : Int) : Prop :=
  lo ≤ new ∧ new ≤ hi ∧
  (fitsSigned bytes (cur + d * step) → new = clamp (cur + d * step) lo hi)

/-- The parameter globals after `load_settings` from an erased EEPROM (every cell
`0xFF`) on the AVR target: every current value is `-1`. -/
def erasedStore : ParameterStore := load_settings avr defaultStore (fun _ => 255)

/-- A store that exercises the full width of the 64-bit member: the defaults with
`microseconds` at the most negative `long long`. -/
def widestStore : ParameterStore :=
  { defaultStore with pwm := { PWM_PARAMS with microseconds := -9223372036854775808 } }

/-- Whether the binary32 computation for `rpm = r` ends at the integer quotient
`120000000 / r`. -/
def cycleCheck (r : Nat) : Bool := cycle_time_magnitude r == 120000000 / r

/-- The check `cycleCheck` on the `2 ^ k` values from `lo` upwards, by halving. -/
def cycleCheckBlock : Nat → Nat → Bool
  | 0, lo => cycleCheck lo
  | k + 1, lo => cycleCheckBlock k lo && cycleCheckBlock k (lo + 2 ^ k)

/-- The cyclic successor of a mode as the specification orders the modes:
LeakTest, Rpm, FullFlow, Pwm, and LeakTest again. -/
def cyclicSuccessor (mode : operation_t) : operation_t :=
  if mode = LEAK_TEST then RPM_MODE
  else if mode = RPM_MODE then FULL_FLOW_MODE
  else if mode = FULL_FLOW_MODE then PWM_MODE
  else LEAK_TEST

/-- The number of fresh presses of button `b` in a sequence of sampled buttons: the
samples equal to `b` whose predecessor (`last` for the first sample) is not `b`. -/
def freshCount (b : button_t) : button_t → List button_t → Nat
  | _, [] => 0
  | last, c :: rest => (if c = b ∧ last ≠ b then 1 else 0) + freshCount b c rest

/-- The buttons sampled by a sequence of passes. -/
def samples (inputs : List (Int × Int)) : List button_t :=
  inputs.map fun i => get_button i.1

/-! ## Example inputs -/

/-- The initial state over the default store, moved to the given mode and field. -/
def exampleState (mode : operation_t) (param : Int) : State :=
  { initialState defaultStore (fun _ => 255) with CURRENT_MODE := mode, PARAM_NUM := param }

/-- Nine passes with four fresh SELECT presses: the first is held for two seconds, the
others are separated by passes that sample no button. -/
def fourSelectPresses : List (Int × Int) :=
  [(700, 10), (700, 2000000), (900, 2000100), (650, 2000200), (1023, 2000300),
   (1023, 2000400), (799, 2000500), (800, 2000600), (600, 2000700)]

/-- Six passes with three fresh LEFT presses. -/
def threeLeftPresses : List (Int × Int) :=
  [(500, 10), (500, 20), (900, 30), (400, 40), (1000, 50), (599, 60)]

/-- Four passes with two fresh LEFT presses. -/
def twoLeftPresses : List (Int × Int) :=
  [(450, 10), (900, 30), (900, 40), (599, 60)]

/-! ## Outputs, events and the microsecond clock (lines 460-635)

The pump relay pin and the injector port are fields of a `Machine`; everything the
sketch does to the outside world is appended to its `trace`.  Text is not part of the
trace: a display update is recorded by its row (the text of the two status lines is
given separately, by `set_top_line_buf` and `set_bottom_line_buf`), and the serial log is
left out.  `micros()` returns the readings of a list in order; a routine that needs a reading when none is
left has not returned within the readings supplied. -/

/-- The routines whose calls are recorded at their call sites. -/
inductive Routine where
  | save_settings
  | do_leak_test_mode
  | do_constant_rpm_mode
  | do_full_flow_mode
  | do_pwm_mode
deriving DecidableEq

/-- One observable action of the sketch. -/
inductive Event where
  | call (r : Routine)
  | pump_relay (high : Bool)
  | injectors (portb : Nat)
  | delay (ms : Int)
  | delayMicroseconds (us : Int)
  | lcd (row : Nat)
  | pin_mode_output
deriving DecidableEq

/-- The globals together with the output pins: `pump_relay` is the level of the relay
pin (`true` is HIGH, pump off), `PORTB` the injector port, `DDRB` its direction
register. -/
structure Machine where
  globals : State
  pump_relay : Bool
  PORTB : Nat
  DDRB : Nat
  trace : List Event

/-- What a routine has done with the clock readings supplied: the machine it left, the
readings it did not consume, and whether it returned (`false`: it is still inside,
waiting for a reading of `micros()`). -/
structure Outcome where
  machine : Machine
  clock : List Int
  returned : Bool

/-- Conversion to `unsigned int`. -/
def toUInt (pf : Platform) (x : Int) : Int := wrapUnsigned (8 * pf.sizeof_int) x

/-- `pin_ALL_INJECTORS_MASK`: the four injector bits of `PORTB`. -/
def pin_ALL_INJECTORS_MASK : Nat := 8 ||| 4 ||| 2 ||| 1

/-- Append one event to the trace. -/
def emit (m : Machine) (e : Event) : Machine := { m with trace := m.trace ++ [e] }

/-- `digitalWrite(pin_FUEL_PUMP_RELAY, level)`. -/
def digitalWrite_pump (m : Machine) (high : Bool) : Machine :=
  emit { m with pump_relay := high } (Event.pump_relay high)

/-- `PORTB = PORTB | pin_ALL_INJECTORS_MASK`. -/
def open_injectors (m : Machine) : Machine :=
  emit { m with PORTB := m.PORTB ||| pin_ALL_INJECTORS_MASK }
    (Event.injectors (m.PORTB ||| pin_ALL_INJECTORS_MASK))

/-- `PORTB = PORTB & (~pin_ALL_INJECTORS_MASK)`, the complement taken within the eight
bits of the port. -/
def close_injectors (m : Machine) : Machine :=
  emit { m with PORTB := m.PORTB &&& (255 - pin_ALL_INJECTORS_MASK) }
    (Event.injectors (m.PORTB &&& (255 - pin_ALL_INJECTORS_MASK)))

/-- `delay(ms)`. -/
def delay (m : Machine) (ms : Int) : Machine := emit m (Event.delay ms)

/-- `delayMicroseconds(us)`: the parameter of the Arduino primitive is an
`unsigned int`, so the argument is converted to that type. -/
def delayMicroseconds (pf : Platform) (m : Machine) (us : Int) : Machine :=
  emit m (Event.delayMicroseconds (toUInt pf us))

/-- The recursion of `do_longer_delay` with an explicit bound on its depth: the
arguments of the successive `delayMicroseconds` calls. -/
def do_longer_delay_steps : Nat → Int → List Int
  | 0, _ => []
  | fuel + 1, microseconds =>
    if microseconds > 16383 then 16383 :: do_longer_delay_steps fuel (microseconds - 16383)
    else [microseconds]

/-- `do_longer_delay(microseconds)`.  The recursion makes one call more than the number
of times 16383 fits below the argument, which is the depth allowed here. -/
def do_longer_delay (pf : Platform) (m : Machine) (microseconds : Int) : Machine :=
  (do_longer_delay_steps (microseconds.toNat / 16383 + 1) microseconds).foldl
    (delayMicroseconds pf) m

/-- The value of `end_time` in the timed procedures: `start_time = micros()` stored in
a `long`, plus `(long)(seconds * 1000000L)`. -/
def end_time (pf : Platform) (reading seconds : Int) : Int :=
  let start_time := toLong pf (toULong pf reading)
  toLong pf (start_time + toLong pf (seconds * 1000000))

/-- The loop test `end_time > micros()`: the `long` is converted to `unsigned long` for
the comparison with the reading. -/
def wait_continues (pf : Platform) (end_time reading : Int) : Prop :=
  toULong pf end_time > toULong pf reading

instance (pf : Platform) (e r : Int) : Decidable (wait_continues pf e r) := by
  unfold wait_continues; infer_instance

/-- The `do ... while (end_time > micros())` loop of `do_leak_test_mode` and of
`do_full_flow_mode` (lines 546-551, 583-588): each round reads the clock for the
"seconds left" line, prints it on row 1, and reads the clock again for the test. -/
def status_wait (pf : Platform) (end_time : Int) : List Int → Machine → Outcome
  | [], m => { machine := m, clock := [], returned := false }
  | [_], m => { machine := emit m (Event.lcd 1), clock := [], returned := false }
  | _ :: t :: rest, m =>
    if wait_continues pf end_time t then status_wait pf end_time rest (emit m (Event.lcd 1))
    else { machine := emit m (Event.lcd 1), clock := rest, returned := true }

/-- `do_leak_test_mode`. -/
def do_leak_test_mode (pf : Platform) (m : Machine) (clock : List Int) : Outcome :=
  let seconds := m.globals.params.leak.seconds
  match clock with
  | [] => { machine := m, clock := [], returned := false }
  | start :: clock =>
    let end_time := end_time pf start seconds
    let m := digitalWrite_pump m false
    let r := status_wait pf end_time clock m
    if r.returned then { r with machine := digitalWrite_pump r.machine true } else r

/-- `do_full_flow_mode`. -/
def do_full_flow_mode (pf : Platform) (m : Machine) (clock : List Int) : Outcome :=
  let seconds := m.globals.params.full_flow.seconds
  let m := digitalWrite_pump m false
  let m := delay m 2000
  match clock with
  | [] => { machine := m, clock := [], returned := false }
  | start :: clock =>
    let end_time := end_time pf start seconds
    let m := open_injectors m
    let r := status_wait pf end_time clock m
    if r.returned then
      { r with machine := close_injectors (digitalWrite_pump r.machine true) }
    else r

/-- The body of the pulse loop of `do_constant_rpm_mode` (lines 512-518). -/
def rpm_pulse (pf : Platform) (injector_open_time injector_close_time : Int)
    (m : Machine) : Machine :=
  let m := open_injectors m
  let m := do_longer_delay pf m injector_open_time
  let m := close_injectors m
  do_longer_delay pf m injector_close_time

/-- The `do ... while (end_time > micros())` loop of `do_constant_rpm_mode`: one pulse,
then one clock reading for the test. -/
def rpm_pulse_loop (pf : Platform) (end_time injector_open_time injector_close_time : Int) :
    List Int → Machine → Outcome
  | [], m =>
    { machine := rpm_pulse pf injector_open_time injector_close_time m, clock := [],
      returned := false }
  | t :: rest, m =>
    if wait_continues pf end_time t then
      rpm_pulse_loop pf end_time injector_open_time injector_close_time rest
        (rpm_pulse pf injector_open_time injector_close_time m)
    else
      { machine := rpm_pulse pf injector_open_time injector_close_time m, clock := rest,
        returned := true }

/-- `do_constant_rpm_mode`.  Where the intervals have no value (`rpm = 0`) the
behaviour is undefined from the first line on; the model stops there. -/
def do_constant_rpm_mode (pf : Platform) (m : Machine) (clock : List Int) : Outcome :=
  let seconds := m.globals.params.rpm.seconds
  match do_constant_rpm_mode_intervals pf m.globals.params.rpm with
  | none => { machine := m, clock := clock, returned := false }
  | some t =>
    let m := emit m (Event.lcd 0)
    let m := digitalWrite_pump m false
    let m := delay m 2000
    match clock with
    | [] => { machine := m, clock := [], returned := false }
    | start :: clock =>
      let end_time := end_time pf start seconds
      let r := rpm_pulse_loop pf end_time t.injector_open_time t.injector_close_time clock m
      if r.returned then { r with machine := digitalWrite_pump r.machine true } else r

/-- The `for` loop of `do_pwm_mode` (lines 614-631), `n` rounds: injectors on,
`delayMicroseconds(pulsewidth)`, injectors off, the "pulses left" line on row 0,
`delay(500)`. -/
def pwm_pulse_loop (pf : Platform) (pulsewidth : Int) : Nat → Machine → Machine
  | 0, m => m
  | n + 1, m =>
    let m := open_injectors m
    let m := delayMicroseconds pf m pulsewidth
    let m := close_injectors m
    let m := emit m (Event.lcd 0)
    let m := delay m 500
    pwm_pulse_loop pf pulsewidth n m

/-- `do_pwm_mode`.  The loop `for (int p = 0; p < pulses; p++)` makes `pulses` rounds,
none if `pulses` is not positive. -/
def do_pwm_mode (pf : Platform) (m : Machine) : Machine :=
  let pulsewidth := m.globals.params.pwm.microseconds
  let pulses := toLong pf m.globals.params.pwm.pulses
  let m := digitalWrite_pump m false
  let m := delay m 2000
  let m := pwm_pulse_loop pf pulsewidth pulses.toNat m
  digitalWrite_pump m true
/-! ## The routines of `setup` and `loop` on the machine (lines 176-345, 637-791) -/

/-- `set_top_line`: one print on row 0. -/
def set_top_line (m : Machine) (_mode : operation_t) (_running : Bool) : Machine :=
  emit m (Event.lcd 0)

/-- `set_bottom_line`: one print on row 1. -/
def set_bottom_line (m : Machine) (_mode : operation_t) (_button : button_t) : Machine :=
  emit m (Event.lcd 1)

/-- `save_settings(immediate)` on the machine: without `immediate` the two message
lines and `delay(5000)` come first; then the seven `EEPROM.put` calls. -/
def save_settings_run (pf : Platform) (immediate : Bool) (m : Machine) : Machine :=
  let m := if immediate then m else delay (emit (emit m (Event.lcd 0)) (Event.lcd 1)) 5000
  let eeprom := save_settings pf immediate m.globals.params m.globals.eeprom
  { m with globals := { m.globals with eeprom := eeprom } }

/-- `load_settings()` on the machine: the two message lines, `delay(1000)`, then the
seven `EEPROM.get` calls into the globals. -/
def load_settings_run (pf : Platform) (m : Machine) : Machine :=
  let m := delay (emit (emit m (Event.lcd 0)) (Event.lcd 1)) 1000
  let params := load_settings pf m.globals.params m.globals.eeprom
  { m with globals := { m.globals with params := params } }

/-- `setup()`, with `x` the analog reading taken at power-up. -/
def setup (pf : Platform) (m : Machine) (x : Int) : Machine :=
  let m :=
    if x ≥ 600 ∧ x < 800 then
      let m := delay (emit (emit m (Event.lcd 0)) (Event.lcd 1)) 3000
      save_settings_run pf true (emit m (Event.call Routine.save_settings))
    else m
  let m := load_settings_run pf m
  let m := emit m Event.pin_mode_output
  let m := digitalWrite_pump m true
  let m := { m with DDRB := m.DDRB ||| 15 }
  let m := set_top_line m m.globals.CURRENT_MODE false
  set_bottom_line m m.globals.CURRENT_MODE NO_BUTTON

/-- The machine at power-up: the globals as initialised, over the given EEPROM
content. -/
def bootMachine (e : Eeprom) : Machine :=
  { globals := initialState defaultStore e, pump_relay := false, PORTB := 0, DDRB := 0,
    trace := [] }

/-- One pass of `loop` on the machine, with the calls of the test procedures and of
`save_settings`, the display updates, and the readings of `micros()` taken from
`clock`. -/
def loop_pass (pf : Platform) (m : Machine) (x : Int) (clock : List Int) : Outcome :=
  let button := get_button x
  if m.globals.LAST_BUTTON = button then
    if button = UP ∨ button = DOWN then
      match clock with
      | [] => { machine := m, clock := [], returned := false }
      | now :: clock =>
        let threshold : Int :=
          if (m.globals.CURRENT_MODE = PWM_MODE ∧ m.globals.PARAM_NUM = 1) ∨
             (m.globals.CURRENT_MODE = RPM_MODE ∧ m.globals.PARAM_NUM = 2) then 100000
          else 300000
        if toULong pf (toULong pf now - m.globals.last_button_press_time) > threshold then
          { machine := { m with globals := { m.globals with LAST_BUTTON := NO_BUTTON } },
            clock := clock, returned := true }
        else { machine := m, clock := clock, returned := true }
    else if button = SELECT then
      match clock with
      | [] => { machine := m, clock := [], returned := false }
      | now :: clock =>
        let threshold : Int := 1000000
        if toULong pf (toULong pf now - m.globals.last_button_press_time) > threshold then
          { machine := save_settings_run pf false (emit m (Event.call Routine.save_settings)),
            clock := clock, returned := true }
        else { machine := m, clock := clock, returned := true }
    else { machine := m, clock := clock, returned := true }
  else
    let m := { m with globals := { m.globals with LAST_BUTTON := button } }
    match clock with
    | [] => { machine := m, clock := [], returned := false }
    | now :: clock =>
      let m := { m with globals := { m.globals with last_button_press_time := toULong pf now } }
      let g := m.globals
      let r : Outcome :=
        if button = SELECT then
          let mode := toInt pf (g.CURRENT_MODE + 1)
          let mode := if mode = NO_MODE then LEAK_TEST else mode
          { machine := { m with globals := { g with CURRENT_MODE := mode, PARAM_NUM := 0 } },
            clock := clock, returned := true }
        else if button = LEFT then
          if g.CURRENT_MODE = LEAK_TEST ∨ g.CURRENT_MODE = FULL_FLOW_MODE then
            { machine := { m with globals := { g with PARAM_NUM := 0 } },
              clock := clock, returned := true }
          else if g.CURRENT_MODE = RPM_MODE then
            { machine :=
                { m with globals :=
                    { g with PARAM_NUM := Int.tmod (toInt pf (g.PARAM_NUM + 1)) 3 } },
              clock := clock, returned := true }
          else if g.CURRENT_MODE = PWM_MODE then
            { machine :=
                { m with globals :=
                    { g with PARAM_NUM := Int.tmod (toInt pf (g.PARAM_NUM + 1)) 2 } },
              clock := clock, returned := true }
          else
            { machine := { m with globals := { g with PARAM_NUM := 0 } },
              clock := clock, returned := true }
        else if button = UP ∨ button = DOWN then
          let increase := decide (button = UP)
          if g.CURRENT_MODE = LEAK_TEST then
            { machine :=
                { m with globals :=
                    { g with params :=
                        { g.params with
                          leak := leak_test_change_param pf g.params.leak g.PARAM_NUM increase } } },
              clock := clock, returned := true }
          else if g.CURRENT_MODE = FULL_FLOW_MODE then
            { machine :=
                { m with globals :=
                    { g with params :=
                        { g.params with
                          full_flow :=
                            full_flow_mode_change_param pf g.params.full_flow g.PARAM_NUM
                              increase } } },
              clock := clock, returned := true }
          else if g.CURRENT_MODE = RPM_MODE then
            { machine :=
                { m with globals :=
                    { g with params :=
                        { g.params with
                          rpm := rpm_mode_change_param pf g.params.rpm g.PARAM_NUM increase } } },
              clock := clock, returned := true }
          else if g.CURRENT_MODE = PWM_MODE then
            { machine :=
                { m with globals :=
                    { g with params :=
                        { g.params with
                          pwm := pwm_mode_change_param pf g.params.pwm g.PARAM_NUM increase } } },
              clock := clock, returned := true }
          else { machine := m, clock := clock, returned := true }
        else if button = RIGHT then
          if g.CURRENT_MODE = RPM_MODE then
            do_constant_rpm_mode pf (emit m (Event.call Routine.do_constant_rpm_mode)) clock
          else if g.CURRENT_MODE = LEAK_TEST then
            do_leak_test_mode pf (emit m (Event.call Routine.do_leak_test_mode)) clock
          else if g.CURRENT_MODE = FULL_FLOW_MODE then
            do_full_flow_mode pf (emit m (Event.call Routine.do_full_flow_mode)) clock
          else if g.CURRENT_MODE = PWM_MODE then
            { machine := do_pwm_mode pf (emit m (Event.call Routine.do_pwm_mode)),
              clock := clock, returned := true }
          else { machine := m, clock := clock, returned := true }
        else { machine := m, clock := clock, returned := true }
      if r.returned then
        let top := set_top_line r.machine r.machine.globals.CURRENT_MODE false
        { r with machine := set_bottom_line top top.globals.CURRENT_MODE button }
      else r

/-! ## Observations used in the statements -/

/-- The calls recorded in a list of events, in order. -/
def callsIn : List Event → List Routine
  | [] => []
  | Event.call r :: rest => r :: callsIn rest
  | _ :: rest => callsIn rest

/-- The values written to the injector port in a list of events, in order. -/
def injectorWrites : List Event → List Nat
  | [] => []
  | Event.injectors v :: rest => v :: injectorWrites rest
  | _ :: rest => injectorWrites rest

/-- The machine with an empty trace: what it records from here on is what happens from
here on. -/
def observe (m : Machine) : Machine := { m with trace := [] }

/-- All four injector bits of the port are 0. -/
def injectorsClosed (m : Machine) : Prop := m.PORTB &&& pin_ALL_INJECTORS_MASK = 0

instance (m : Machine) : Decidable (injectorsClosed m) := by
  unfold injectorsClosed; infer_instance

/-- The hold threshold of lines 679-685 as a function of the selection: 100000
microseconds on the microseconds field of PWM mode and on the duty field of RPM mode,
300000 elsewhere. -/
def hold_threshold (mode : operation_t) (param : Int) : Int :=
  if (mode = PWM_MODE ∧ param = 1) ∨ (mode = RPM_MODE ∧ param = 2) then 100000 else 300000

/-- The elapsed time `now - last_button_press_time` in `unsigned long`. -/
def elapsed (pf : Platform) (s : State) (now : Int) : Int :=
  toULong pf (toULong pf now - s.last_button_press_time)

/-- One step of the field selected by `(mode, param)`, as the switch of lines 743-760
dispatches it. -/
def stepSelected (pf : Platform) (mode : operation_t) (param : Int) (increase : Bool)
    (P : ParameterStore) : ParameterStore :=
  if mode = LEAK_TEST then applyEdit pf P (Edit.leak_test param increase)
  else if mode = FULL_FLOW_MODE then applyEdit pf P (Edit.full_flow param increase)
  else if mode = RPM_MODE then applyEdit pf P (Edit.rpm_mode param increase)
  else if mode = PWM_MODE then applyEdit pf P (Edit.pwm_mode param increase)
  else P

/-- The store `P` with the current value of the field selected by `(mode, param)` set to
`v`: seconds in the leak test and in full flow; seconds, rpm, duty for fields 0, 1, 2 of
RPM mode; pulses, microseconds for fields 0, 1 of PWM mode; `P` itself where the pair
selects no field. -/
def setSelected (mode : operation_t) (param : Int) (v : Int) (P : ParameterStore) :
    ParameterStore :=
  if mode = LEAK_TEST then { P with leak := { P.leak with seconds := v } }
  else if mode = FULL_FLOW_MODE then { P with full_flow := { P.full_flow with seconds := v } }
  else if mode = RPM_MODE then
    if param = 0 then { P with rpm := { P.rpm with seconds := v } }
    else if param = 1 then { P with rpm := { P.rpm with rpm := v } }
    else if param = 2 then { P with rpm := { P.rpm with duty := v } }
    else P
  else if mode = PWM_MODE then
    if param = 0 then { P with pwm := { P.pwm with pulses := v } }
    else if param = 1 then { P with pwm := { P.pwm with microseconds := v } }
    else P
  else P

/-- The two stores agree on every `min`, `max` and `step` member. -/
def sameConstants (P Q : ParameterStore) : Prop :=
  (P.leak.max_seconds = Q.leak.max_seconds ∧ P.leak.min_seconds = Q.leak.min_seconds ∧
    P.leak.second_step = Q.leak.second_step) ∧
  (P.full_flow.max_seconds = Q.full_flow.max_seconds ∧
    P.full_flow.min_seconds = Q.full_flow.min_seconds ∧
    P.full_flow.second_step = Q.full_flow.second_step) ∧
  (P.rpm.max_seconds = Q.rpm.max_seconds ∧ P.rpm.min_seconds = Q.rpm.min_seconds ∧
    P.rpm.second_step = Q.rpm.second_step) ∧
  (P.rpm.max_rpm = Q.rpm.max_rpm ∧ P.rpm.min_rpm = Q.rpm.min_rpm ∧
    P.rpm.rpm_step = Q.rpm.rpm_step) ∧
  (P.rpm.max_duty = Q.rpm.max_duty ∧ P.rpm.min_duty = Q.rpm.min_duty ∧
    P.rpm.duty_step = Q.rpm.duty_step) ∧
  (P.pwm.max_pulses = Q.pwm.max_pulses ∧ P.pwm.min_pulses = Q.pwm.min_pulses ∧
    P.pwm.pulse_step = Q.pwm.pulse_step) ∧
  (P.pwm.max_microseconds = Q.pwm.max_microseconds ∧
    P.pwm.min_microseconds = Q.pwm.min_microseconds ∧
    P.pwm.microsecond_step = Q.pwm.microsecond_step)

/-! ## Example states and machines -/

/-- RPM mode on the duty field, with UP recorded as pressed at time 0. -/
def heldUpOnDuty : State := { exampleState RPM_MODE 2 with LAST_BUTTON := UP }

/-- The machine over the given globals, with the pump off and the injectors closed. -/
def idleMachine (g : State) : Machine :=
  { globals := g, pump_relay := true, PORTB := 0, DDRB := 15, trace := [] }

/-- The initial state in the given mode with `LAST_BUTTON` set to `b`. -/
def heldState (mode : operation_t) (b : button_t) : State :=
  { exampleState mode 0 with LAST_BUTTON := b }

/-- PWM mode with the given pulse count and pulse width in `PWM_PARAMS`. -/
def pwmState (pulses microseconds : Int) : State :=
  { initialState
      { defaultStore with
        pwm := { PWM_PARAMS with pulses := pulses, microseconds := microseconds } }
      (fun _ => 255) with CURRENT_MODE := PWM_MODE }

/-- The arguments of the `delayMicroseconds` calls in a list of events, in order. -/
def microsecondDelays : List Event → List Int
  | [] => []
  | Event.delayMicroseconds us :: rest => us :: microsecondDelays rest
  | _ :: rest => microsecondDelays rest

/-- The bookkeeping of a fresh press (lines 705-708): `LAST_BUTTON = button` and
`last_button_press_time = micros()`. -/
def record_press (pf : Platform) (m : Machine) (button : button_t) (now : Int) : Machine :=
  { m with globals :=
      { m.globals with LAST_BUTTON := button, last_button_press_time := toULong pf now } }

/-- The end of the fresh-press branch (lines 787-789): once the dispatch has returned,
`set_top_line(CURRENT_MODE, false)` and `set_bottom_line(CURRENT_MODE, button)`. -/
def refresh_display (r : Outcome) (button : button_t) : Outcome :=
  if r.returned then
    let top := set_top_line r.machine r.machine.globals.CURRENT_MODE false
    { r with machine := set_bottom_line top top.globals.CURRENT_MODE button }
  else r

/-- The machine in its idle state on the leak test with SELECT as the last button, pressed
at time 0. -/
def heldSelectMachine : Machine := idleMachine (heldState LEAK_TEST SELECT)

/-- The idle machine in mode `mode` with no button down. -/
def readyMachine (mode : operation_t) : Machine := idleMachine (exampleState mode 0)

/-- The RPM record of the initialisers with a duty of 150, a value that only a loaded
image can bring in. -/
def overDutyParams : rpm_mode_params := { RPM_MODE_PARAMS with duty := 150 }

/-! ## The text of the two display lines (lines 176-252) -/

/-- The conversion `%d` of `snprintf` for an `int`: the decimal digits, after a minus sign
for a negative value. -/
def fmt_d (x : Int) : List Char :=
  if x < 0 then '-' :: Nat.toDigits 10 x.natAbs else Nat.toDigits 10 x.natAbs

/-- The conversion `%02d`: as `%d`, filled with zeros after the sign up to a width of
two characters. -/
def fmt_02d (x : Int) : List Char :=
  let sign : List Char := if x < 0 then ['-'] else []
  let digits := Nat.toDigits 10 x.natAbs
  sign ++ List.replicate (2 - (sign.length + digits.length)) '0' ++ digits

/-- What `snprintf(buf, size, ...)` leaves in `buf` before the terminator, given the text
`out` that the format produces: its first `size - 1` characters. -/
def snprintf (size : Nat) (out : List Char) : List Char := out.take (size - 1)

/-- The content of `buf` that `set_top_line` prints on row 0. -/
def set_top_line_buf (mode : operation_t) (running : Bool) : List Char :=
  let buf :=
    if mode = LEAK_TEST then snprintf 17 (String.toList "Leak Test Mode  ")
    else if mode = RPM_MODE then snprintf 17 (String.toList "RPM Mode        ")
    else if mode = FULL_FLOW_MODE then snprintf 17 (String.toList "Full Flow Mode  ")
    else if mode = PWM_MODE then snprintf 17 (String.toList "PWM Mode        ")
    else snprintf 17 (String.toList "Unknown mode    ")
  if running then buf.set 15 '*' else buf

/-- The content of `buf` that `set_bottom_line` prints on row 1, from the globals
`PARAM_NUM` and the four parameter records.  The format of the `default` case ends in
`%l`, which is no conversion: no text is defined there. -/
def set_bottom_line_buf (pf : Platform) (s : State) (mode : operation_t)
    (_button : button_t) : Option (List Char) :=
  let p0_marker : List Char := if s.PARAM_NUM = 0 then ['>'] else [' ']
  let p1_marker : List Char := if s.PARAM_NUM = 1 then ['>'] else [' ']
  let p2_marker : List Char := if s.PARAM_NUM = 2 then ['>'] else [' ']
  if mode = LEAK_TEST then
    some (snprintf 17
      (['>'] ++ fmt_d s.params.leak.seconds ++ String.toList " seconds      "))
  else if mode = FULL_FLOW_MODE then
    some (snprintf 17
      (['>'] ++ fmt_d s.params.full_flow.seconds ++ String.toList " seconds      "))
  else if mode = RPM_MODE then
    some (snprintf 17
      (p0_marker ++ fmt_d s.params.rpm.seconds ++ ['s'] ++ p1_marker ++
        fmt_d s.params.rpm.rpm ++ String.toList "rpm" ++ p2_marker ++
        fmt_d s.params.rpm.duty ++ String.toList "%     "))
  else if mode = PWM_MODE then
    let us := s.params.pwm.microseconds
    let us_big := toLong pf (Int.tdiv us 1000)
    let us_small := toLong pf (Int.tdiv (Int.tmod us 1000) 10)
    some (snprintf 17
      (p0_marker ++ fmt_d s.params.pwm.pulses ++ String.toList "p " ++ p1_marker ++
        fmt_d (toInt pf us_big) ++ ['.'] ++ fmt_02d (toInt pf us_small) ++
        String.toList "ms     "))
  else none

/-- The name that the display shows for a mode. -/
def modeTitle (mode : operation_t) : List Char :=
  if mode = LEAK_TEST then String.toList "Leak Test Mode"
  else if mode = RPM_MODE then String.toList "RPM Mode"
  else if mode = FULL_FLOW_MODE then String.toList "Full Flow Mode"
  else if mode = PWM_MODE then String.toList "PWM Mode"
  else String.toList "Unknown mode"

/-- The fields of a mode as the bottom line words them, in order: the value of each
field with its unit. -/
def fieldTexts (s : State) (mode : operation_t) : List (List Char) :=
  if mode = LEAK_TEST then [fmt_d s.params.leak.seconds ++ String.toList " seconds"]
  else if mode = FULL_FLOW_MODE then
    [fmt_d s.params.full_flow.seconds ++ String.toList " seconds"]
  else if mode = RPM_MODE then
    [fmt_d s.params.rpm.seconds ++ ['s'], fmt_d s.params.rpm.rpm ++ String.toList "rpm",
     fmt_d s.params.rpm.duty ++ ['%']]
  else if mode = PWM_MODE then
    [fmt_d s.params.pwm.pulses ++ String.toList "p ",
     fmt_d (s.params.pwm.microseconds / 1000) ++ ['.'] ++
       fmt_02d (s.params.pwm.microseconds % 1000 / 10) ++ String.toList "ms"]
  else []

/-- The fields with their markers: `>` before the field number `selected`, a space
before every other field; `index` is the number of the first field of the list. -/
def markedFields (selected : Int) : Int → List (List Char) → List Char
  | _, [] => []
  | index, text :: rest =>
    ((if index = selected then '>' else ' ') :: text) ++ markedFields selected (index + 1) rest

/-- The text padded with spaces to 16 characters. -/
def padded16 (text : List Char) : List Char := text ++ List.replicate (16 - text.length) ' '
/-- The initial state in RPM mode with the largest in-range values, the rpm field
selected. -/
def widestRpmState : State :=
  { exampleState RPM_MODE 1 with
    params := { defaultStore with
      rpm := { RPM_MODE_PARAMS with seconds := 60, rpm := 6000, duty := 99 } } }

/-! # Theorems -/

/-! ## Arithmetic facts about the machine integers -/

theorem two_pow_split (b : Nat) (hb : 1 ≤ b) : (2 : Int) ^ b = 2 * 2 ^ (b - 1) := by
  obtain ⟨k, rfl⟩ : ∃ k, b = k + 1 := ⟨b - 1, by omega⟩
  simp [pow_succ, mul_comm]

theorem wrapSigned_of_fits (b : Nat) (hb : 1 ≤ b) (x : Int)
    (h1 : -(2 ^ (b - 1)) ≤ x) (h2 : x < 2 ^ (b - 1)) : wrapSigned b x = x := by
  unfold wrapSigned
  have hs := two_pow_split b hb
  rw [Int.emod_eq_of_lt (by omega) (by omega)]
  omega

theorem wrapSigned_range (b : Nat) (hb : 1 ≤ b) (x : Int) :
    -(2 ^ (b - 1)) ≤ wrapSigned b x ∧ wrapSigned b x < 2 ^ (b - 1) := by
  unfold wrapSigned
  have hs := two_pow_split b hb
  have hp : (0 : Int) < 2 ^ b := by positivity
  have h1 := Int.emod_nonneg (x + 2 ^ (b - 1)) (ne_of_gt hp)
  have h2 := Int.emod_lt_of_pos (x + 2 ^ (b - 1)) hp
  constructor <;> omega

theorem pow_bound_mono (a b : Nat) (h : a ≤ b) : (2 : Int) ^ a ≤ 2 ^ b :=
  pow_le_pow_right₀ (by norm_num) h

theorem toInt_of_small (pf : Platform) (hc : pf.conforming) (x : Int)
    (h1 : -32768 ≤ x) (h2 : x < 32768) : toInt pf x = x := by
  obtain ⟨_, _, _, _, _, _⟩ := hc
  have hb := pow_bound_mono 15 (8 * pf.sizeof_int - 1) (by omega)
  norm_num at hb
  exact wrapSigned_of_fits _ (by omega) x (by omega) (by omega)

theorem toShort_of_small (pf : Platform) (hc : pf.conforming) (x : Int)
    (h1 : -32768 ≤ x) (h2 : x < 32768) : toShort pf x = x := by
  obtain ⟨_, _, _, _, _, _⟩ := hc
  have hb := pow_bound_mono 15 (8 * pf.sizeof_short - 1) (by omega)
  norm_num at hb
  exact wrapSigned_of_fits _ (by omega) x (by omega) (by omega)

theorem toLong_of_small (pf : Platform) (hc : pf.conforming) (x : Int)
    (h1 : -2147483648 ≤ x) (h2 : x < 2147483648) : toLong pf x = x := by
  obtain ⟨_, _, _, _, _, _⟩ := hc
  have hb := pow_bound_mono 31 (8 * pf.sizeof_long - 1) (by omega)
  norm_num at hb
  exact wrapSigned_of_fits _ (by omega) x (by omega) (by omega)

theorem toLongLong_of_small (pf : Platform) (hc : pf.conforming) (x : Int)
    (h1 : -9223372036854775808 ≤ x) (h2 : x < 9223372036854775808) : toLongLong pf x = x := by
  obtain ⟨_, _, _, _, _, _⟩ := hc
  have hb := pow_bound_mono 63 (8 * pf.sizeof_long_long - 1) (by omega)
  norm_num at hb
  exact wrapSigned_of_fits _ (by omega) x (by omega) (by omega)

theorem toInt_of_fits (pf : Platform) (hc : pf.conforming) (x : Int)
    (h : fitsSigned pf.sizeof_int x) : toInt pf x = x := by
  obtain ⟨_, _, _, _, _, _⟩ := hc
  exact wrapSigned_of_fits _ (by omega) x h.1 h.2

theorem toShort_of_fits (pf : Platform) (hc : pf.conforming) (x : Int)
    (h : fitsSigned pf.sizeof_short x) : toShort pf x = x := by
  obtain ⟨_, _, _, _, _, _⟩ := hc
  exact wrapSigned_of_fits _ (by omega) x h.1 h.2

theorem toLongLong_of_fits (pf : Platform) (hc : pf.conforming) (x : Int)
    (h : fitsSigned pf.sizeof_long_long x) : toLongLong pf x = x := by
  obtain ⟨_, _, _, _, _, _⟩ := hc
  exact wrapSigned_of_fits _ (by omega) x h.1 h.2

theorem fitsSigned_of_small (n : Nat) (hn : 2 ≤ n) (x : Int) (h1 : -32768 ≤ x)
    (h2 : x < 32768) : fitsSigned n x := by
  have hb := pow_bound_mono 15 (8 * n - 1) (by omega)
  norm_num at hb
  constructor <;> omega

theorem fitsSigned_mono (m n : Nat) (hm : 1 ≤ m) (hmn : m ≤ n) (x : Int)
    (h : fitsSigned m x) : fitsSigned n x := by
  have hb := pow_bound_mono (8 * m - 1) (8 * n - 1) (by omega)
  obtain ⟨h1, h2⟩ := h
  constructor <;> omega

theorem toShort_fits (pf : Platform) (hc : pf.conforming) (x : Int) :
    fitsSigned pf.sizeof_short (toShort pf x) := by
  obtain ⟨_, _, _, _, _, _⟩ := hc
  exact wrapSigned_range _ (by omega) x

/-- The two conditional assignments that follow the sum are the clamp. -/
theorem clamp_chain (s1 lo hi : Int) (h : lo ≤ hi) :
    (if (if s1 > hi then hi else s1) < lo then lo else (if s1 > hi then hi else s1))
      = clamp s1 lo hi ∧
    lo ≤ clamp s1 lo hi ∧ clamp s1 lo hi ≤ hi := by
  unfold clamp
  split_ifs <;> omega

/-- The update of an `int` member, for a small step and small bounds. -/
theorem int_member_step (pf : Platform) (hc : pf.conforming) (cur step lo hi : Int)
    (inc : Bool) (hs : -32768 < step ∧ step < 32768) (hle : lo ≤ hi) :
    stepsTo pf.sizeof_int cur step lo hi (if inc then 1 else -1)
      (if (if toInt pf (cur + toInt pf ((if inc then 1 else -1) * step)) > hi then hi
           else toInt pf (cur + toInt pf ((if inc then 1 else -1) * step))) < lo then lo
       else (if toInt pf (cur + toInt pf ((if inc then 1 else -1) * step)) > hi then hi
             else toInt pf (cur + toInt pf ((if inc then 1 else -1) * step)))) := by
  have hm : toInt pf ((if inc = true then 1 else -1) * step)
      = (if inc = true then 1 else -1) * step := by
    apply toInt_of_small pf hc <;> cases inc <;> simp <;> omega
  rw [hm]
  have hcl := clamp_chain (toInt pf (cur + (if inc = true then 1 else -1) * step)) lo hi hle
  rw [hcl.1]
  refine ⟨hcl.2.1, hcl.2.2, fun hf => ?_⟩
  rw [toInt_of_fits pf hc _ hf]

/-- The update of the `long long` member. -/
theorem long_long_member_step (pf : Platform) (hc : pf.conforming) (cur step lo hi : Int)
    (inc : Bool) (hs : -32768 < step ∧ step < 32768) (hle : lo ≤ hi) :
    stepsTo pf.sizeof_long_long cur step lo hi (if inc then 1 else -1)
      (if (if toLongLong pf (cur + toLongLong pf ((if inc then 1 else -1) * step)) > hi then hi
           else toLongLong pf (cur + toLongLong pf ((if inc then 1 else -1) * step))) < lo
       then lo
       else (if toLongLong pf (cur + toLongLong pf ((if inc then 1 else -1) * step)) > hi
             then hi
             else toLongLong pf (cur + toLongLong pf ((if inc then 1 else -1) * step)))) := by
  have hm : toLongLong pf ((if inc = true then 1 else -1) * step)
      = (if inc = true then 1 else -1) * step := by
    apply toLongLong_of_small pf hc <;> cases inc <;> simp <;> omega
  rw [hm]
  have hcl :=
    clamp_chain (toLongLong pf (cur + (if inc = true then 1 else -1) * step)) lo hi hle
  rw [hcl.1]
  refine ⟨hcl.2.1, hcl.2.2, fun hf => ?_⟩
  rw [toLongLong_of_fits pf hc _ hf]

/-- The update of the `short` member `duty`. -/
theorem short_member_step (pf : Platform) (hc : pf.conforming) (cur step lo hi : Int)
    (inc : Bool) (hs : -32768 < step ∧ step < 32768) (hle : lo ≤ hi)
    (hlo : -32768 ≤ lo) (hhi : hi < 32768) :
    stepsTo pf.sizeof_short cur step lo hi (if inc then 1 else -1)
      (toShort pf
        (if toShort pf
              (if toShort pf (toInt pf (cur + toInt pf ((if inc then 1 else -1) * step))) > hi
               then hi
               else toShort pf (toInt pf (cur + toInt pf ((if inc then 1 else -1) * step))))
            < lo
         then lo
         else toShort pf
              (if toShort pf (toInt pf (cur + toInt pf ((if inc then 1 else -1) * step))) > hi
               then hi
               else toShort pf
                 (toInt pf (cur + toInt pf ((if inc then 1 else -1) * step)))))) := by
  have hm : toInt pf ((if inc = true then 1 else -1) * step)
      = (if inc = true then 1 else -1) * step := by
    apply toInt_of_small pf hc <;> cases inc <;> simp <;> omega
  rw [hm]
  generalize hd1 :
    toShort pf (toInt pf (cur + (if inc = true then 1 else -1) * step)) = d1
  have hcs := hc
  obtain ⟨hs2, hsi, _, _, _, _⟩ := hcs
  have hd1f : fitsSigned pf.sizeof_short d1 := hd1 ▸ toShort_fits pf hc _
  have hlof : fitsSigned pf.sizeof_short lo :=
    fitsSigned_of_small _ hs2 lo hlo (by omega)
  have hhif : fitsSigned pf.sizeof_short hi :=
    fitsSigned_of_small _ hs2 hi (by omega) hhi
  have h2 : toShort pf (if d1 > hi then hi else d1) = (if d1 > hi then hi else d1) := by
    split_ifs
    · exact toShort_of_fits pf hc _ hhif
    · exact toShort_of_fits pf hc _ hd1f
  rw [h2]
  have h3 : toShort pf (if (if d1 > hi then hi else d1) < lo then lo
              else (if d1 > hi then hi else d1))
      = (if (if d1 > hi then hi else d1) < lo then lo else (if d1 > hi then hi else d1)) := by
    split_ifs
    · exact toShort_of_fits pf hc _ hlof
    · exact toShort_of_fits pf hc _ hhif
    · exact toShort_of_fits pf hc _ hlof
    · exact toShort_of_fits pf hc _ hd1f
  rw [h3]
  have hcl := clamp_chain d1 lo hi hle
  rw [hcl.1]
  refine ⟨hcl.2.1, hcl.2.2, fun hf => ?_⟩
  rw [← hd1, toInt_of_fits pf hc _ (fitsSigned_mono _ _ (by omega) hsi _ hf),
    toShort_of_fits pf hc _ hf]

/-- The clamp invariant together with the untouched constants is kept by every edit. -/
theorem applyEdit_keeps (pf : Platform) (hc : pf.conforming) (S : ParameterStore) (e : Edit)
    (hk : hasDefaultConstants S) :
    hasDefaultConstants (applyEdit pf S e) ∧ (inRange S → inRange (applyEdit pf S e)) := by
  obtain ⟨⟨a1, a2, a3⟩, ⟨b1, b2, b3⟩, ⟨c1, c2, c3⟩, ⟨d1, d2, d3⟩, ⟨e1, e2, e3⟩,
    ⟨f1, f2, f3⟩, ⟨g1, g2, g3⟩⟩ := hk
  cases e with
  | leak_test p i =>
    have h := int_member_step pf hc S.leak.seconds 10 10 300 i (by norm_num) (by norm_num)
    refine ⟨?_, fun hr => ?_⟩
    · simp [hasDefaultConstants, applyEdit, leak_test_change_param, *]
    · simp only [inRange, applyEdit, leak_test_change_param, a1, a2, a3] at hr ⊢
      exact ⟨⟨h.1, h.2.1⟩, hr.2⟩
  | full_flow p i =>
    have h := int_member_step pf hc S.full_flow.seconds 1 1 30 i (by norm_num) (by norm_num)
    refine ⟨?_, fun hr => ?_⟩
    · simp [hasDefaultConstants, applyEdit, full_flow_mode_change_param, *]
    · simp only [inRange, applyEdit, full_flow_mode_change_param, b1, b2, b3] at hr ⊢
      exact ⟨hr.1, ⟨h.1, h.2.1⟩, hr.2.2⟩
  | rpm_mode p i =>
    have h0 := int_member_step pf hc S.rpm.seconds 1 5 60 i (by norm_num) (by norm_num)
    have h1 := int_member_step pf hc S.rpm.rpm 200 600 6000 i (by norm_num) (by norm_num)
    have h2 := short_member_step pf hc S.rpm.duty 1 1 99 i (by norm_num) (by norm_num)
      (by norm_num) (by norm_num)
    by_cases p0 : p = 0
    · refine ⟨?_, fun hr => ?_⟩
      · simp [hasDefaultConstants, applyEdit, rpm_mode_change_param, if_pos p0, *]
      · simp only [inRange, applyEdit, rpm_mode_change_param, if_pos p0, c1, c2, c3] at hr ⊢
        exact ⟨hr.1, hr.2.1, ⟨h0.1, h0.2.1⟩, hr.2.2.2⟩
    by_cases p1 : p = 1
    · refine ⟨?_, fun hr => ?_⟩
      · simp [hasDefaultConstants, applyEdit, rpm_mode_change_param, if_neg p0, if_pos p1, *]
      · simp only [inRange, applyEdit, rpm_mode_change_param, if_neg p0, if_pos p1,
          d1, d2, d3] at hr ⊢
        exact ⟨hr.1, hr.2.1, hr.2.2.1, ⟨h1.1, h1.2.1⟩, hr.2.2.2.2⟩
    by_cases p2 : p = 2
    · refine ⟨?_, fun hr => ?_⟩
      · simp [hasDefaultConstants, applyEdit, rpm_mode_change_param, if_neg p0, if_neg p1,
          if_pos p2, *]
      · simp only [inRange, applyEdit, rpm_mode_change_param, if_neg p0, if_neg p1, if_pos p2,
          e1, e2, e3] at hr ⊢
        exact ⟨hr.1, hr.2.1, hr.2.2.1, hr.2.2.2.1, ⟨h2.1, h2.2.1⟩, hr.2.2.2.2.2⟩
    · refine ⟨?_, fun hr => ?_⟩
      · simp [hasDefaultConstants, applyEdit, rpm_mode_change_param, if_neg p0, if_neg p1,
          if_neg p2, *]
      · simpa only [inRange, applyEdit, rpm_mode_change_param, if_neg p0, if_neg p1,
          if_neg p2] using hr
  | pwm_mode p i =>
    have h0 := int_member_step pf hc S.pwm.pulses 1 1 100 i (by norm_num) (by norm_num)
    have h1 := long_long_member_step pf hc S.pwm.microseconds 10 100 1000000 i (by norm_num)
      (by norm_num)
    by_cases p0 : p = 0
    · refine ⟨?_, fun hr => ?_⟩
      · simp [hasDefaultConstants, applyEdit, pwm_mode_change_param, if_pos p0, *]
      · simp only [inRange, applyEdit, pwm_mode_change_param, if_pos p0, f1, f2, f3] at hr ⊢
        exact ⟨hr.1, hr.2.1, hr.2.2.1, hr.2.2.2.1, hr.2.2.2.2.1, ⟨h0.1, h0.2.1⟩,
          hr.2.2.2.2.2.2⟩
    by_cases p1 : p = 1
    · refine ⟨?_, fun hr => ?_⟩
      · simp [hasDefaultConstants, applyEdit, pwm_mode_change_param, if_neg p0, if_pos p1, *]
      · simp only [inRange, applyEdit, pwm_mode_change_param, if_neg p0, if_pos p1,
          g1, g2, g3] at hr ⊢
        exact ⟨hr.1, hr.2.1, hr.2.2.1, hr.2.2.2.1, hr.2.2.2.2.1, hr.2.2.2.2.2.1,
          ⟨h1.1, h1.2.1⟩⟩
    · refine ⟨?_, fun hr => ?_⟩
      · simp [hasDefaultConstants, applyEdit, pwm_mode_change_param, if_neg p0, if_neg p1, *]
      · simpa only [inRange, applyEdit, pwm_mode_change_param, if_neg p0, if_neg p1] using hr

theorem applyEdits_keeps (pf : Platform) (hc : pf.conforming) (es : List Edit) :
    ∀ S : ParameterStore, hasDefaultConstants S → inRange S →
      hasDefaultConstants (applyEdits pf S es) ∧ inRange (applyEdits pf S es) := by
  induction es with
  | nil => intro S hk hr; exact ⟨hk, hr⟩
  | cons e es ih =>
    intro S hk hr
    have h := applyEdit_keeps pf hc S e hk
    exact ih (applyEdit pf S e) h.1 (h.2 hr)

/-- C1. Starting from the initialised parameter records, after any finite sequence of
calls of `leak_test_change_param`, `full_flow_mode_change_param`, `rpm_mode_change_param`
and `pwm_mode_change_param` (any `p`, either direction) every one of the seven current
values still lies between its `min` and its `max`. -/
theorem edits_stay_in_range (pf : Platform) (hc : pf.conforming) (es : List Edit) :
    inRange (applyEdits pf defaultStore es) :=
  (applyEdits_keeps pf hc es defaultStore (by decide) (by decide)).2

/-- C1, witness: nine edits on the AVR target, among them three decreases of the rpm
(which saturate at `min_rpm`). -/
theorem edits_stay_in_range_witness :
    avr.conforming ∧
    inRange (applyEdits avr defaultStore
      [Edit.rpm_mode 1 false, Edit.rpm_mode 1 false, Edit.rpm_mode 1 false,
       Edit.rpm_mode 2 true, Edit.rpm_mode 0 false, Edit.pwm_mode 1 false,
       Edit.pwm_mode 0 true, Edit.leak_test 0 true, Edit.full_flow 0 false]) :=
  ⟨by decide, edits_stay_in_range avr (by decide) _⟩

/-- C2 (amended). With the constants of the initialisers, one call of an edit function
in direction `d` (`+1` to increase, `-1` to decrease) on any current value leaves the
edited member inside `[min, max]`, and sets it to `clamp (current + d * step) min max`
whenever `current + d * step` is a value of the member's C type (`int`, `short` for
`duty`, `long long` for `microseconds`). -/
theorem change_param_clamps_representable_sum (pf : Platform) (hc : pf.conforming)
    (S : ParameterStore) (hk : hasDefaultConstants S) (p : Int) (inc : Bool) :
    stepsTo pf.sizeof_int S.leak.seconds S.leak.second_step S.leak.min_seconds
      S.leak.max_seconds (if inc then 1 else -1)
      (leak_test_change_param pf S.leak p inc).seconds ∧
    stepsTo pf.sizeof_int S.full_flow.seconds S.full_flow.second_step
      S.full_flow.min_seconds S.full_flow.max_seconds (if inc then 1 else -1)
      (full_flow_mode_change_param pf S.full_flow p inc).seconds ∧
    stepsTo pf.sizeof_int S.rpm.seconds S.rpm.second_step S.rpm.min_seconds
      S.rpm.max_seconds (if inc then 1 else -1)
      (rpm_mode_change_param pf S.rpm 0 inc).seconds ∧
    stepsTo pf.sizeof_int S.rpm.rpm S.rpm.rpm_step S.rpm.min_rpm S.rpm.max_rpm
      (if inc then 1 else -1) (rpm_mode_change_param pf S.rpm 1 inc).rpm ∧
    stepsTo pf.sizeof_short S.rpm.duty S.rpm.duty_step S.rpm.min_duty S.rpm.max_duty
      (if inc then 1 else -1) (rpm_mode_change_param pf S.rpm 2 inc).duty ∧
    stepsTo pf.sizeof_int S.pwm.pulses S.pwm.pulse_step S.pwm.min_pulses S.pwm.max_pulses
      (if inc then 1 else -1) (pwm_mode_change_param pf S.pwm 0 inc).pulses ∧
    stepsTo pf.sizeof_long_long S.pwm.microseconds S.pwm.microsecond_step
      S.pwm.min_microseconds S.pwm.max_microseconds (if inc then 1 else -1)
      (pwm_mode_change_param pf S.pwm 1 inc).microseconds := by
  obtain ⟨⟨a1, a2, a3⟩, ⟨b1, b2, b3⟩, ⟨c1, c2, c3⟩, ⟨d1, d2, d3⟩, ⟨e1, e2, e3⟩,
    ⟨f1, f2, f3⟩, ⟨g1, g2, g3⟩⟩ := hk
  refine ⟨?_, ?_, ?_, ?_, ?_, ?_, ?_⟩
  · simp only [leak_test_change_param, a1, a2, a3]
    exact int_member_step pf hc S.leak.seconds 10 10 300 inc (by norm_num) (by norm_num)
  · simp only [full_flow_mode_change_param, b1, b2, b3]
    exact int_member_step pf hc S.full_flow.seconds 1 1 30 inc (by norm_num) (by norm_num)
  · simp only [rpm_mode_change_param, c1, c2, c3, if_pos]
    exact int_member_step pf hc S.rpm.seconds 1 5 60 inc (by norm_num) (by norm_num)
  · simp only [rpm_mode_change_param, d1, d2, d3, if_pos, one_ne_zero, if_false]
    exact int_member_step pf hc S.rpm.rpm 200 600 6000 inc (by norm_num) (by norm_num)
  · have h20 : ¬ ((2 : Int) = 0) := by decide
    have h21 : ¬ ((2 : Int) = 1) := by decide
    simp only [rpm_mode_change_param, e1, e2, e3, if_pos, if_neg h20, if_neg h21]
    exact short_member_step pf hc S.rpm.duty 1 1 99 inc (by norm_num) (by norm_num)
      (by norm_num) (by norm_num)
  · simp only [pwm_mode_change_param, f1, f2, f3, if_pos]
    exact int_member_step pf hc S.pwm.pulses 1 1 100 inc (by norm_num) (by norm_num)
  · simp only [pwm_mode_change_param, g1, g2, g3, if_pos, one_ne_zero, if_false]
    exact long_long_member_step pf hc S.pwm.microseconds 10 100 1000000 inc (by norm_num)
      (by norm_num)

/-- C2, counterexample. A `microseconds` value of `2 ^ 63 - 1` (a 64-bit pattern that
`load_settings` can read from storage) is increased: the sum wraps, and the member ends
at `min_microseconds = 100` where the clamp of the sum is `max_microseconds`. -/
theorem change_param_wraps_at_type_limit :
    (pwm_mode_change_param avr { PWM_PARAMS with microseconds := 9223372036854775807 } 1
        true).microseconds = 100 ∧
    clamp (9223372036854775807 + 1 * PWM_PARAMS.microsecond_step)
      PWM_PARAMS.min_microseconds PWM_PARAMS.max_microseconds = 1000000 := by
  decide

/-- C2, witness: the store loaded from an erased EEPROM (every value `-1`) on the AVR
target, one increase. -/
theorem change_param_clamps_representable_sum_witness :
    avr.conforming ∧ hasDefaultConstants erasedStore ∧
    (stepsTo avr.sizeof_int erasedStore.leak.seconds erasedStore.leak.second_step
      erasedStore.leak.min_seconds erasedStore.leak.max_seconds (if true then 1 else -1)
      (leak_test_change_param avr erasedStore.leak 0 true).seconds ∧
    stepsTo avr.sizeof_int erasedStore.full_flow.seconds erasedStore.full_flow.second_step
      erasedStore.full_flow.min_seconds erasedStore.full_flow.max_seconds
      (if true then 1 else -1)
      (full_flow_mode_change_param avr erasedStore.full_flow 0 true).seconds ∧
    stepsTo avr.sizeof_int erasedStore.rpm.seconds erasedStore.rpm.second_step
      erasedStore.rpm.min_seconds erasedStore.rpm.max_seconds (if true then 1 else -1)
      (rpm_mode_change_param avr erasedStore.rpm 0 true).seconds ∧
    stepsTo avr.sizeof_int erasedStore.rpm.rpm erasedStore.rpm.rpm_step
      erasedStore.rpm.min_rpm erasedStore.rpm.max_rpm
      (if true then 1 else -1) (rpm_mode_change_param avr erasedStore.rpm 1 true).rpm ∧
    stepsTo avr.sizeof_short erasedStore.rpm.duty erasedStore.rpm.duty_step
      erasedStore.rpm.min_duty erasedStore.rpm.max_duty
      (if true then 1 else -1) (rpm_mode_change_param avr erasedStore.rpm 2 true).duty ∧
    stepsTo avr.sizeof_int erasedStore.pwm.pulses erasedStore.pwm.pulse_step
      erasedStore.pwm.min_pulses erasedStore.pwm.max_pulses
      (if true then 1 else -1) (pwm_mode_change_param avr erasedStore.pwm 0 true).pulses ∧
    stepsTo avr.sizeof_long_long erasedStore.pwm.microseconds
      erasedStore.pwm.microsecond_step erasedStore.pwm.min_microseconds
      erasedStore.pwm.max_microseconds (if true then 1 else -1)
      (pwm_mode_change_param avr erasedStore.pwm 1 true).microseconds) :=
  ⟨by decide, by decide,
    change_param_clamps_representable_sum avr (by decide) erasedStore (by decide) 0 true⟩

/-! ## Storage lemmas -/

theorem writeBytes_outside (n : Nat) : ∀ (e : Eeprom) (idx v a : Nat),
    (a < idx ∨ idx + n ≤ a) → writeBytes n e idx v a = e a := by
  induction n with
  | zero => intro e idx v a _; rfl
  | succ n ih =>
    intro e idx v a h
    rw [writeBytes, ih _ _ _ _ (by omega)]
    unfold writeByte
    rw [if_neg (by omega)]

theorem readBytes_congr (n : Nat) : ∀ (e e' : Eeprom) (idx : Nat),
    (∀ a, idx ≤ a → a < idx + n → e a = e' a) → readBytes n e idx = readBytes n e' idx := by
  induction n with
  | zero => intro e e' idx _; rfl
  | succ n ih =>
    intro e e' idx h
    rw [readBytes, readBytes, h idx (le_refl _) (by omega),
      ih e e' (idx + 1) (fun a h1 h2 => h a (by omega) (by omega))]

theorem readBytes_writeBytes (n : Nat) : ∀ (e : Eeprom) (idx v : Nat),
    readBytes n (writeBytes n e idx v) idx = v % 256 ^ n := by
  induction n with
  | zero => intro e idx v; simp [readBytes, Nat.mod_one]
  | succ n ih =>
    intro e idx v
    rw [readBytes, writeBytes, ih, writeBytes_outside n _ _ _ _ (by omega)]
    unfold writeByte
    have hp : 256 ^ (n + 1) = 256 * 256 ^ n := by ring
    rw [if_pos rfl, Nat.mod_mod, hp, Nat.mod_mul]

theorem pow256 (n : Nat) : (256 : Int) ^ n = 2 ^ (8 * n) := by
  rw [pow_mul]; norm_num

/-- Reading back the object just written gives its value reduced to the object's width. -/
theorem EEPROM_get_put_same (e : Eeprom) (idx size : Nat) (v : Int) :
    EEPROM_get (EEPROM_put e idx size v) idx size = wrapSigned (8 * size) v := by
  unfold EEPROM_get EEPROM_put
  rw [readBytes_writeBytes]
  have hp : (0 : Int) < 2 ^ (8 * size) := by positivity
  have h0 : 0 ≤ v % 2 ^ (8 * size) := Int.emod_nonneg _ (ne_of_gt hp)
  have h1 : v % 2 ^ (8 * size) < 2 ^ (8 * size) := Int.emod_lt_of_pos _ hp
  have hcast : (((v % 2 ^ (8 * size)).toNat % 256 ^ size : Nat) : Int) = v % 2 ^ (8 * size) := by
    push_cast
    rw [Int.toNat_of_nonneg h0, pow256, Int.emod_emod_of_dvd _ (dvd_refl _)]
  rw [hcast]
  unfold wrapSigned
  rw [Int.emod_add_emod]

/-- A write to cells disjoint from the cells read does not change what is read. -/
theorem EEPROM_get_put_other (e : Eeprom) (idx size idx' size' : Nat) (v : Int)
    (h : idx + size ≤ idx' ∨ idx' + size' ≤ idx) :
    EEPROM_get (EEPROM_put e idx' size' v) idx size = EEPROM_get e idx size := by
  unfold EEPROM_get EEPROM_put
  rw [readBytes_congr size _ e idx
    (fun a h1 h2 => writeBytes_outside size' e idx' _ a (by omega))]

theorem EEPROM_put_outside (e : Eeprom) (idx size : Nat) (v : Int) (a : Nat)
    (h : a < idx ∨ idx + size ≤ a) : EEPROM_put e idx size v a = e a :=
  writeBytes_outside size e idx _ a h

/-- What `load_settings` reads right after `save_settings`: the seven saved values,
each reduced to the width of its member. -/
theorem load_after_save (pf : Platform) (imm : Bool) (S T : ParameterStore) (e : Eeprom) :
    load_settings pf T (save_settings pf imm S e) =
      { leak := { T.leak with seconds := toInt pf S.leak.seconds },
        rpm := { T.rpm with seconds := toInt pf S.rpm.seconds,
                            duty := toShort pf S.rpm.duty,
                            rpm := toInt pf S.rpm.rpm },
        full_flow := { T.full_flow with seconds := toInt pf S.full_flow.seconds },
        pwm := { T.pwm with pulses := toInt pf S.pwm.pulses,
                            microseconds := toLongLong pf S.pwm.microseconds } } := by
  simp (disch := omega) only [load_settings, save_settings, EEPROM_get_put_other,
    EEPROM_get_put_same, toInt, toShort, toLongLong]

theorem writeBytes_inside (n : Nat) : ∀ (e e' : Eeprom) (idx v a : Nat),
    idx ≤ a → a < idx + n → writeBytes n e idx v a = writeBytes n e' idx v a := by
  induction n with
  | zero => intro e e' idx v a h1 h2; omega
  | succ n ih =>
    intro e e' idx v a h1 h2
    rw [writeBytes, writeBytes]
    by_cases ha : a = idx
    · rw [writeBytes_outside n _ _ _ _ (by omega), writeBytes_outside n _ _ _ _ (by omega)]
      unfold writeByte
      rw [if_pos ha, if_pos ha]
    · exact ih _ _ _ _ _ (by omega) (by omega)

/-- A cell inside the object written does not depend on the previous content; a cell
outside keeps it. -/
theorem EEPROM_put_agree (e e' : Eeprom) (idx size : Nat) (v : Int) (a : Nat)
    (h : (idx ≤ a ∧ a < idx + size) ∨ e a = e' a) :
    EEPROM_put e idx size v a = EEPROM_put e' idx size v a := by
  by_cases hin : idx ≤ a ∧ a < idx + size
  · exact writeBytes_inside size e e' idx _ a hin.1 hin.2
  · rw [EEPROM_put_outside e idx size v a (by omega),
      EEPROM_put_outside e' idx size v a (by omega)]
    rcases h with h | h
    · exact absurd h hin
    · exact h

/-- C3. For every parameter store whose seven current values fit the C types of their
members, `load_settings` after `save_settings` puts exactly those seven values (the
64-bit `microseconds` included) into the globals and leaves every `min`, `max` and
`step` member as it was: loading into the store that was saved gives that store back. -/
theorem save_then_load_restores (pf : Platform) (hc : pf.conforming) (S : ParameterStore)
    (hf : fitsFields pf S) (imm : Bool) (e : Eeprom) :
    load_settings pf S (save_settings pf imm S e) = S ∧
    ∀ T : ParameterStore, load_settings pf T (save_settings pf imm S e) =
      { leak := { T.leak with seconds := S.leak.seconds },
        rpm := { T.rpm with seconds := S.rpm.seconds, duty := S.rpm.duty, rpm := S.rpm.rpm },
        full_flow := { T.full_flow with seconds := S.full_flow.seconds },
        pwm := { T.pwm with pulses := S.pwm.pulses,
                            microseconds := S.pwm.microseconds } } := by
  obtain ⟨h1, h2, h3, h4, h5, h6, h7⟩ := hf
  have key : ∀ T : ParameterStore, load_settings pf T (save_settings pf imm S e) =
      { leak := { T.leak with seconds := S.leak.seconds },
        rpm := { T.rpm with seconds := S.rpm.seconds, duty := S.rpm.duty, rpm := S.rpm.rpm },
        full_flow := { T.full_flow with seconds := S.full_flow.seconds },
        pwm := { T.pwm with pulses := S.pwm.pulses,
                            microseconds := S.pwm.microseconds } } := by
    intro T
    rw [load_after_save, toInt_of_fits pf hc _ h1, toInt_of_fits pf hc _ h2,
      toShort_of_fits pf hc _ h3, toInt_of_fits pf hc _ h4, toInt_of_fits pf hc _ h5,
      toInt_of_fits pf hc _ h6, toLongLong_of_fits pf hc _ h7]
  exact ⟨key S, key⟩

/-- C3, witness: the store with the most negative 64-bit `microseconds`, saved over an
erased EEPROM on the AVR target. -/
theorem save_then_load_restores_witness :
    avr.conforming ∧ fitsFields avr widestStore ∧
    (load_settings avr widestStore (save_settings avr true widestStore (fun _ => 255))
      = widestStore ∧
    ∀ T : ParameterStore,
      load_settings avr T (save_settings avr true widestStore (fun _ => 255)) =
      { leak := { T.leak with seconds := widestStore.leak.seconds },
        rpm := { T.rpm with seconds := widestStore.rpm.seconds,
                            duty := widestStore.rpm.duty, rpm := widestStore.rpm.rpm },
        full_flow := { T.full_flow with seconds := widestStore.full_flow.seconds },
        pwm := { T.pwm with pulses := widestStore.pwm.pulses,
                            microseconds := widestStore.pwm.microseconds } }) :=
  ⟨by decide, by decide,
    save_then_load_restores avr (by decide) widestStore (by decide) true (fun _ => 255)⟩

/-- C4 (amended). `save_settings` writes the seven members in the order
leak seconds, rpm-mode seconds, duty, rpm, full-flow seconds, pulses, microseconds, each
at the running sum of the `sizeof` of the members before it, starting at 0; the cells
below the total size are all written (their content no longer depends on what the
EEPROM held) and the cells from the total size on are untouched; `load_settings` reads
each member at the same address with the same size.  On the AVR target the addresses
are 0, 2, 4, 6, 8, 10, 12 and the image has 20 bytes; with a four-byte `int` they are
0, 4, 8, 10, 14, 18, 22 and the image has 30 bytes. -/
theorem settings_image_layout (pf : Platform) (imm : Bool) (S T : ParameterStore)
    (e : Eeprom) :
    let I := pf.sizeof_int
    let H := pf.sizeof_short
    let Q := pf.sizeof_long_long
    save_settings pf imm S e =
      EEPROM_put (EEPROM_put (EEPROM_put (EEPROM_put (EEPROM_put (EEPROM_put (EEPROM_put e
        0 I S.leak.seconds)
        I I S.rpm.seconds)
        (I + I) H S.rpm.duty)
        (I + I + H) I S.rpm.rpm)
        (I + I + H + I) I S.full_flow.seconds)
        (I + I + H + I + I) I S.pwm.pulses)
        (I + I + H + I + I + I) Q S.pwm.microseconds ∧
    load_settings pf T e =
      { leak := { T.leak with seconds := EEPROM_get e 0 I },
        rpm := { T.rpm with seconds := EEPROM_get e I I,
                            duty := EEPROM_get e (I + I) H,
                            rpm := EEPROM_get e (I + I + H) I },
        full_flow := { T.full_flow with seconds := EEPROM_get e (I + I + H + I) I },
        pwm := { T.pwm with pulses := EEPROM_get e (I + I + H + I + I) I,
                            microseconds := EEPROM_get e (I + I + H + I + I + I) Q } } ∧
    (∀ a, I + I + H + I + I + I + Q ≤ a → save_settings pf imm S e a = e a) ∧
    (∀ a, a < I + I + H + I + I + I + Q → ∀ e' : Eeprom,
      save_settings pf imm S e a = save_settings pf imm S e' a) ∧
    [0, avr.sizeof_int, avr.sizeof_int + avr.sizeof_int,
      avr.sizeof_int + avr.sizeof_int + avr.sizeof_short,
      avr.sizeof_int + avr.sizeof_int + avr.sizeof_short + avr.sizeof_int,
      avr.sizeof_int + avr.sizeof_int + avr.sizeof_short + avr.sizeof_int + avr.sizeof_int,
      avr.sizeof_int + avr.sizeof_int + avr.sizeof_short + avr.sizeof_int + avr.sizeof_int
        + avr.sizeof_int,
      avr.sizeof_int + avr.sizeof_int + avr.sizeof_short + avr.sizeof_int + avr.sizeof_int
        + avr.sizeof_int + avr.sizeof_long_long] = [0, 2, 4, 6, 8, 10, 12, 20] ∧
    [0, ilp32.sizeof_int, ilp32.sizeof_int + ilp32.sizeof_int,
      ilp32.sizeof_int + ilp32.sizeof_int + ilp32.sizeof_short,
      ilp32.sizeof_int + ilp32.sizeof_int + ilp32.sizeof_short + ilp32.sizeof_int,
      ilp32.sizeof_int + ilp32.sizeof_int + ilp32.sizeof_short + ilp32.sizeof_int
        + ilp32.sizeof_int,
      ilp32.sizeof_int + ilp32.sizeof_int + ilp32.sizeof_short + ilp32.sizeof_int
        + ilp32.sizeof_int + ilp32.sizeof_int,
      ilp32.sizeof_int + ilp32.sizeof_int + ilp32.sizeof_short + ilp32.sizeof_int
        + ilp32.sizeof_int + ilp32.sizeof_int + ilp32.sizeof_long_long]
      = [0, 4, 8, 10, 14, 18, 22, 30] := by
  intro I H Q
  refine ⟨?_, ?_, ?_, ?_, ?_, ?_⟩
  · simp only [save_settings, Nat.zero_add, I, H, Q]
  · simp only [load_settings, Nat.zero_add, I, H, Q]
  · intro a ha
    simp (disch := omega) only [save_settings, EEPROM_put_outside]
  · intro a ha e'
    simp only [save_settings, Nat.zero_add]
    have hcases : a < I ∨ (I ≤ a ∧ a < I + I) ∨ (I + I ≤ a ∧ a < I + I + H) ∨
        (I + I + H ≤ a ∧ a < I + I + H + I) ∨ (I + I + H + I ≤ a ∧ a < I + I + H + I + I) ∨
        (I + I + H + I + I ≤ a ∧ a < I + I + H + I + I + I) ∨
        (I + I + H + I + I + I ≤ a) := by omega
    rcases hcases with h | h | h | h | h | h | h <;>
      repeat (first
        | exact EEPROM_put_agree _ _ _ _ _ _ (Or.inl ⟨by omega, by omega⟩)
        | refine EEPROM_put_agree _ _ _ _ _ _ (Or.inr ?_))
  · rfl
  · rfl

/-- C4, counterexample. On the AVR target the image of the default store does not hold
the four-byte rpm-mode seconds at offset 4 (the two bytes at offset 2 hold it; offset 4
starts `duty` and `rpm`), and cell 22, where a 30-byte image would start
`microseconds`, is not written at all. -/
theorem settings_image_on_avr_is_20_bytes :
    EEPROM_get (save_settings avr true defaultStore (fun _ => 255)) 4 4 = 65536050 ∧
    EEPROM_get (save_settings avr true defaultStore (fun _ => 255)) 2 2
      = defaultStore.rpm.seconds ∧
    EEPROM_get (save_settings avr true defaultStore (fun _ => 255)) 12 8
      = defaultStore.pwm.microseconds ∧
    save_settings avr true defaultStore (fun _ => 255) 22 = 255 ∧
    save_settings avr true defaultStore (fun _ => 0) 22 = 0 := by
  decide

/-- C4, witness: on the AVR target cell 25 keeps its content, and cell 5 is written
whatever the EEPROM held. -/
theorem settings_image_layout_witness :
    save_settings avr true defaultStore (fun _ => 255) 25 = 255 ∧
    save_settings avr true defaultStore (fun _ => 255) 5
      = save_settings avr true defaultStore (fun _ => 0) 5 :=
  ⟨(settings_image_layout avr true defaultStore defaultStore (fun _ => 255)).2.2.1 25
      (by decide),
    (settings_image_layout avr true defaultStore defaultStore (fun _ => 255)).2.2.2.1 5
      (by decide) (fun _ => 0)⟩

/-! ## Timing lemmas -/

theorem log2Go_spec (j : Nat) : ∀ acc n : Nat, 2 ^ acc ≤ n → n < 2 ^ (acc + 2 ^ j) →
    2 ^ log2Go j acc n ≤ n ∧ n < 2 ^ (log2Go j acc n + 1) := by
  induction j with
  | zero => intro acc n h1 h2; exact ⟨h1, h2⟩
  | succ j ih =>
    intro acc n h1 h2
    rw [log2Go]
    have hp : 2 ^ (j + 1) = 2 ^ j + 2 ^ j := by ring
    split_ifs with h
    · exact ih _ n h (by rw [add_assoc, ← hp]; exact h2)
    · exact ih _ n h1 (by omega)

/-- The exponent search is exact below `2 ^ (2 ^ 9)`, that is `2 ^ 512`. -/
theorem floorLog2_spec (n : Nat) (h1 : 1 ≤ n) (h2 : n < 2 ^ (2 ^ 9)) :
    2 ^ floorLog2 n ≤ n ∧ n < 2 ^ (floorLog2 n + 1) :=
  log2Go_spec 9 0 n h1 (by rw [Nat.zero_add]; exact h2)

/-- Known binary32 values: `0.1f = 13421773 / 2 ^ 27`, `1/3` rounds to
`11184811 / 2 ^ 25`, and the ties `2 ^ 24 + 1` and `2 ^ 24 + 3` go to the even
significands; an integer below `2 ^ 24` is kept (as a fraction over `2 ^ 7` here). -/
theorem rn32_known_values :
    rn32 { num := 1, den := 10 } = { num := 13421773, den := 2 ^ 27 } ∧
    rn32 { num := 1, den := 3 } = { num := 11184811, den := 2 ^ 25 } ∧
    rn32 { num := 16777217, den := 1 } = { num := 16777216, den := 1 } ∧
    rn32 { num := 16777219, den := 1 } = { num := 16777220, den := 1 } ∧
    rn32 { num := 120000, den := 1 } = { num := 120000 * 128, den := 128 } := by
  decide

theorem cycleCheckBlock_sound (k : Nat) : ∀ lo : Nat, cycleCheckBlock k lo = true →
    ∀ r, lo ≤ r → r < lo + 2 ^ k → cycle_time_magnitude r = 120000000 / r := by
  induction k with
  | zero =>
    intro lo h r h1 h2
    have hr : r = lo := by simp at h2; omega
    subst hr
    simpa [cycleCheckBlock, cycleCheck] using h
  | succ k ih =>
    intro lo h r h1 h2
    simp only [cycleCheckBlock, Bool.and_eq_true] at h
    have hp : 2 ^ (k + 1) = 2 ^ k + 2 ^ k := by ring
    by_cases hr : r < lo + 2 ^ k
    · exact ih lo h.1 r h1 hr
    · exact ih (lo + 2 ^ k) h.2 r (by omega) (by omega)

theorem cycle_row_00 : cycleCheckBlock 8 600 = true := by decide!

theorem cycle_row_01 : cycleCheckBlock 8 856 = true := by decide!

theorem cycle_row_02 : cycleCheckBlock 8 1112 = true := by decide!

theorem cycle_row_03 : cycleCheckBlock 8 1368 = true := by decide!

theorem cycle_row_04 : cycleCheckBlock 8 1624 = true := by decide!

theorem cycle_row_05 : cycleCheckBlock 8 1880 = true := by decide!

theorem cycle_row_06 : cycleCheckBlock 8 2136 = true := by decide!

theorem cycle_row_07 : cycleCheckBlock 8 2392 = true := by decide!

theorem cycle_row_08 : cycleCheckBlock 8 2648 = true := by decide!

theorem cycle_row_09 : cycleCheckBlock 8 2904 = true := by decide!

theorem cycle_row_10 : cycleCheckBlock 8 3160 = true := by decide!

theorem cycle_row_11 : cycleCheckBlock 8 3416 = true := by decide!

theorem cycle_row_12 : cycleCheckBlock 8 3672 = true := by decide!

theorem cycle_row_13 : cycleCheckBlock 8 3928 = true := by decide!

theorem cycle_row_14 : cycleCheckBlock 8 4184 = true := by decide!

theorem cycle_row_15 : cycleCheckBlock 8 4440 = true := by decide!

theorem cycle_row_16 : cycleCheckBlock 8 4696 = true := by decide!

theorem cycle_row_17 : cycleCheckBlock 8 4952 = true := by decide!

theorem cycle_row_18 : cycleCheckBlock 8 5208 = true := by decide!

theorem cycle_row_19 : cycleCheckBlock 8 5464 = true := by decide!

theorem cycle_row_20 : cycleCheckBlock 8 5720 = true := by decide!

theorem cycle_tail_a : cycleCheckBlock 4 5976 = true := by decide!

theorem cycle_tail_b : cycleCheckBlock 3 5992 = true := by decide!

theorem cycle_tail_c : cycleCheckBlock 0 6000 = true := by decide!

/-- For every `rpm` from 600 to 6000 the binary32 computation gives the truncated
quotient `120000000 / rpm`. -/
theorem cycle_time_magnitude_eq (r : Nat) (h1 : 600 ≤ r) (h2 : r ≤ 6000) :
    cycle_time_magnitude r = 120000000 / r := by
  by_cases h00 : r < 856
  · exact cycleCheckBlock_sound 8 600 cycle_row_00 r (by omega) (by norm_num; omega)
  by_cases h01 : r < 1112
  · exact cycleCheckBlock_sound 8 856 cycle_row_01 r (by omega) (by norm_num; omega)
  by_cases h02 : r < 1368
  · exact cycleCheckBlock_sound 8 1112 cycle_row_02 r (by omega) (by norm_num; omega)
  by_cases h03 : r < 1624
  · exact cycleCheckBlock_sound 8 1368 cycle_row_03 r (by omega) (by norm_num; omega)
  by_cases h04 : r < 1880
  · exact cycleCheckBlock_sound 8 1624 cycle_row_04 r (by omega) (by norm_num; omega)
  by_cases h05 : r < 2136
  · exact cycleCheckBlock_sound 8 1880 cycle_row_05 r (by omega) (by norm_num; omega)
  by_cases h06 : r < 2392
  · exact cycleCheckBlock_sound 8 2136 cycle_row_06 r (by omega) (by norm_num; omega)
  by_cases h07 : r < 2648
  · exact cycleCheckBlock_sound 8 2392 cycle_row_07 r (by omega) (by norm_num; omega)
  by_cases h08 : r < 2904
  · exact cycleCheckBlock_sound 8 2648 cycle_row_08 r (by omega) (by norm_num; omega)
  by_cases h09 : r < 3160
  · exact cycleCheckBlock_sound 8 2904 cycle_row_09 r (by omega) (by norm_num; omega)
  by_cases h10 : r < 3416
  · exact cycleCheckBlock_sound 8 3160 cycle_row_10 r (by omega) (by norm_num; omega)
  by_cases h11 : r < 3672
  · exact cycleCheckBlock_sound 8 3416 cycle_row_11 r (by omega) (by norm_num; omega)
  by_cases h12 : r < 3928
  · exact cycleCheckBlock_sound 8 3672 cycle_row_12 r (by omega) (by norm_num; omega)
  by_cases h13 : r < 4184
  · exact cycleCheckBlock_sound 8 3928 cycle_row_13 r (by omega) (by norm_num; omega)
  by_cases h14 : r < 4440
  · exact cycleCheckBlock_sound 8 4184 cycle_row_14 r (by omega) (by norm_num; omega)
  by_cases h15 : r < 4696
  · exact cycleCheckBlock_sound 8 4440 cycle_row_15 r (by omega) (by norm_num; omega)
  by_cases h16 : r < 4952
  · exact cycleCheckBlock_sound 8 4696 cycle_row_16 r (by omega) (by norm_num; omega)
  by_cases h17 : r < 5208
  · exact cycleCheckBlock_sound 8 4952 cycle_row_17 r (by omega) (by norm_num; omega)
  by_cases h18 : r < 5464
  · exact cycleCheckBlock_sound 8 5208 cycle_row_18 r (by omega) (by norm_num; omega)
  by_cases h19 : r < 5720
  · exact cycleCheckBlock_sound 8 5464 cycle_row_19 r (by omega) (by norm_num; omega)
  by_cases h20 : r < 5976
  · exact cycleCheckBlock_sound 8 5720 cycle_row_20 r (by omega) (by norm_num; omega)
  by_cases ha : r < 5992
  · exact cycleCheckBlock_sound 4 5976 cycle_tail_a r (by omega) (by norm_num; omega)
  by_cases hb : r < 6000
  · exact cycleCheckBlock_sound 3 5992 cycle_tail_b r (by omega) (by norm_num; omega)
  · exact cycleCheckBlock_sound 0 6000 cycle_tail_c r (by omega) (by norm_num; omega)

theorem calculate_720_time_us_in_range (rpm : Int) (h1 : 600 ≤ rpm) (h2 : rpm ≤ 6000) :
    calculate_720_time_us rpm = some (120000000 / rpm) ∧
    20000 ≤ 120000000 / rpm ∧ 120000000 / rpm ≤ 200000 := by
  obtain ⟨r, rfl⟩ : ∃ r : Nat, rpm = (r : Int) := ⟨rpm.toNat, by omega⟩
  have hr1 : 600 ≤ r := by omega
  have hr2 : r ≤ 6000 := by omega
  have hq : ((120000000 / r : Nat) : Int) = 120000000 / (r : Int) := by norm_cast
  have hlo : 20000 ≤ 120000000 / r := (Nat.le_div_iff_mul_le (by omega)).2 (by omega)
  have hhi : 120000000 / r ≤ 200000 := by
    have := Nat.div_le_div_left (a := 120000000) hr1 (by norm_num)
    omega
  refine ⟨?_, ?_, ?_⟩
  · unfold calculate_720_time_us
    rw [if_neg (by omega), if_neg (by omega), Int.natAbs_ofNat,
      cycle_time_magnitude_eq r hr1 hr2, hq]
  · rw [← hq]; omega
  · rw [← hq]; omega

/-- C5. `calculate_720_time_us(1000)` is 120000, and for every `rpm` from 600 to 6000
the function returns (the divisor is not zero) the number of microseconds of
`60 / (rpm / 2)` seconds, `120000000 / rpm` truncated to an integer. -/
theorem calculate_720_time_us_is_truncated_quotient (rpm : Int) (h1 : 600 ≤ rpm)
    (h2 : rpm ≤ 6000) :
    calculate_720_time_us 1000 = some 120000 ∧
    calculate_720_time_us rpm = some (Int.tdiv 120000000 rpm) ∧
    Int.tdiv 120000000 rpm * rpm ≤ 120000000 ∧
    120000000 < (Int.tdiv 120000000 rpm + 1) * rpm := by
  have hq : Int.tdiv 120000000 rpm = 120000000 / rpm :=
    Int.tdiv_eq_ediv (by norm_num) (by omega)
  rw [hq]
  refine ⟨by decide, (calculate_720_time_us_in_range rpm h1 h2).1, ?_, ?_⟩
  · exact Int.ediv_mul_le _ (by omega)
  · have := Int.lt_ediv_add_one_mul_self 120000000 (show (0 : Int) < rpm by omega)
    linarith

/-- C5, witness: 4500 rpm. -/
theorem calculate_720_time_us_is_truncated_quotient_witness :
    (600 : Int) ≤ 4500 ∧ (4500 : Int) ≤ 6000 ∧
    (calculate_720_time_us 1000 = some 120000 ∧
    calculate_720_time_us 4500 = some (Int.tdiv 120000000 4500) ∧
    Int.tdiv 120000000 4500 * 4500 ≤ 120000000 ∧
    120000000 < (Int.tdiv 120000000 4500 + 1) * 4500) :=
  ⟨by decide, by decide,
    calculate_720_time_us_is_truncated_quotient 4500 (by decide) (by decide)⟩

theorem open_time_facts (pf : Platform) (hc : pf.conforming) (rpm duty : Int)
    (h1 : 600 ≤ rpm) (h2 : rpm ≤ 6000) (h3 : 1 ≤ duty) (h4 : duty ≤ 99) :
    ∃ cycle : Int, calculate_720_time_us rpm = some cycle ∧
      20000 ≤ cycle ∧ cycle ≤ 200000 ∧
      0 ≤ duty * cycle ∧ duty * cycle < 2147483648 ∧
      calculate_injector_open_time_us pf rpm duty = some (Int.tdiv (duty * cycle) 100) ∧
      0 < Int.tdiv (duty * cycle) 100 ∧ Int.tdiv (duty * cycle) 100 < cycle := by
  obtain ⟨hv, hlo, hhi⟩ := calculate_720_time_us_in_range rpm h1 h2
  generalize 120000000 / rpm = cycle at hv hlo hhi
  have hp0 : 0 ≤ duty * cycle := mul_nonneg (by omega) (by omega)
  have hp1 : duty * cycle ≤ 99 * cycle := mul_le_mul_of_nonneg_right h4 (by omega)
  have hp2 : 1 * cycle ≤ duty * cycle := mul_le_mul_of_nonneg_right h3 (by omega)
  have hq : Int.tdiv (duty * cycle) 100 = duty * cycle / 100 :=
    Int.tdiv_eq_ediv hp0 (by norm_num)
  refine ⟨cycle, hv, hlo, hhi, hp0, by omega, ?_, ?_, ?_⟩
  · unfold calculate_injector_open_time_us
    rw [hv]
    show some (Int.tdiv (toLong pf (duty * cycle)) 100) = _
    rw [toLong_of_small pf hc _ (by omega) (by omega)]
  · rw [hq]; omega
  · rw [hq]; omega

theorem default_open_time (pf : Platform) (hc : pf.conforming) :
    calculate_injector_open_time_us pf 1000 50 = some 60000 := by
  obtain ⟨c, hc1, _, _, _, _, hc2, _, _⟩ :=
    open_time_facts pf hc 1000 50 (by norm_num) (by norm_num) (by norm_num) (by norm_num)
  have h : calculate_720_time_us 1000 = some 120000 := by decide
  rw [h] at hc1
  cases hc1
  rw [hc2]
  decide

/-- C6. `calculate_injector_open_time_us(1000, 50)` is 60000, and for every `rpm` from
600 to 6000 and every `duty` from 1 to 99 the result is `(duty * cycle) / 100` over the
unbounded integers with truncation toward zero, where `cycle` is the value of
`calculate_720_time_us(rpm)`: the product formed in `long` does not overflow. -/
theorem calculate_injector_open_time_us_exact (pf : Platform) (hc : pf.conforming)
    (rpm duty : Int) (h1 : 600 ≤ rpm) (h2 : rpm ≤ 6000) (h3 : 1 ≤ duty) (h4 : duty ≤ 99) :
    calculate_injector_open_time_us pf 1000 50 = some 60000 ∧
    ∃ cycle : Int, calculate_720_time_us rpm = some cycle ∧
      toLong pf (duty * cycle) = duty * cycle ∧
      -2147483648 ≤ duty * cycle ∧ duty * cycle < 2147483648 ∧
      calculate_injector_open_time_us pf rpm duty = some (Int.tdiv (duty * cycle) 100) := by
  constructor
  · exact default_open_time pf hc
  · obtain ⟨c, hc1, _, _, hp0, hp1, hc2, _, _⟩ := open_time_facts pf hc rpm duty h1 h2 h3 h4
    exact ⟨c, hc1, toLong_of_small pf hc _ (by omega) (by omega), by omega, hp1, hc2⟩

/-- C6, witness: 600 rpm at 99 % duty, the largest product, on the AVR target. -/
theorem calculate_injector_open_time_us_exact_witness :
    avr.conforming ∧ (600 : Int) ≤ 600 ∧ (600 : Int) ≤ 6000 ∧ (1 : Int) ≤ 99 ∧
    (99 : Int) ≤ 99 ∧
    (calculate_injector_open_time_us avr 1000 50 = some 60000 ∧
    ∃ cycle : Int, calculate_720_time_us 600 = some cycle ∧
      toLong avr (99 * cycle) = 99 * cycle ∧
      -2147483648 ≤ 99 * cycle ∧ 99 * cycle < 2147483648 ∧
      calculate_injector_open_time_us avr 600 99 = some (Int.tdiv (99 * cycle) 100)) :=
  ⟨by decide, by decide, by decide, by decide, by decide,
    calculate_injector_open_time_us_exact avr (by decide) 600 99 (by decide) (by decide)
      (by decide) (by decide)⟩

/-- C7. For every `rpm` from 600 to 6000 and every `duty` from 1 to 99 in
`RPM_MODE_PARAMS`, the intervals computed by `do_constant_rpm_mode` satisfy
`0 < open < cycle`; the close interval is `cycle - open`, it is strictly positive, and
`open + close = cycle`.  For the default record (1000 rpm, 50 %) the three intervals
are 120000, 60000 and 60000 microseconds. -/
theorem constant_rpm_intervals_positive (pf : Platform) (hc : pf.conforming)
    (R : rpm_mode_params) (h1 : 600 ≤ R.rpm) (h2 : R.rpm ≤ 6000) (h3 : 1 ≤ R.duty)
    (h4 : R.duty ≤ 99) :
    do_constant_rpm_mode_intervals pf RPM_MODE_PARAMS =
      some { cycle_720_time := 120000, injector_open_time := 60000,
             injector_close_time := 60000 } ∧
    ∃ t : rpm_intervals, do_constant_rpm_mode_intervals pf R = some t ∧
      calculate_720_time_us R.rpm = some t.cycle_720_time ∧
      calculate_injector_open_time_us pf R.rpm R.duty = some t.injector_open_time ∧
      0 < t.injector_open_time ∧ t.injector_open_time < t.cycle_720_time ∧
      t.injector_close_time = t.cycle_720_time - t.injector_open_time ∧
      0 < t.injector_close_time ∧
      t.injector_open_time + t.injector_close_time = t.cycle_720_time := by
  have main : ∀ Q : rpm_mode_params, 600 ≤ Q.rpm → Q.rpm ≤ 6000 → 1 ≤ Q.duty →
      Q.duty ≤ 99 →
      ∃ t : rpm_intervals, do_constant_rpm_mode_intervals pf Q = some t ∧
        calculate_720_time_us Q.rpm = some t.cycle_720_time ∧
        calculate_injector_open_time_us pf Q.rpm Q.duty = some t.injector_open_time ∧
        0 < t.injector_open_time ∧ t.injector_open_time < t.cycle_720_time ∧
        t.injector_close_time = t.cycle_720_time - t.injector_open_time ∧
        0 < t.injector_close_time ∧
        t.injector_open_time + t.injector_close_time = t.cycle_720_time := by
    intro Q q1 q2 q3 q4
    obtain ⟨c, hc1, hlo, hhi, hp0, hp1, hc2, ho1, ho2⟩ :=
      open_time_facts pf hc Q.rpm Q.duty q1 q2 q3 q4
    have hcl : toLong pf (c - Int.tdiv (Q.duty * c) 100) = c - Int.tdiv (Q.duty * c) 100 :=
      toLong_of_small pf hc _ (by omega) (by omega)
    refine ⟨{ cycle_720_time := c, injector_open_time := Int.tdiv (Q.duty * c) 100,
              injector_close_time := c - Int.tdiv (Q.duty * c) 100 }, ?_, hc1, hc2, ho1, ho2,
            rfl, ?_, ?_⟩
    · unfold do_constant_rpm_mode_intervals
      simp only [hc1, hc2, hcl]
    · show 0 < c - Int.tdiv (Q.duty * c) 100
      omega
    · show Int.tdiv (Q.duty * c) 100 + (c - Int.tdiv (Q.duty * c) 100) = c
      omega
  refine ⟨?_, main R h1 h2 h3 h4⟩
  obtain ⟨t, ht, hc1, hc2, _, _, hcl, _, _⟩ :=
    main RPM_MODE_PARAMS (by decide) (by decide) (by decide) (by decide)
  have e1 : calculate_720_time_us RPM_MODE_PARAMS.rpm = some 120000 := by decide
  have e2 : calculate_injector_open_time_us pf 1000 50 = some 60000 :=
    (default_open_time pf hc)
  rw [e1] at hc1
  have e3 : calculate_injector_open_time_us pf RPM_MODE_PARAMS.rpm RPM_MODE_PARAMS.duty
      = some 60000 := e2
  rw [e3] at hc2
  obtain ⟨c, o, cl⟩ := t
  simp only [Option.some.injEq] at hc1 hc2
  simp only at hcl
  subst hc1 hc2
  rw [ht, hcl]
  rfl

/-- C7, witness: 6000 rpm at 99 % duty on the AVR target. -/
theorem constant_rpm_intervals_positive_witness :
    avr.conforming ∧
    600 ≤ ({ RPM_MODE_PARAMS with rpm := 6000, duty := 99 } : rpm_mode_params).rpm ∧
    ({ RPM_MODE_PARAMS with rpm := 6000, duty := 99 } : rpm_mode_params).rpm ≤ 6000 ∧
    1 ≤ ({ RPM_MODE_PARAMS with rpm := 6000, duty := 99 } : rpm_mode_params).duty ∧
    ({ RPM_MODE_PARAMS with rpm := 6000, duty := 99 } : rpm_mode_params).duty ≤ 99 ∧
    (do_constant_rpm_mode_intervals avr RPM_MODE_PARAMS =
      some { cycle_720_time := 120000, injector_open_time := 60000,
             injector_close_time := 60000 } ∧
    ∃ t : rpm_intervals,
      do_constant_rpm_mode_intervals avr { RPM_MODE_PARAMS with rpm := 6000, duty := 99 }
        = some t ∧
      calculate_720_time_us
        ({ RPM_MODE_PARAMS with rpm := 6000, duty := 99 } : rpm_mode_params).rpm
        = some t.cycle_720_time ∧
      calculate_injector_open_time_us avr
        ({ RPM_MODE_PARAMS with rpm := 6000, duty := 99 } : rpm_mode_params).rpm
        ({ RPM_MODE_PARAMS with rpm := 6000, duty := 99 } : rpm_mode_params).duty
        = some t.injector_open_time ∧
      0 < t.injector_open_time ∧ t.injector_open_time < t.cycle_720_time ∧
      t.injector_close_time = t.cycle_720_time - t.injector_open_time ∧
      0 < t.injector_close_time ∧
      t.injector_open_time + t.injector_close_time = t.cycle_720_time) :=
  ⟨by decide, by decide, by decide, by decide, by decide,
    constant_rpm_intervals_positive avr (by decide)
      { RPM_MODE_PARAMS with rpm := 6000, duty := 99 } (by decide) (by decide) (by decide)
      (by decide)⟩

/-! ## Loop lemmas -/

theorem loop_held (pf : Platform) (s : State) (x now : Int)
    (h : s.LAST_BUTTON = get_button x) :
    (loop pf s x now).CURRENT_MODE = s.CURRENT_MODE ∧
    (loop pf s x now).PARAM_NUM = s.PARAM_NUM ∧
    (loop pf s x now).params = s.params ∧
    ((loop pf s x now).LAST_BUTTON = s.LAST_BUTTON ∨
      ((get_button x = UP ∨ get_button x = DOWN) ∧ (loop pf s x now).LAST_BUTTON = NO_BUTTON)) := by
  unfold loop
  simp only [h, if_true]
  split_ifs <;> simp_all

theorem loop_fresh_select (pf : Platform) (s : State) (x now : Int)
    (hx : get_button x = SELECT) (hl : s.LAST_BUTTON ≠ SELECT) :
    (loop pf s x now).CURRENT_MODE =
      (if toInt pf (s.CURRENT_MODE + 1) = NO_MODE then LEAK_TEST
       else toInt pf (s.CURRENT_MODE + 1)) ∧
    (loop pf s x now).PARAM_NUM = 0 ∧
    (loop pf s x now).params = s.params ∧
    (loop pf s x now).LAST_BUTTON = SELECT := by
  unfold loop
  simp only [hx, if_neg hl, if_true]
  simp

theorem loop_fresh_left (pf : Platform) (s : State) (x now : Int)
    (hx : get_button x = LEFT) (hl : s.LAST_BUTTON ≠ LEFT) :
    (loop pf s x now).CURRENT_MODE = s.CURRENT_MODE ∧
    (loop pf s x now).PARAM_NUM =
      (if s.CURRENT_MODE = LEAK_TEST ∨ s.CURRENT_MODE = FULL_FLOW_MODE then 0
       else if s.CURRENT_MODE = RPM_MODE then Int.tmod (toInt pf (s.PARAM_NUM + 1)) 3
       else if s.CURRENT_MODE = PWM_MODE then Int.tmod (toInt pf (s.PARAM_NUM + 1)) 2
       else 0) ∧
    (loop pf s x now).params = s.params ∧
    (loop pf s x now).LAST_BUTTON = LEFT := by
  unfold loop
  have h1 : ¬ (LEFT = SELECT) := by decide
  simp only [hx, if_neg hl, if_neg h1, if_true]
  split_ifs <;> exact ⟨rfl, rfl, rfl, rfl⟩

theorem loop_fresh_other (pf : Platform) (s : State) (x now : Int)
    (hl : s.LAST_BUTTON ≠ get_button x) (h1 : get_button x ≠ SELECT)
    (h2 : get_button x ≠ LEFT) :
    (loop pf s x now).CURRENT_MODE = s.CURRENT_MODE ∧
    (loop pf s x now).PARAM_NUM = s.PARAM_NUM ∧
    (loop pf s x now).LAST_BUTTON = get_button x := by
  unfold loop
  simp only [if_neg hl, if_neg h1, if_neg h2]
  split_ifs <;> exact ⟨rfl, rfl, rfl⟩
theorem mode_succ (pf : Platform) (hc : pf.conforming) (m : Int)
    (hm : m = LEAK_TEST ∨ m = RPM_MODE ∨ m = FULL_FLOW_MODE ∨ m = PWM_MODE) :
    (if toInt pf (m + 1) = NO_MODE then LEAK_TEST else toInt pf (m + 1)) = (m + 1) % 4 := by
  rcases hm with h | h | h | h <;> subst h <;>
    rw [toInt_of_small pf hc _ (by decide) (by decide)] <;> decide

theorem param_succ (pf : Platform) (hc : pf.conforming) (p n : Int) (hp : 0 ≤ p)
    (hn : 0 < n) (hpn : p < 32767) :
    Int.tmod (toInt pf (p + 1)) n = (p + 1) % n := by
  rw [toInt_of_small pf hc _ (by omega) (by omega)]
  exact Int.tmod_eq_emod (by omega) (by omega)

theorem fieldCount_pos (m : Int)
    (hm : m = LEAK_TEST ∨ m = RPM_MODE ∨ m = FULL_FLOW_MODE ∨ m = PWM_MODE) :
    1 ≤ fieldCount m ∧ fieldCount m ≤ 3 := by
  rcases hm with h | h | h | h <;> subst h <;> decide

/-- What a fresh LEFT press does to a valid selection. -/
theorem left_press_valid (pf : Platform) (hc : pf.conforming) (s : State) (x now : Int)
    (hx : get_button x = LEFT) (hl : s.LAST_BUTTON ≠ LEFT) (hv : validSelection s) :
    (loop pf s x now).PARAM_NUM = (s.PARAM_NUM + 1) % fieldCount s.CURRENT_MODE ∧
    (loop pf s x now).CURRENT_MODE = s.CURRENT_MODE ∧
    (loop pf s x now).LAST_BUTTON = LEFT := by
  obtain ⟨h1, h2, _, h4⟩ := loop_fresh_left pf s x now hx hl
  obtain ⟨hm, hp0, hp1⟩ := hv
  have hfc := fieldCount_pos _ hm
  refine ⟨?_, h1, h4⟩
  rw [h2]
  rcases hm with h | h | h | h
  · simp only [h, fieldCount]; simp
  · have e3 : Int.tmod (toInt pf (s.PARAM_NUM + 1)) 3 = (s.PARAM_NUM + 1) % 3 :=
      param_succ pf hc _ 3 hp0 (by norm_num) (by omega)
    simp only [h, fieldCount, e3]; simp
  · simp only [h, fieldCount]; simp
  · have e2 : Int.tmod (toInt pf (s.PARAM_NUM + 1)) 2 = (s.PARAM_NUM + 1) % 2 :=
      param_succ pf hc _ 2 hp0 (by norm_num) (by omega)
    simp only [h, fieldCount, e2]; simp

theorem select_press_valid (pf : Platform) (hc : pf.conforming) (s : State) (x now : Int)
    (hx : get_button x = SELECT) (hl : s.LAST_BUTTON ≠ SELECT)
    (hm : s.CURRENT_MODE = LEAK_TEST ∨ s.CURRENT_MODE = RPM_MODE ∨
      s.CURRENT_MODE = FULL_FLOW_MODE ∨ s.CURRENT_MODE = PWM_MODE) :
    (loop pf s x now).CURRENT_MODE = (s.CURRENT_MODE + 1) % 4 ∧
    (loop pf s x now).PARAM_NUM = 0 ∧ (loop pf s x now).LAST_BUTTON = SELECT := by
  obtain ⟨h1, h2, _, h4⟩ := loop_fresh_select pf s x now hx hl
  exact ⟨by rw [h1, mode_succ pf hc _ hm], h2, h4⟩

theorem loop_keeps_valid (pf : Platform) (hc : pf.conforming) (s : State) (x now : Int)
    (hv : validSelection s) : validSelection (loop pf s x now) := by
  by_cases hh : s.LAST_BUTTON = get_button x
  · obtain ⟨h1, h2, _, _⟩ := loop_held pf s x now hh
    unfold validSelection
    rw [h1, h2]
    exact hv
  by_cases hs : get_button x = SELECT
  · obtain ⟨h1, h2, _⟩ := select_press_valid pf hc s x now hs (hs ▸ hh) hv.1
    unfold validSelection
    rw [h1, h2]
    rcases hv.1 with h | h | h | h <;> rw [h] <;> decide
  by_cases hlft : get_button x = LEFT
  · obtain ⟨h1, h2, _⟩ := left_press_valid pf hc s x now hlft (hlft ▸ hh) hv
    have hfc := fieldCount_pos _ hv.1
    unfold validSelection
    rw [h1, h2]
    exact ⟨hv.1, Int.emod_nonneg _ (by omega), Int.emod_lt_of_pos _ (by omega)⟩
  · obtain ⟨h1, h2, _⟩ := loop_fresh_other pf s x now hh hs hlft
    unfold validSelection
    rw [h1, h2]
    exact hv

theorem run_keeps_valid (pf : Platform) (hc : pf.conforming) (inputs : List (Int × Int)) :
    ∀ s : State, validSelection s → validSelection (run pf s inputs) := by
  induction inputs with
  | nil => intro s hv; exact hv
  | cons i rest ih => intro s hv; exact ih _ (loop_keeps_valid pf hc s i.1 i.2 hv)

theorem loop_last_button (pf : Platform) (s : State) (x now : Int)
    (h1 : get_button x ≠ UP) (h2 : get_button x ≠ DOWN) :
    (loop pf s x now).LAST_BUTTON = get_button x := by
  by_cases hh : s.LAST_BUTTON = get_button x
  · rcases (loop_held pf s x now hh).2.2.2 with h | ⟨h | h, _⟩
    · rw [h, hh]
    · exact absurd h h1
    · exact absurd h h2
  by_cases hs : get_button x = SELECT
  · rw [(loop_fresh_select pf s x now hs (hs ▸ hh)).2.2.2, hs]
  by_cases hl : get_button x = LEFT
  · rw [(loop_fresh_left pf s x now hl (hl ▸ hh)).2.2.2, hl]
  · exact (loop_fresh_other pf s x now hh hs hl).2.2

theorem cyclicSuccessor_eq (m : Int)
    (hm : m = LEAK_TEST ∨ m = RPM_MODE ∨ m = FULL_FLOW_MODE ∨ m = PWM_MODE) :
    cyclicSuccessor m = (m + 1) % 4 ∧
    (cyclicSuccessor m = LEAK_TEST ∨ cyclicSuccessor m = RPM_MODE ∨
      cyclicSuccessor m = FULL_FLOW_MODE ∨ cyclicSuccessor m = PWM_MODE) := by
  rcases hm with h | h | h | h <;> subst h <;> decide

/-- A sequence of passes that sample only SELECT or no button: the mode advances once
per fresh SELECT, and a `PARAM_NUM` of 0 stays 0. -/
theorem run_select_sequence (pf : Platform) (hc : pf.conforming)
    (inputs : List (Int × Int)) :
    ∀ s : State,
      (s.CURRENT_MODE = LEAK_TEST ∨ s.CURRENT_MODE = RPM_MODE ∨
        s.CURRENT_MODE = FULL_FLOW_MODE ∨ s.CURRENT_MODE = PWM_MODE) →
      s.PARAM_NUM = 0 →
      (∀ i ∈ inputs, get_button i.1 = SELECT ∨ get_button i.1 = NO_BUTTON) →
      (run pf s inputs).CURRENT_MODE
        = cyclicSuccessor^[freshCount SELECT s.LAST_BUTTON (samples inputs)] s.CURRENT_MODE ∧
      (run pf s inputs).PARAM_NUM = 0 := by
  induction inputs with
  | nil => intro s _ hp _; exact ⟨rfl, hp⟩
  | cons i rest ih =>
    intro s hm hp hin
    have hi := hin i (List.mem_cons_self _ _)
    have hrest : ∀ j ∈ rest, get_button j.1 = SELECT ∨ get_button j.1 = NO_BUTTON :=
      fun j hj => hin j (List.mem_cons_of_mem _ hj)
    have hlb : (loop pf s i.1 i.2).LAST_BUTTON = get_button i.1 :=
      loop_last_button pf s i.1 i.2 (by rcases hi with h | h <;> rw [h] <;> decide)
        (by rcases hi with h | h <;> rw [h] <;> decide)
    show (run pf (loop pf s i.1 i.2) rest).CURRENT_MODE = _ ∧
      (run pf (loop pf s i.1 i.2) rest).PARAM_NUM = 0
    simp only [samples, List.map_cons, freshCount]
    by_cases hfresh : get_button i.1 = SELECT ∧ s.LAST_BUTTON ≠ SELECT
    · obtain ⟨h1, h2, _⟩ := select_press_valid pf hc s i.1 i.2 hfresh.1 hfresh.2 hm
      have hsucc := cyclicSuccessor_eq _ hm
      have hm2 : (loop pf s i.1 i.2).CURRENT_MODE = cyclicSuccessor s.CURRENT_MODE := by
        rw [h1, hsucc.1]
      obtain ⟨r1, r2⟩ := ih (loop pf s i.1 i.2) (hm2 ▸ hsucc.2) h2 hrest
      refine ⟨?_, r2⟩
      rw [r1, hlb, hm2, if_pos hfresh, Nat.add_comm, Function.iterate_succ_apply]
      rfl
    · have hsame : (loop pf s i.1 i.2).CURRENT_MODE = s.CURRENT_MODE ∧
          (loop pf s i.1 i.2).PARAM_NUM = s.PARAM_NUM := by
        by_cases hh : s.LAST_BUTTON = get_button i.1
        · exact ⟨(loop_held pf s i.1 i.2 hh).1, (loop_held pf s i.1 i.2 hh).2.1⟩
        · have hns : get_button i.1 ≠ SELECT := by
            intro hs
            exact hfresh ⟨hs, hs ▸ hh⟩
          have hnl : get_button i.1 ≠ LEFT := by
            rcases hi with h | h <;> rw [h] <;> decide
          exact ⟨(loop_fresh_other pf s i.1 i.2 hh hns hnl).1,
            (loop_fresh_other pf s i.1 i.2 hh hns hnl).2.1⟩
      obtain ⟨r1, r2⟩ := ih (loop pf s i.1 i.2) (hsame.1 ▸ hm) (hsame.2 ▸ hp) hrest
      refine ⟨?_, r2⟩
      rw [r1, hlb, hsame.1, if_neg hfresh, Nat.zero_add]
      rfl

/-- A sequence of passes that sample only LEFT or no button: the mode stays, and
`PARAM_NUM` advances once per fresh LEFT, modulo the field count of the mode. -/
theorem run_left_sequence (pf : Platform) (hc : pf.conforming)
    (inputs : List (Int × Int)) :
    ∀ s : State, validSelection s →
      (∀ i ∈ inputs, get_button i.1 = LEFT ∨ get_button i.1 = NO_BUTTON) →
      (run pf s inputs).CURRENT_MODE = s.CURRENT_MODE ∧
      (run pf s inputs).PARAM_NUM
        = (s.PARAM_NUM + (freshCount LEFT s.LAST_BUTTON (samples inputs) : Nat))
            % fieldCount s.CURRENT_MODE := by
  induction inputs with
  | nil =>
    intro s hv _
    refine ⟨rfl, ?_⟩
    show s.PARAM_NUM = _
    simp only [samples, List.map_nil, freshCount, Nat.cast_zero, add_zero]
    exact (Int.emod_eq_of_lt hv.2.1 hv.2.2).symm
  | cons i rest ih =>
    intro s hv hin
    have hi := hin i (List.mem_cons_self _ _)
    have hrest : ∀ j ∈ rest, get_button j.1 = LEFT ∨ get_button j.1 = NO_BUTTON :=
      fun j hj => hin j (List.mem_cons_of_mem _ hj)
    have hlb : (loop pf s i.1 i.2).LAST_BUTTON = get_button i.1 :=
      loop_last_button pf s i.1 i.2 (by rcases hi with h | h <;> rw [h] <;> decide)
        (by rcases hi with h | h <;> rw [h] <;> decide)
    have hv2 := loop_keeps_valid pf hc s i.1 i.2 hv
    obtain ⟨r1, r2⟩ := ih (loop pf s i.1 i.2) hv2 hrest
    show (run pf (loop pf s i.1 i.2) rest).CURRENT_MODE = _ ∧
      (run pf (loop pf s i.1 i.2) rest).PARAM_NUM = _
    simp only [samples, List.map_cons, freshCount]
    by_cases hfresh : get_button i.1 = LEFT ∧ s.LAST_BUTTON ≠ LEFT
    · obtain ⟨h1, h2, _⟩ := left_press_valid pf hc s i.1 i.2 hfresh.1 hfresh.2 hv
      refine ⟨by rw [r1, h2], ?_⟩
      rw [r2, hlb, h1, h2, if_pos hfresh]
      simp only [samples]
      push_cast
      rw [Int.emod_add_emod, add_assoc]
    · have hsame : (loop pf s i.1 i.2).CURRENT_MODE = s.CURRENT_MODE ∧
          (loop pf s i.1 i.2).PARAM_NUM = s.PARAM_NUM := by
        by_cases hh : s.LAST_BUTTON = get_button i.1
        · exact ⟨(loop_held pf s i.1 i.2 hh).1, (loop_held pf s i.1 i.2 hh).2.1⟩
        · have hnl : get_button i.1 ≠ LEFT := by
            intro hs
            exact hfresh ⟨hs, hs ▸ hh⟩
          have hns : get_button i.1 ≠ SELECT := by
            rcases hi with h | h <;> rw [h] <;> decide
          exact ⟨(loop_fresh_other pf s i.1 i.2 hh hns hnl).1,
            (loop_fresh_other pf s i.1 i.2 hh hns hnl).2.1⟩
      refine ⟨by rw [r1, hsame.1], ?_⟩
      rw [r2, hlb, hsame.1, hsame.2, if_neg hfresh]
      simp only [samples, Nat.zero_add]

/-- C8. A fresh SELECT press (a pass that samples SELECT while `LAST_BUTTON` is not
SELECT) moves `CURRENT_MODE` to its cyclic successor in the order LeakTest, Rpm,
FullFlow, Pwm, LeakTest and sets `PARAM_NUM` to 0.  Hence, from the initial state, any
sequence of passes sampling SELECT or no button that contains four fresh SELECT presses
ends in LeakTest, and after any initial part of it `PARAM_NUM` is 0 and the mode is the
successor iterated once per fresh press so far. -/
theorem select_press_cycles_mode (pf : Platform) (hc : pf.conforming) (s : State)
    (x now : Int) (hx : get_button x = SELECT) (hl : s.LAST_BUTTON ≠ SELECT)
    (hm : s.CURRENT_MODE = LEAK_TEST ∨ s.CURRENT_MODE = RPM_MODE ∨
      s.CURRENT_MODE = FULL_FLOW_MODE ∨ s.CURRENT_MODE = PWM_MODE)
    (P : ParameterStore) (e : Eeprom) (inputs : List (Int × Int))
    (hin : ∀ i ∈ inputs, get_button i.1 = SELECT ∨ get_button i.1 = NO_BUTTON)
    (hfour : freshCount SELECT NO_BUTTON (samples inputs) = 4) :
    (loop pf s x now).CURRENT_MODE = cyclicSuccessor s.CURRENT_MODE ∧
    (loop pf s x now).PARAM_NUM = 0 ∧
    (run pf (initialState P e) inputs).CURRENT_MODE = LEAK_TEST ∧
    ∀ k : Nat,
      (run pf (initialState P e) (inputs.take k)).PARAM_NUM = 0 ∧
      (run pf (initialState P e) (inputs.take k)).CURRENT_MODE
        = cyclicSuccessor^[freshCount SELECT NO_BUTTON (samples (inputs.take k))]
            LEAK_TEST := by
  obtain ⟨h1, h2, _⟩ := select_press_valid pf hc s x now hx hl hm
  have hseq : ∀ l : List (Int × Int),
      (∀ i ∈ l, get_button i.1 = SELECT ∨ get_button i.1 = NO_BUTTON) →
      (run pf (initialState P e) l).CURRENT_MODE
        = cyclicSuccessor^[freshCount SELECT NO_BUTTON (samples l)] LEAK_TEST ∧
      (run pf (initialState P e) l).PARAM_NUM = 0 :=
    fun l hl => run_select_sequence pf hc l (initialState P e) (Or.inl rfl) rfl hl
  refine ⟨by rw [h1, (cyclicSuccessor_eq _ hm).1], h2, ?_, fun k => ?_⟩
  · rw [(hseq inputs hin).1, hfour]
    decide
  · have hk := hseq (inputs.take k) (fun i hi => hin i (List.mem_of_mem_take hi))
    exact ⟨hk.2, hk.1⟩

/-- C8, witness: a fresh SELECT in PWM mode, and the nine passes of
`fourSelectPresses` from the initial state. -/
theorem select_press_cycles_mode_witness :
    avr.conforming ∧ get_button 700 = SELECT ∧
    (exampleState PWM_MODE 1).LAST_BUTTON ≠ SELECT ∧
    ((exampleState PWM_MODE 1).CURRENT_MODE = LEAK_TEST ∨
     (exampleState PWM_MODE 1).CURRENT_MODE = RPM_MODE ∨
     (exampleState PWM_MODE 1).CURRENT_MODE = FULL_FLOW_MODE ∨
     (exampleState PWM_MODE 1).CURRENT_MODE = PWM_MODE) ∧
    (∀ i ∈ fourSelectPresses, get_button i.1 = SELECT ∨ get_button i.1 = NO_BUTTON) ∧
    freshCount SELECT NO_BUTTON (samples fourSelectPresses) = 4 ∧
    ((loop avr (exampleState PWM_MODE 1) 700 5).CURRENT_MODE
      = cyclicSuccessor (exampleState PWM_MODE 1).CURRENT_MODE ∧
    (loop avr (exampleState PWM_MODE 1) 700 5).PARAM_NUM = 0 ∧
    (run avr (initialState defaultStore (fun _ => 255)) fourSelectPresses).CURRENT_MODE
      = LEAK_TEST ∧
    ∀ k : Nat,
      (run avr (initialState defaultStore (fun _ => 255))
        (fourSelectPresses.take k)).PARAM_NUM = 0 ∧
      (run avr (initialState defaultStore (fun _ => 255))
        (fourSelectPresses.take k)).CURRENT_MODE
        = cyclicSuccessor^[freshCount SELECT NO_BUTTON (samples (fourSelectPresses.take k))]
            LEAK_TEST) :=
  ⟨by decide, by decide, by decide, by decide, by decide, by decide,
    select_press_cycles_mode avr (by decide) (exampleState PWM_MODE 1) 700 5 (by decide)
      (by decide) (by decide) defaultStore (fun _ => 255) fourSelectPresses (by decide)
      (by decide)⟩

/-- C9. A fresh LEFT press sets `PARAM_NUM` to `(PARAM_NUM + 1) mod fieldCount
CURRENT_MODE` (field count 1 for LeakTest and FullFlow, 3 for Rpm, 2 for Pwm) and
leaves the mode unchanged.  Hence in Rpm mode a sequence of passes sampling LEFT or no
button with three fresh LEFT presses, started at index 0, returns `PARAM_NUM` to 0, and
in Pwm mode a sequence with two fresh LEFT presses does. -/
theorem left_press_cycles_field (pf : Platform) (hc : pf.conforming) (s : State)
    (x now : Int) (hx : get_button x = LEFT) (hl : s.LAST_BUTTON ≠ LEFT)
    (hv : validSelection s)
    (r : State) (hr : r.CURRENT_MODE = RPM_MODE) (hr0 : r.PARAM_NUM = 0)
    (inputs3 : List (Int × Int))
    (hin3 : ∀ i ∈ inputs3, get_button i.1 = LEFT ∨ get_button i.1 = NO_BUTTON)
    (h3 : freshCount LEFT r.LAST_BUTTON (samples inputs3) = 3)
    (w : State) (hw : w.CURRENT_MODE = PWM_MODE) (hw0 : w.PARAM_NUM = 0)
    (inputs2 : List (Int × Int))
    (hin2 : ∀ i ∈ inputs2, get_button i.1 = LEFT ∨ get_button i.1 = NO_BUTTON)
    (h2 : freshCount LEFT w.LAST_BUTTON (samples inputs2) = 2) :
    (loop pf s x now).PARAM_NUM = (s.PARAM_NUM + 1) % fieldCount s.CURRENT_MODE ∧
    (loop pf s x now).CURRENT_MODE = s.CURRENT_MODE ∧
    fieldCount LEAK_TEST = 1 ∧ fieldCount FULL_FLOW_MODE = 1 ∧ fieldCount RPM_MODE = 3 ∧
    fieldCount PWM_MODE = 2 ∧
    (run pf r inputs3).PARAM_NUM = 0 ∧ (run pf r inputs3).CURRENT_MODE = RPM_MODE ∧
    (run pf w inputs2).PARAM_NUM = 0 ∧ (run pf w inputs2).CURRENT_MODE = PWM_MODE := by
  obtain ⟨a1, a2, _⟩ := left_press_valid pf hc s x now hx hl hv
  have hvr : validSelection r := by
    unfold validSelection; rw [hr, hr0]; decide
  have hvw : validSelection w := by
    unfold validSelection; rw [hw, hw0]; decide
  obtain ⟨b1, b2⟩ := run_left_sequence pf hc inputs3 r hvr hin3
  obtain ⟨c1, c2⟩ := run_left_sequence pf hc inputs2 w hvw hin2
  refine ⟨a1, a2, by decide, by decide, by decide, by decide, ?_, by rw [b1, hr], ?_,
    by rw [c1, hw]⟩
  · rw [b2, h3, hr, hr0]; decide
  · rw [c2, h2, hw, hw0]; decide

/-- C9, witness: a fresh LEFT on the last field of RPM mode, three presses in RPM mode
and two in PWM mode. -/
theorem left_press_cycles_field_witness :
    avr.conforming ∧ get_button 500 = LEFT ∧
    (exampleState RPM_MODE 2).LAST_BUTTON ≠ LEFT ∧ validSelection (exampleState RPM_MODE 2) ∧
    (exampleState RPM_MODE 0).CURRENT_MODE = RPM_MODE ∧
    (exampleState RPM_MODE 0).PARAM_NUM = 0 ∧
    (∀ i ∈ threeLeftPresses, get_button i.1 = LEFT ∨ get_button i.1 = NO_BUTTON) ∧
    freshCount LEFT (exampleState RPM_MODE 0).LAST_BUTTON (samples threeLeftPresses) = 3 ∧
    (exampleState PWM_MODE 0).CURRENT_MODE = PWM_MODE ∧
    (exampleState PWM_MODE 0).PARAM_NUM = 0 ∧
    (∀ i ∈ twoLeftPresses, get_button i.1 = LEFT ∨ get_button i.1 = NO_BUTTON) ∧
    freshCount LEFT (exampleState PWM_MODE 0).LAST_BUTTON (samples twoLeftPresses) = 2 ∧
    ((loop avr (exampleState RPM_MODE 2) 500 7).PARAM_NUM
      = ((exampleState RPM_MODE 2).PARAM_NUM + 1)
          % fieldCount (exampleState RPM_MODE 2).CURRENT_MODE ∧
    (loop avr (exampleState RPM_MODE 2) 500 7).CURRENT_MODE
      = (exampleState RPM_MODE 2).CURRENT_MODE ∧
    fieldCount LEAK_TEST = 1 ∧ fieldCount FULL_FLOW_MODE = 1 ∧ fieldCount RPM_MODE = 3 ∧
    fieldCount PWM_MODE = 2 ∧
    (run avr (exampleState RPM_MODE 0) threeLeftPresses).PARAM_NUM = 0 ∧
    (run avr (exampleState RPM_MODE 0) threeLeftPresses).CURRENT_MODE = RPM_MODE ∧
    (run avr (exampleState PWM_MODE 0) twoLeftPresses).PARAM_NUM = 0 ∧
    (run avr (exampleState PWM_MODE 0) twoLeftPresses).CURRENT_MODE = PWM_MODE) :=
  ⟨by decide, by decide, by decide, by decide, by decide, by decide, by decide, by decide,
    by decide, by decide, by decide, by decide,
    left_press_cycles_field avr (by decide) (exampleState RPM_MODE 2) 500 7 (by decide)
      (by decide) (by decide) (exampleState RPM_MODE 0) (by decide) (by decide)
      threeLeftPresses (by decide) (by decide) (exampleState PWM_MODE 0) (by decide)
      (by decide) twoLeftPresses (by decide) (by decide)⟩

/-- C10. In every state reached from an initial state with `CURRENT_MODE = LEAK_TEST` and
`PARAM_NUM = 0` by any sequence of passes of `loop`, with arbitrary analog readings and
arbitrary clock readings, `CURRENT_MODE` is one of the four test modes (never
`NO_MODE`) and `0 ≤ PARAM_NUM < fieldCount CURRENT_MODE`. -/
theorem selection_stays_valid (pf : Platform) (hc : pf.conforming) (s0 : State)
    (hm : s0.CURRENT_MODE = LEAK_TEST) (hp : s0.PARAM_NUM = 0)
    (inputs : List (Int × Int)) :
    ((run pf s0 inputs).CURRENT_MODE = LEAK_TEST ∨ (run pf s0 inputs).CURRENT_MODE = RPM_MODE ∨
      (run pf s0 inputs).CURRENT_MODE = FULL_FLOW_MODE ∨
      (run pf s0 inputs).CURRENT_MODE = PWM_MODE) ∧
    (run pf s0 inputs).CURRENT_MODE ≠ NO_MODE ∧
    0 ≤ (run pf s0 inputs).PARAM_NUM ∧
    (run pf s0 inputs).PARAM_NUM < fieldCount (run pf s0 inputs).CURRENT_MODE := by
  have hv0 : validSelection s0 := by
    unfold validSelection
    rw [hm, hp]
    decide
  obtain ⟨h1, h2, h3⟩ := run_keeps_valid pf hc inputs s0 hv0
  refine ⟨h1, ?_, h2, h3⟩
  rcases h1 with h | h | h | h <;> rw [h] <;> decide
/-- C10, witness: seventeen passes from the initial state (SELECT, LEFT, UP and RIGHT
among them). -/
theorem selection_stays_valid_witness :
    avr.conforming ∧ (exampleState LEAK_TEST 0).CURRENT_MODE = LEAK_TEST ∧
    (exampleState LEAK_TEST 0).PARAM_NUM = 0 ∧
    (((run avr (exampleState LEAK_TEST 0)
        (fourSelectPresses ++ threeLeftPresses ++ [(100, 5), (30, 6)])).CURRENT_MODE
        = LEAK_TEST ∨
      (run avr (exampleState LEAK_TEST 0)
        (fourSelectPresses ++ threeLeftPresses ++ [(100, 5), (30, 6)])).CURRENT_MODE
        = RPM_MODE ∨
      (run avr (exampleState LEAK_TEST 0)
        (fourSelectPresses ++ threeLeftPresses ++ [(100, 5), (30, 6)])).CURRENT_MODE
        = FULL_FLOW_MODE ∨
      (run avr (exampleState LEAK_TEST 0)
        (fourSelectPresses ++ threeLeftPresses ++ [(100, 5), (30, 6)])).CURRENT_MODE
        = PWM_MODE) ∧
    (run avr (exampleState LEAK_TEST 0)
      (fourSelectPresses ++ threeLeftPresses ++ [(100, 5), (30, 6)])).CURRENT_MODE
      ≠ NO_MODE ∧
    0 ≤ (run avr (exampleState LEAK_TEST 0)
      (fourSelectPresses ++ threeLeftPresses ++ [(100, 5), (30, 6)])).PARAM_NUM ∧
    (run avr (exampleState LEAK_TEST 0)
      (fourSelectPresses ++ threeLeftPresses ++ [(100, 5), (30, 6)])).PARAM_NUM
      < fieldCount (run avr (exampleState LEAK_TEST 0)
          (fourSelectPresses ++ threeLeftPresses ++ [(100, 5), (30, 6)])).CURRENT_MODE) :=
  ⟨by decide, by decide, by decide,
    selection_stays_valid avr (by decide) (exampleState LEAK_TEST 0) (by decide) (by decide)
      (fourSelectPresses ++ threeLeftPresses ++ [(100, 5), (30, 6)])⟩

/-! ## Held UP and DOWN (lines 673-692) -/

/-- C11. On a pass whose sampled button is UP or DOWN and equals `LAST_BUTTON`: if
`now - last_button_press_time` (in `unsigned long`) is strictly greater than the hold
threshold (100000 microseconds on the duty field of RPM mode and on the microseconds
field of PWM mode, 300000 otherwise) the pass sets `LAST_BUTTON` to `NO_BUTTON` and
changes nothing else, otherwise it changes nothing.  From the released state the next
pass that samples the same button is a fresh press: it records the button and the
time and applies one step to the selected field. -/
theorem held_up_down_releases_after_threshold (pf : Platform) (s : State) (x now : Int)
    (hb : get_button x = UP ∨ get_button x = DOWN) (hl : s.LAST_BUTTON = get_button x)
    (x2 now2 : Int) (hb2 : get_button x2 = get_button x) :
    loop pf s x now =
      (if toULong pf (toULong pf now - s.last_button_press_time) >
          (if (s.CURRENT_MODE = RPM_MODE ∧ s.PARAM_NUM = 2) ∨
              (s.CURRENT_MODE = PWM_MODE ∧ s.PARAM_NUM = 1) then 100000 else 300000)
       then { s with LAST_BUTTON := NO_BUTTON } else s) ∧
    loop pf { s with LAST_BUTTON := NO_BUTTON } x2 now2 =
      { s with LAST_BUTTON := get_button x, last_button_press_time := toULong pf now2,
               params := stepSelected pf s.CURRENT_MODE s.PARAM_NUM
                 (decide (get_button x = UP)) s.params } := by
  constructor
  · unfold loop
    simp only [hl, if_true, if_pos hb]
    have hor : ((s.CURRENT_MODE = PWM_MODE ∧ s.PARAM_NUM = 1) ∨
        (s.CURRENT_MODE = RPM_MODE ∧ s.PARAM_NUM = 2)) ↔
        ((s.CURRENT_MODE = RPM_MODE ∧ s.PARAM_NUM = 2) ∨
        (s.CURRENT_MODE = PWM_MODE ∧ s.PARAM_NUM = 1)) := Or.comm
    simp only [hor]
  · have hne : ¬ (NO_BUTTON = get_button x) := by
      rcases hb with h | h <;> rw [h] <;> decide
    have hns : ¬ (get_button x = SELECT) := by
      rcases hb with h | h <;> rw [h] <;> decide
    have hnl : ¬ (get_button x = LEFT) := by
      rcases hb with h | h <;> rw [h] <;> decide
    unfold loop stepSelected applyEdit
    simp only [hb2, if_neg hne, if_neg hns, if_neg hnl, if_pos hb]
    split_ifs <;> rfl

/-- C11, witness: UP held in RPM mode on the duty field, 150 ms after the press. -/
theorem held_up_down_releases_after_threshold_witness :
    (get_button 100 = UP ∨ get_button 100 = DOWN) ∧
    heldUpOnDuty.LAST_BUTTON = get_button 100 ∧ get_button 150 = get_button 100 ∧
    (loop avr heldUpOnDuty 100 150000 =
      (if toULong avr (toULong avr 150000 - heldUpOnDuty.last_button_press_time) >
          (if (heldUpOnDuty.CURRENT_MODE = RPM_MODE ∧ heldUpOnDuty.PARAM_NUM = 2) ∨
              (heldUpOnDuty.CURRENT_MODE = PWM_MODE ∧ heldUpOnDuty.PARAM_NUM = 1)
           then 100000 else 300000)
       then { heldUpOnDuty with LAST_BUTTON := NO_BUTTON } else heldUpOnDuty) ∧
    loop avr { heldUpOnDuty with LAST_BUTTON := NO_BUTTON } 150 150100 =
      { heldUpOnDuty with
        LAST_BUTTON := get_button 100, last_button_press_time := toULong avr 150100,
        params := stepSelected avr heldUpOnDuty.CURRENT_MODE heldUpOnDuty.PARAM_NUM
          (decide (get_button 100 = UP)) heldUpOnDuty.params }) :=
  ⟨by decide, by decide, by decide,
    held_up_down_releases_after_threshold avr heldUpOnDuty 100 150000 (by decide) (by decide)
      150 150100 (by decide)⟩

/-- C12 (amended). While UP or DOWN is held, the pass fakes a release exactly when the
elapsed time exceeds `hold_threshold`, which is 100000 microseconds on the microseconds
field of PWM mode and on the duty field of RPM mode and 300000 microseconds for every
other combination of mode and field. -/
theorem hold_threshold_is_fast_on_two_fields (pf : Platform) (s : State) (x now : Int)
    (hb : get_button x = UP ∨ get_button x = DOWN) (hl : s.LAST_BUTTON = get_button x)
    (mode : operation_t) (param : Int) :
    ((loop pf s x now).LAST_BUTTON = NO_BUTTON ↔
      elapsed pf s now > hold_threshold s.CURRENT_MODE s.PARAM_NUM) ∧
    hold_threshold PWM_MODE 1 = 100000 ∧ hold_threshold RPM_MODE 2 = 100000 ∧
    (hold_threshold mode param = 100000 ↔
      (mode = PWM_MODE ∧ param = 1) ∨ (mode = RPM_MODE ∧ param = 2)) ∧
    (hold_threshold mode param = 300000 ↔
      ¬ ((mode = PWM_MODE ∧ param = 1) ∨ (mode = RPM_MODE ∧ param = 2))) := by
  refine ⟨?_, by decide, by decide, ?_, ?_⟩
  · have hne : s.LAST_BUTTON ≠ NO_BUTTON := by
      rw [hl]; rcases hb with h | h <;> rw [h] <;> decide
    unfold loop elapsed hold_threshold
    simp only [hl, if_true, if_pos hb]
    split_ifs with h1 h2 h2
    · exact ⟨fun _ => h2, fun _ => rfl⟩
    · exact ⟨fun h => absurd (hl ▸ h) hne, fun h => absurd h h2⟩
    · exact ⟨fun _ => h2, fun _ => rfl⟩
    · exact ⟨fun h => absurd (hl ▸ h) hne, fun h => absurd h h2⟩
  · unfold hold_threshold
    split_ifs with h
    · exact ⟨fun _ => h, fun _ => rfl⟩
    · exact ⟨fun h2 => absurd h2 (by decide), fun h2 => absurd h2 h⟩
  · unfold hold_threshold
    split_ifs with h
    · exact ⟨fun h2 => absurd h2 (by decide), fun h2 => absurd h h2⟩
    · exact ⟨fun _ => h, fun _ => rfl⟩

/-- C12, counterexample. In RPM mode on the duty field, UP held for 200 ms: the pass
already fakes the release, although 200000 is not above 300000. -/
theorem duty_field_repeats_after_100_ms :
    heldUpOnDuty.CURRENT_MODE = RPM_MODE ∧ heldUpOnDuty.PARAM_NUM = 2 ∧
    heldUpOnDuty.LAST_BUTTON = get_button 100 ∧ get_button 100 = UP ∧
    elapsed avr heldUpOnDuty 200000 = 200000 ∧
    (loop avr heldUpOnDuty 100 200000).LAST_BUTTON = NO_BUTTON ∧
    hold_threshold heldUpOnDuty.CURRENT_MODE heldUpOnDuty.PARAM_NUM = 100000 := by
  decide

/-- C12, witness: DOWN held in the leak test, 300001 microseconds after the press. -/
theorem hold_threshold_is_fast_on_two_fields_witness :
    (get_button 250 = UP ∨ get_button 250 = DOWN) ∧
    (heldState LEAK_TEST DOWN).LAST_BUTTON = get_button 250 ∧
    (((loop avr (heldState LEAK_TEST DOWN) 250 300001).LAST_BUTTON = NO_BUTTON ↔
      elapsed avr (heldState LEAK_TEST DOWN) 300001 >
        hold_threshold (heldState LEAK_TEST DOWN).CURRENT_MODE
          (heldState LEAK_TEST DOWN).PARAM_NUM) ∧
    hold_threshold PWM_MODE 1 = 100000 ∧ hold_threshold RPM_MODE 2 = 100000 ∧
    (hold_threshold RPM_MODE 1 = 100000 ↔
      (RPM_MODE = PWM_MODE ∧ (1 : Int) = 1) ∨ (RPM_MODE = RPM_MODE ∧ (1 : Int) = 2)) ∧
    (hold_threshold RPM_MODE 1 = 300000 ↔
      ¬ ((RPM_MODE = PWM_MODE ∧ (1 : Int) = 1) ∨ (RPM_MODE = RPM_MODE ∧ (1 : Int) = 2)))) :=
  ⟨by decide, by decide,
    hold_threshold_is_fast_on_two_fields avr (heldState LEAK_TEST DOWN) 250 300001
      (by decide) (by decide) RPM_MODE 1⟩

/-! ## Machine lemmas -/

theorem callsIn_append (a b : List Event) : callsIn (a ++ b) = callsIn a ++ callsIn b := by
  induction a with
  | nil => rfl
  | cons e a ih => cases e <;> simp [callsIn, ih]

theorem injectorWrites_append (a b : List Event) :
    injectorWrites (a ++ b) = injectorWrites a ++ injectorWrites b := by
  induction a with
  | nil => rfl
  | cons e a ih => cases e <;> simp [injectorWrites, ih]

/-- What a run of `delayMicroseconds` calls leaves: the outputs and globals as they
were, one event per call. -/
theorem delays_frame (pf : Platform) (l : List Int) : ∀ m : Machine,
    (l.foldl (delayMicroseconds pf) m).globals = m.globals ∧
    (l.foldl (delayMicroseconds pf) m).pump_relay = m.pump_relay ∧
    (l.foldl (delayMicroseconds pf) m).PORTB = m.PORTB ∧
    (l.foldl (delayMicroseconds pf) m).DDRB = m.DDRB ∧
    (l.foldl (delayMicroseconds pf) m).trace
      = m.trace ++ l.map (fun d => Event.delayMicroseconds (toUInt pf d)) := by
  induction l with
  | nil => intro m; simp
  | cons d l ih =>
    intro m
    obtain ⟨h1, h2, h3, h4, h5⟩ := ih (delayMicroseconds pf m d)
    simp only [List.foldl_cons, h1, h2, h3, h4, h5]
    simp [delayMicroseconds, emit]

theorem callsIn_delays (pf : Platform) (l : List Int) :
    callsIn (l.map (fun d => Event.delayMicroseconds (toUInt pf d))) = [] := by
  induction l with
  | nil => rfl
  | cons d l ih => simpa [callsIn] using ih

theorem injectorWrites_delays (pf : Platform) (l : List Int) :
    injectorWrites (l.map (fun d => Event.delayMicroseconds (toUInt pf d))) = [] := by
  induction l with
  | nil => rfl
  | cons d l ih => simpa [injectorWrites] using ih

theorem do_longer_delay_frame (pf : Platform) (m : Machine) (us : Int) :
    (do_longer_delay pf m us).globals = m.globals ∧
    (do_longer_delay pf m us).pump_relay = m.pump_relay ∧
    (do_longer_delay pf m us).PORTB = m.PORTB ∧
    callsIn (do_longer_delay pf m us).trace = callsIn m.trace := by
  obtain ⟨h1, h2, h3, _, h5⟩ :=
    delays_frame pf (do_longer_delay_steps (us.toNat / 16383 + 1) us) m
  refine ⟨h1, h2, h3, ?_⟩
  unfold do_longer_delay
  rw [h5, callsIn_append, callsIn_delays, List.append_nil]

/-- The chunks of `do_longer_delay` for a non-negative argument, given depth enough:
full chunks of 16383 and one last chunk. -/
theorem do_longer_delay_steps_eq (fuel : Nat) : ∀ us : Int, 0 ≤ us →
    us.toNat / 16383 + 1 ≤ fuel →
    do_longer_delay_steps fuel us =
      List.replicate ((us.toNat - 1) / 16383) 16383 ++
        [us - 16383 * (((us.toNat - 1) / 16383 : Nat) : Int)] := by
  induction fuel with
  | zero => intro us _ h; omega
  | succ fuel ih =>
    intro us h0 hf
    rw [do_longer_delay_steps]
    by_cases hbig : us > 16383
    · rw [if_pos hbig, ih (us - 16383) (by omega) (by omega)]
      have hk : (us.toNat - 1) / 16383 = ((us - 16383).toNat - 1) / 16383 + 1 := by omega
      rw [hk, List.replicate_succ, List.cons_append]
      congr 2
      push_cast
      ring_nf
    · rw [if_neg hbig]
      have hk : (us.toNat - 1) / 16383 = 0 := by omega
      rw [hk]
      simp

/-- The recursion of the source: depth enough is supplied for every argument. -/
theorem do_longer_delay_unfold (pf : Platform) (m : Machine) (us : Int) :
    do_longer_delay pf m us =
      if us > 16383 then do_longer_delay pf (delayMicroseconds pf m 16383) (us - 16383)
      else delayMicroseconds pf m us := by
  unfold do_longer_delay
  by_cases hbig : us > 16383
  · rw [if_pos hbig]
    have hf : us.toNat / 16383 + 1 = ((us - 16383).toNat / 16383 + 1) + 1 := by omega
    rw [hf, do_longer_delay_steps, if_pos hbig, List.foldl_cons]
  · rw [if_neg hbig, do_longer_delay_steps, if_neg hbig]
    rfl

theorem toUInt_of_small (pf : Platform) (hc : pf.conforming) (x : Int) (h0 : 0 ≤ x)
    (h1 : x < 65536) : toUInt pf x = x := by
  obtain ⟨_, _, _, _, _, _⟩ := hc
  have hb := pow_bound_mono 16 (8 * pf.sizeof_int) (by omega)
  norm_num at hb
  unfold toUInt wrapUnsigned
  exact Int.emod_eq_of_lt h0 (by omega)

theorem microsecondDelays_append (a b : List Event) :
    microsecondDelays (a ++ b) = microsecondDelays a ++ microsecondDelays b := by
  induction a with
  | nil => rfl
  | cons e a ih => cases e <;> simp [microsecondDelays, ih]

theorem microsecondDelays_replicate (k : Nat) (d : Int) :
    microsecondDelays (List.replicate k (Event.delayMicroseconds d)) = List.replicate k d := by
  induction k with
  | zero => rfl
  | succ k ih => simp [List.replicate_succ, microsecondDelays, ih]

/-- C20. For every duration `us ≥ 0`, `do_longer_delay(us)` returns after a finite
sequence of `delayMicroseconds` calls: some number `k` of calls with 16383 followed by
one call with the remainder `r`, `0 ≤ r ≤ 16383`; every argument is at most 16383 and
their sum is exactly `us`.  The definition satisfies the recursion of the source for
every argument, and the routine touches neither the globals nor the outputs. -/
theorem do_longer_delay_chunks (pf : Platform) (hc : pf.conforming) (m : Machine) (us : Int)
    (h0 : 0 ≤ us) :
    (∃ k : Nat, ∃ r : Int, 0 ≤ r ∧ r ≤ 16383 ∧ 16383 * (k : Int) + r = us ∧
      (do_longer_delay pf (observe m) us).trace =
        List.replicate k (Event.delayMicroseconds 16383) ++ [Event.delayMicroseconds r]) ∧
    (∀ d ∈ microsecondDelays (do_longer_delay pf (observe m) us).trace, 0 ≤ d ∧ d ≤ 16383) ∧
    (microsecondDelays (do_longer_delay pf (observe m) us).trace).sum = us ∧
    (do_longer_delay pf m us).globals = m.globals ∧
    (do_longer_delay pf m us).pump_relay = m.pump_relay ∧
    (do_longer_delay pf m us).PORTB = m.PORTB ∧
    (∀ (n : Machine) (v : Int), do_longer_delay pf n v =
      if v > 16383 then do_longer_delay pf (delayMicroseconds pf n 16383) (v - 16383)
      else delayMicroseconds pf n v) := by
  have hsteps := do_longer_delay_steps_eq (us.toNat / 16383 + 1) us h0 (le_refl _)
  have hr0 : 0 ≤ us - 16383 * (((us.toNat - 1) / 16383 : Nat) : Int) := by omega
  have hr1 : us - 16383 * (((us.toNat - 1) / 16383 : Nat) : Int) ≤ 16383 := by omega
  have htrace : (do_longer_delay pf (observe m) us).trace =
      List.replicate ((us.toNat - 1) / 16383) (Event.delayMicroseconds 16383) ++
        [Event.delayMicroseconds (us - 16383 * (((us.toNat - 1) / 16383 : Nat) : Int))] := by
    unfold do_longer_delay
    rw [(delays_frame pf _ (observe m)).2.2.2.2, hsteps]
    simp only [observe, List.nil_append, List.map_append, List.map_replicate, List.map_cons,
      List.map_nil]
    rw [toUInt_of_small pf hc 16383 (by norm_num) (by norm_num),
      toUInt_of_small pf hc _ hr0 (by omega)]
  have hds : microsecondDelays (do_longer_delay pf (observe m) us).trace =
      List.replicate ((us.toNat - 1) / 16383) 16383 ++
        [us - 16383 * (((us.toNat - 1) / 16383 : Nat) : Int)] := by
    rw [htrace, microsecondDelays_append, microsecondDelays_replicate]
    rfl
  obtain ⟨f1, f2, f3, _⟩ := do_longer_delay_frame pf m us
  refine ⟨⟨_, _, hr0, hr1, by ring, htrace⟩, ?_, ?_, f1, f2, f3,
    fun n v => do_longer_delay_unfold pf n v⟩
  · intro d hd
    rw [hds, List.mem_append, List.mem_replicate, List.mem_singleton] at hd
    rcases hd with ⟨_, h⟩ | h
    · rw [h]; norm_num
    · rw [h]; exact ⟨hr0, hr1⟩
  · rw [hds, List.sum_append, List.sum_replicate]
    simp only [List.sum_cons, List.sum_nil, smul_eq_mul, add_zero, nsmul_eq_mul]
    ring

/-- C20, witness: 40000 microseconds on the AVR target. -/
theorem do_longer_delay_chunks_witness :
    avr.conforming ∧ (0 : Int) ≤ 40000 ∧
    ((∃ k : Nat, ∃ r : Int, 0 ≤ r ∧ r ≤ 16383 ∧ 16383 * (k : Int) + r = 40000 ∧
      (do_longer_delay avr (observe (idleMachine heldUpOnDuty)) 40000).trace =
        List.replicate k (Event.delayMicroseconds 16383) ++ [Event.delayMicroseconds r]) ∧
    (∀ d ∈ microsecondDelays (do_longer_delay avr (observe (idleMachine heldUpOnDuty)) 40000).trace,
      0 ≤ d ∧ d ≤ 16383) ∧
    (microsecondDelays
      (do_longer_delay avr (observe (idleMachine heldUpOnDuty)) 40000).trace).sum = 40000 ∧
    (do_longer_delay avr (idleMachine heldUpOnDuty) 40000).globals
      = (idleMachine heldUpOnDuty).globals ∧
    (do_longer_delay avr (idleMachine heldUpOnDuty) 40000).pump_relay
      = (idleMachine heldUpOnDuty).pump_relay ∧
    (do_longer_delay avr (idleMachine heldUpOnDuty) 40000).PORTB
      = (idleMachine heldUpOnDuty).PORTB ∧
    (∀ (n : Machine) (v : Int), do_longer_delay avr n v =
      if v > 16383 then do_longer_delay avr (delayMicroseconds avr n 16383) (v - 16383)
      else delayMicroseconds avr n v)) :=
  ⟨by decide, by decide,
    do_longer_delay_chunks avr (by decide) (idleMachine heldUpOnDuty) 40000 (by decide)⟩

theorem mask_value : pin_ALL_INJECTORS_MASK = 15 := by decide

theorem closed_after_close (m : Machine) : injectorsClosed (close_injectors m) := by
  unfold injectorsClosed close_injectors emit
  simp only [mask_value]
  rw [Nat.and_assoc]
  have h : (255 - 15) &&& 15 = 0 := by decide
  rw [h, Nat.and_zero]

/-- The wait loop of the leak test and of full flow prints on row 1 and does nothing
else. -/
theorem status_wait_frame (pf : Platform) (e : Int) : ∀ (clock : List Int) (m : Machine),
    (status_wait pf e clock m).machine.globals = m.globals ∧
    (status_wait pf e clock m).machine.pump_relay = m.pump_relay ∧
    (status_wait pf e clock m).machine.PORTB = m.PORTB ∧
    callsIn (status_wait pf e clock m).machine.trace = callsIn m.trace ∧
    injectorWrites (status_wait pf e clock m).machine.trace = injectorWrites m.trace
  | [], m => by simp [status_wait]
  | [_], m => by
    simp [status_wait, emit, callsIn_append, injectorWrites_append, callsIn, injectorWrites]
  | _ :: t :: rest, m => by
    rw [status_wait]
    split_ifs
    · obtain ⟨h1, h2, h3, h4, h5⟩ := status_wait_frame pf e rest (emit m (Event.lcd 1))
      rw [h1, h2, h3, h4, h5]
      simp [emit, callsIn_append, injectorWrites_append, callsIn, injectorWrites]
    · simp [emit, callsIn_append, injectorWrites_append, callsIn, injectorWrites]

theorem rpm_pulse_frame (pf : Platform) (o c : Int) (m : Machine) :
    (rpm_pulse pf o c m).globals = m.globals ∧
    (rpm_pulse pf o c m).pump_relay = m.pump_relay ∧
    injectorsClosed (rpm_pulse pf o c m) ∧
    callsIn (rpm_pulse pf o c m).trace = callsIn m.trace := by
  unfold rpm_pulse
  obtain ⟨a1, a2, a3, a4⟩ := do_longer_delay_frame pf (open_injectors m) o
  obtain ⟨b1, b2, b3, b4⟩ :=
    do_longer_delay_frame pf (close_injectors (do_longer_delay pf (open_injectors m) o)) c
  have hcl := closed_after_close (do_longer_delay pf (open_injectors m) o)
  refine ⟨?_, ?_, ?_, ?_⟩
  · rw [b1]; show (do_longer_delay pf (open_injectors m) o).globals = _
    rw [a1]; rfl
  · rw [b2]; show (do_longer_delay pf (open_injectors m) o).pump_relay = _
    rw [a2]; rfl
  · unfold injectorsClosed at hcl ⊢
    rw [b3]; exact hcl
  · rw [b4]
    show callsIn ((do_longer_delay pf (open_injectors m) o).trace ++ _) = _
    rw [callsIn_append, a4]
    simp [open_injectors, emit, callsIn_append, callsIn]

theorem rpm_pulse_loop_frame (pf : Platform) (e o c : Int) :
    ∀ (clock : List Int) (m : Machine),
    (rpm_pulse_loop pf e o c clock m).machine.globals = m.globals ∧
    (rpm_pulse_loop pf e o c clock m).machine.pump_relay = m.pump_relay ∧
    injectorsClosed (rpm_pulse_loop pf e o c clock m).machine ∧
    callsIn (rpm_pulse_loop pf e o c clock m).machine.trace = callsIn m.trace
  | [], m => by
    rw [rpm_pulse_loop]
    exact rpm_pulse_frame pf o c m
  | t :: rest, m => by
    rw [rpm_pulse_loop]
    obtain ⟨p1, p2, p3, p4⟩ := rpm_pulse_frame pf o c m
    split_ifs
    · obtain ⟨h1, h2, h3, h4⟩ := rpm_pulse_loop_frame pf e o c rest (rpm_pulse pf o c m)
      exact ⟨h1.trans p1, h2.trans p2, h3, h4.trans p4⟩
    · exact ⟨p1, p2, p3, p4⟩

theorem pwm_pulse_loop_frame (pf : Platform) (w : Int) : ∀ (n : Nat) (m : Machine),
    (pwm_pulse_loop pf w n m).globals = m.globals ∧
    (pwm_pulse_loop pf w n m).pump_relay = m.pump_relay ∧
    (injectorsClosed m → injectorsClosed (pwm_pulse_loop pf w n m)) ∧
    callsIn (pwm_pulse_loop pf w n m).trace = callsIn m.trace
  | 0, m => by simp [pwm_pulse_loop]
  | n + 1, m => by
    rw [pwm_pulse_loop]
    obtain ⟨h1, h2, h3, h4⟩ := pwm_pulse_loop_frame pf w n
      (delay (emit (close_injectors (delayMicroseconds pf (open_injectors m) w))
        (Event.lcd 0)) 500)
    refine ⟨h1.trans rfl, h2.trans rfl, fun _ => h3 ?_, ?_⟩
    · have := closed_after_close (delayMicroseconds pf (open_injectors m) w)
      unfold injectorsClosed at this ⊢
      exact this
    · rw [h4]
      simp [delay, emit, close_injectors, delayMicroseconds, open_injectors, callsIn_append,
        callsIn]

/-! ## The output primitives, field by field -/

@[simp]
theorem emit_globals (m : Machine) (e : Event) : (emit m e).globals = m.globals := rfl

@[simp]
theorem emit_pump_relay (m : Machine) (e : Event) :
    (emit m e).pump_relay = m.pump_relay := rfl

@[simp]
theorem emit_PORTB (m : Machine) (e : Event) : (emit m e).PORTB = m.PORTB := rfl

@[simp]
theorem emit_trace (m : Machine) (e : Event) : (emit m e).trace = m.trace ++ [e] := rfl

@[simp]
theorem digitalWrite_pump_globals (m : Machine) (h : Bool) :
    (digitalWrite_pump m h).globals = m.globals := rfl

@[simp]
theorem digitalWrite_pump_level (m : Machine) (h : Bool) :
    (digitalWrite_pump m h).pump_relay = h := rfl

@[simp]
theorem digitalWrite_pump_PORTB (m : Machine) (h : Bool) :
    (digitalWrite_pump m h).PORTB = m.PORTB := rfl

@[simp]
theorem digitalWrite_pump_trace (m : Machine) (h : Bool) :
    (digitalWrite_pump m h).trace = m.trace ++ [Event.pump_relay h] := rfl

@[simp]
theorem open_injectors_globals (m : Machine) :
    (open_injectors m).globals = m.globals := rfl

@[simp]
theorem open_injectors_pump_relay (m : Machine) :
    (open_injectors m).pump_relay = m.pump_relay := rfl

@[simp]
theorem open_injectors_trace (m : Machine) :
    (open_injectors m).trace
      = m.trace ++ [Event.injectors (m.PORTB ||| pin_ALL_INJECTORS_MASK)] := rfl

@[simp]
theorem close_injectors_globals (m : Machine) :
    (close_injectors m).globals = m.globals := rfl

@[simp]
theorem close_injectors_pump_relay (m : Machine) :
    (close_injectors m).pump_relay = m.pump_relay := rfl

@[simp]
theorem close_injectors_trace (m : Machine) :
    (close_injectors m).trace
      = m.trace ++ [Event.injectors (m.PORTB &&& (255 - pin_ALL_INJECTORS_MASK))] := rfl

@[simp]
theorem delay_globals (m : Machine) (ms : Int) : (delay m ms).globals = m.globals := rfl

@[simp]
theorem delay_pump_relay (m : Machine) (ms : Int) :
    (delay m ms).pump_relay = m.pump_relay := rfl

@[simp]
theorem delay_PORTB (m : Machine) (ms : Int) : (delay m ms).PORTB = m.PORTB := rfl

@[simp]
theorem delay_trace (m : Machine) (ms : Int) :
    (delay m ms).trace = m.trace ++ [Event.delay ms] := rfl

@[simp]
theorem delayMicroseconds_globals (pf : Platform) (m : Machine) (us : Int) :
    (delayMicroseconds pf m us).globals = m.globals := rfl

@[simp]
theorem delayMicroseconds_pump_relay (pf : Platform) (m : Machine) (us : Int) :
    (delayMicroseconds pf m us).pump_relay = m.pump_relay := rfl

@[simp]
theorem delayMicroseconds_PORTB (pf : Platform) (m : Machine) (us : Int) :
    (delayMicroseconds pf m us).PORTB = m.PORTB := rfl

@[simp]
theorem delayMicroseconds_trace (pf : Platform) (m : Machine) (us : Int) :
    (delayMicroseconds pf m us).trace
      = m.trace ++ [Event.delayMicroseconds (toUInt pf us)] := rfl

/-! ## The four test procedures -/

theorem do_leak_test_mode_summary (pf : Platform) (m : Machine) (clock : List Int) :
    (do_leak_test_mode pf m clock).machine.globals = m.globals ∧
    callsIn (do_leak_test_mode pf m clock).machine.trace = callsIn m.trace ∧
    (do_leak_test_mode pf m clock).machine.PORTB = m.PORTB ∧
    injectorWrites (do_leak_test_mode pf m clock).machine.trace = injectorWrites m.trace ∧
    ((do_leak_test_mode pf m clock).returned = true →
      (do_leak_test_mode pf m clock).machine.pump_relay = true) := by
  unfold do_leak_test_mode
  cases clock with
  | nil => simp
  | cons start clock =>
    obtain ⟨h1, _, h3, h4, h5⟩ :=
      status_wait_frame pf (end_time pf start m.globals.params.leak.seconds) clock
        (digitalWrite_pump m false)
    simp only []
    generalize status_wait pf (end_time pf start m.globals.params.leak.seconds) clock
      (digitalWrite_pump m false) = r at h1 h3 h4 h5 ⊢
    split_ifs with hr <;>
      simp [h1, h3, h4, h5, hr, callsIn_append, injectorWrites_append, callsIn, injectorWrites]

theorem do_full_flow_mode_summary (pf : Platform) (m : Machine) (clock : List Int) :
    (do_full_flow_mode pf m clock).machine.globals = m.globals ∧
    callsIn (do_full_flow_mode pf m clock).machine.trace = callsIn m.trace ∧
    ((do_full_flow_mode pf m clock).returned = true →
      (do_full_flow_mode pf m clock).machine.pump_relay = true ∧
      injectorsClosed (do_full_flow_mode pf m clock).machine) := by
  unfold do_full_flow_mode
  cases clock with
  | nil => simp [callsIn_append, callsIn]
  | cons start clock =>
    obtain ⟨h1, _, _, h4, _⟩ :=
      status_wait_frame pf (end_time pf start m.globals.params.full_flow.seconds) clock
        (open_injectors (delay (digitalWrite_pump m false) 2000))
    simp only []
    generalize status_wait pf (end_time pf start m.globals.params.full_flow.seconds) clock
      (open_injectors (delay (digitalWrite_pump m false) 2000)) = r at h1 h4 ⊢
    split_ifs with hr
    · refine ⟨?_, ?_, fun _ => ⟨rfl, closed_after_close _⟩⟩ <;>
        simp [h1, h4, callsIn_append, callsIn]
    · refine ⟨?_, ?_, fun h => absurd h hr⟩ <;> simp [h1, h4, callsIn_append, callsIn]

theorem do_constant_rpm_mode_summary (pf : Platform) (m : Machine) (clock : List Int) :
    (do_constant_rpm_mode pf m clock).machine.globals = m.globals ∧
    callsIn (do_constant_rpm_mode pf m clock).machine.trace = callsIn m.trace ∧
    ((do_constant_rpm_mode pf m clock).returned = true →
      (do_constant_rpm_mode pf m clock).machine.pump_relay = true ∧
      injectorsClosed (do_constant_rpm_mode pf m clock).machine) := by
  unfold do_constant_rpm_mode
  cases hiv : do_constant_rpm_mode_intervals pf m.globals.params.rpm with
  | none => simp
  | some t =>
    cases clock with
    | nil => simp [callsIn_append, callsIn]
    | cons start clock =>
      obtain ⟨h1, _, h3, h4⟩ :=
        rpm_pulse_loop_frame pf (end_time pf start m.globals.params.rpm.seconds)
          t.injector_open_time t.injector_close_time clock
          (delay (digitalWrite_pump (emit m (Event.lcd 0)) false) 2000)
      simp only []
      generalize rpm_pulse_loop pf (end_time pf start m.globals.params.rpm.seconds)
          t.injector_open_time t.injector_close_time clock
          (delay (digitalWrite_pump (emit m (Event.lcd 0)) false) 2000) = r at h1 h3 h4 ⊢
      split_ifs with hr
      · refine ⟨?_, ?_, fun _ => ⟨rfl, h3⟩⟩ <;> simp [h1, h4, callsIn_append, callsIn]
      · refine ⟨?_, ?_, fun h => absurd h hr⟩ <;> simp [h1, h4, callsIn_append, callsIn]

theorem do_pwm_mode_summary (pf : Platform) (m : Machine) :
    (do_pwm_mode pf m).globals = m.globals ∧
    callsIn (do_pwm_mode pf m).trace = callsIn m.trace ∧
    (do_pwm_mode pf m).pump_relay = true ∧
    (injectorsClosed m → injectorsClosed (do_pwm_mode pf m)) := by
  unfold do_pwm_mode
  obtain ⟨h1, _, h3, h4⟩ :=
    pwm_pulse_loop_frame pf m.globals.params.pwm.microseconds
      (toLong pf m.globals.params.pwm.pulses).toNat
      (delay (digitalWrite_pump m false) 2000)
  simp only []
  generalize pwm_pulse_loop pf m.globals.params.pwm.microseconds
      (toLong pf m.globals.params.pwm.pulses).toNat
      (delay (digitalWrite_pump m false) 2000) = r at h1 h3 h4 ⊢
  refine ⟨?_, ?_, rfl, fun hcl => h3 hcl⟩ <;> simp [h1, h4, callsIn_append, callsIn]

@[simp]
theorem set_top_line_globals (m : Machine) (mode : operation_t) (r : Bool) :
    (set_top_line m mode r).globals = m.globals := rfl

@[simp]
theorem set_top_line_trace (m : Machine) (mode : operation_t) (r : Bool) :
    (set_top_line m mode r).trace = m.trace ++ [Event.lcd 0] := rfl

@[simp]
theorem set_bottom_line_globals (m : Machine) (mode : operation_t) (b : button_t) :
    (set_bottom_line m mode b).globals = m.globals := rfl

@[simp]
theorem set_bottom_line_trace (m : Machine) (mode : operation_t) (b : button_t) :
    (set_bottom_line m mode b).trace = m.trace ++ [Event.lcd 1] := rfl

/-- The display update at the end of a fresh pass changes no global. -/
theorem finish_globals (r : Outcome) (b : button_t) :
    (if r.returned = true then
        let top := set_top_line r.machine r.machine.globals.CURRENT_MODE false
        { r with machine := set_bottom_line top top.globals.CURRENT_MODE b }
      else r).machine.globals = r.machine.globals := by
  split_ifs <;> rfl

/-- The globals after a pass on the machine are those of `loop`. -/
theorem loop_pass_globals (pf : Platform) (m : Machine) (x now : Int) (rest : List Int) :
    (loop_pass pf m x (now :: rest)).machine.globals = loop pf m.globals x now := by
  unfold loop_pass loop
  by_cases hh : m.globals.LAST_BUTTON = get_button x
  · simp only [if_pos hh, apply_ite Outcome.machine, apply_ite Machine.globals]
    split_ifs <;> simp [save_settings_run]
  · simp only [if_neg hh]
    rw [finish_globals]
    simp only [apply_ite Outcome.machine, apply_ite Machine.globals,
      (do_constant_rpm_mode_summary pf _ rest).1, (do_leak_test_mode_summary pf _ rest).1,
      (do_full_flow_mode_summary pf _ rest).1, (do_pwm_mode_summary pf _).1, emit_globals]
    split_ifs <;> rfl

/-- The display update at the end of a fresh pass makes no call. -/
theorem finish_calls (r : Outcome) (b : button_t) :
    callsIn (if r.returned = true then
        let top := set_top_line r.machine r.machine.globals.CURRENT_MODE false
        { r with machine := set_bottom_line top top.globals.CURRENT_MODE b }
      else r).machine.trace = callsIn r.machine.trace := by
  split_ifs <;> simp [callsIn_append, callsIn]

/-- The calls that one pass makes: a test procedure on a fresh RIGHT, `save_settings`
on a SELECT held for more than a second, nothing otherwise. -/
theorem loop_pass_calls (pf : Platform) (m : Machine) (x now : Int) (rest : List Int) :
    callsIn (loop_pass pf m x (now :: rest)).machine.trace = callsIn m.trace ++
      (if get_button x = RIGHT ∧ m.globals.LAST_BUTTON ≠ RIGHT then
        (if m.globals.CURRENT_MODE = LEAK_TEST then [Routine.do_leak_test_mode]
         else if m.globals.CURRENT_MODE = RPM_MODE then [Routine.do_constant_rpm_mode]
         else if m.globals.CURRENT_MODE = FULL_FLOW_MODE then [Routine.do_full_flow_mode]
         else if m.globals.CURRENT_MODE = PWM_MODE then [Routine.do_pwm_mode]
         else [])
       else if get_button x = SELECT ∧ m.globals.LAST_BUTTON = SELECT ∧
           elapsed pf m.globals now > 1000000 then [Routine.save_settings]
       else []) := by
  unfold loop_pass elapsed
  by_cases hh : m.globals.LAST_BUTTON = get_button x
  · have hnr : ¬ (get_button x = RIGHT ∧ m.globals.LAST_BUTTON ≠ RIGHT) := by
      rintro ⟨h1, h2⟩
      exact h2 (hh.trans h1)
    simp only [if_pos hh, if_neg hnr, apply_ite Outcome.machine, apply_ite Machine.trace,
      apply_ite callsIn]
    by_cases hs : get_button x = SELECT
    · have hud : ¬ (SELECT = UP ∨ SELECT = DOWN) := by decide
      have hl : m.globals.LAST_BUTTON = SELECT := hh.trans hs
      simp only [hs, hl, if_neg hud, true_and, if_true]
      split_ifs <;> simp [save_settings_run, callsIn_append, callsIn]
    · have hns : ¬ (get_button x = SELECT ∧ m.globals.LAST_BUTTON = SELECT ∧
          toULong pf (toULong pf now - m.globals.last_button_press_time) > 1000000) :=
        fun h => hs h.1
      simp only [if_neg hs, if_neg hns]
      split_ifs <;> simp
  · have hns : ¬ (get_button x = SELECT ∧ m.globals.LAST_BUTTON = SELECT ∧
        toULong pf (toULong pf now - m.globals.last_button_press_time) > 1000000) := by
      rintro ⟨h1, h2, _⟩
      exact hh (h2.trans h1.symm)
    simp only [if_neg hh, if_neg hns]
    rw [finish_calls]
    by_cases hr : get_button x = RIGHT
    · have hlr : m.globals.LAST_BUTTON ≠ RIGHT := fun h => hh (h.trans hr.symm)
      have e1 : ¬ (RIGHT = SELECT) := by decide
      have e2 : ¬ (RIGHT = LEFT) := by decide
      have e3 : ¬ (RIGHT = UP ∨ RIGHT = DOWN) := by decide
      simp only [hr, if_neg e1, if_neg e2, if_neg e3, if_true, true_and, if_pos hlr,
        apply_ite Outcome.machine, apply_ite Machine.trace, apply_ite callsIn,
        (do_constant_rpm_mode_summary pf _ rest).2.1, (do_leak_test_mode_summary pf _ rest).2.1,
        (do_full_flow_mode_summary pf _ rest).2.1, (do_pwm_mode_summary pf _).2.1, emit_trace,
        callsIn_append, callsIn]
      split_ifs <;> simp_all
    · have hnr : ¬ (get_button x = RIGHT ∧ m.globals.LAST_BUTTON ≠ RIGHT) := fun h => hr h.1
      simp only [if_neg hr, if_neg hnr, apply_ite Outcome.machine, apply_ite Machine.trace,
        apply_ite callsIn]
      split_ifs <;> simp

/-- With no clock reading left a pass gets nowhere: no call, and the parameters and the
EEPROM as they were. -/
theorem loop_pass_without_reading (pf : Platform) (m : Machine) (x : Int) :
    callsIn (loop_pass pf m x []).machine.trace = callsIn m.trace ∧
    (loop_pass pf m x []).machine.globals.eeprom = m.globals.eeprom ∧
    (loop_pass pf m x []).machine.globals.params = m.globals.params := by
  unfold loop_pass
  simp only [apply_ite Outcome.machine, apply_ite Machine.trace, apply_ite callsIn,
    apply_ite Machine.globals, apply_ite State.eeprom, apply_ite State.params]
  refine ⟨?_, ?_, ?_⟩ <;> split_ifs <;> rfl

/-- The EEPROM after one pass: written by a SELECT held for more than a second, and by
nothing else. -/
theorem loop_eeprom (pf : Platform) (s : State) (x now : Int) :
    (loop pf s x now).eeprom =
      if get_button x = SELECT ∧ s.LAST_BUTTON = SELECT ∧ elapsed pf s now > 1000000 then
        save_settings pf false s.params s.eeprom
      else s.eeprom := by
  unfold loop elapsed
  by_cases hh : s.LAST_BUTTON = get_button x
  · rw [if_pos hh]
    by_cases hs : get_button x = SELECT
    · have hud : ¬ (SELECT = UP ∨ SELECT = DOWN) := by decide
      have hl : s.LAST_BUTTON = SELECT := hh.trans hs
      simp only [hs, hl, if_neg hud, true_and, if_true, apply_ite State.eeprom]
    · have hns : ¬ (get_button x = SELECT ∧ s.LAST_BUTTON = SELECT ∧
          toULong pf (toULong pf now - s.last_button_press_time) > 1000000) :=
        fun h => hs h.1
      simp only [if_neg hs, if_neg hns, apply_ite State.eeprom]
      split_ifs <;> rfl
  · have hns : ¬ (get_button x = SELECT ∧ s.LAST_BUTTON = SELECT ∧
        toULong pf (toULong pf now - s.last_button_press_time) > 1000000) := by
      rintro ⟨h1, h2, _⟩
      exact hh (h2.trans h1.symm)
    simp only [if_neg hh, if_neg hns, apply_ite State.eeprom]
    split_ifs <;> rfl

/-- The parameters after one pass: one step of the selected field on a fresh UP or
DOWN, and no change otherwise. -/
theorem loop_params (pf : Platform) (s : State) (x now : Int) :
    (loop pf s x now).params =
      if (get_button x = UP ∨ get_button x = DOWN) ∧ s.LAST_BUTTON ≠ get_button x then
        stepSelected pf s.CURRENT_MODE s.PARAM_NUM (decide (get_button x = UP)) s.params
      else s.params := by
  unfold loop stepSelected applyEdit
  by_cases hh : s.LAST_BUTTON = get_button x
  · have hn : ¬ ((get_button x = UP ∨ get_button x = DOWN) ∧ s.LAST_BUTTON ≠ get_button x) :=
      fun h => h.2 hh
    simp only [if_pos hh, if_neg hn, apply_ite State.params]
    split_ifs <;> rfl
  · by_cases hud : get_button x = UP ∨ get_button x = DOWN
    · have hns : ¬ (get_button x = SELECT) := by
        rcases hud with h | h <;> rw [h] <;> decide
      have hnl : ¬ (get_button x = LEFT) := by
        rcases hud with h | h <;> rw [h] <;> decide
      have hp : (get_button x = UP ∨ get_button x = DOWN) ∧ s.LAST_BUTTON ≠ get_button x :=
        ⟨hud, hh⟩
      simp only [if_neg hh, if_neg hns, if_neg hnl, if_pos hud, if_pos hp,
        apply_ite State.params]
    · have hn : ¬ ((get_button x = UP ∨ get_button x = DOWN) ∧
          s.LAST_BUTTON ≠ get_button x) := fun h => hud h.1
      simp only [if_neg hh, if_neg hud, if_neg hn, apply_ite State.params]
      split_ifs <;> rfl

/-- One step of the selected field changes at most the current value of that field. -/
theorem stepSelected_frame (pf : Platform) (mode : operation_t) (p : Int) (inc : Bool)
    (P : ParameterStore) :
    (∃ v : Int, stepSelected pf mode p inc P = setSelected mode p v P) ∧
    sameConstants (stepSelected pf mode p inc P) P := by
  unfold stepSelected setSelected applyEdit sameConstants
  by_cases h0 : mode = LEAK_TEST
  · simp only [if_pos h0]
    exact ⟨⟨_, rfl⟩, by simp [leak_test_change_param]⟩
  by_cases h1 : mode = FULL_FLOW_MODE
  · simp only [if_neg h0, if_pos h1]
    exact ⟨⟨_, rfl⟩, by simp [full_flow_mode_change_param]⟩
  by_cases h2 : mode = RPM_MODE
  · simp only [if_neg h0, if_neg h1, if_pos h2, rpm_mode_change_param]
    by_cases p0 : p = 0
    · simp only [if_pos p0]; exact ⟨⟨_, rfl⟩, by simp⟩
    by_cases p1 : p = 1
    · simp only [if_neg p0, if_pos p1]; exact ⟨⟨_, rfl⟩, by simp⟩
    by_cases p2 : p = 2
    · simp only [if_neg p0, if_neg p1, if_pos p2]; exact ⟨⟨_, rfl⟩, by simp⟩
    · simp only [if_neg p0, if_neg p1, if_neg p2]; exact ⟨⟨0, trivial⟩, by simp⟩
  by_cases h3 : mode = PWM_MODE
  · simp only [if_neg h0, if_neg h1, if_neg h2, if_pos h3, pwm_mode_change_param]
    by_cases p0 : p = 0
    · simp only [if_pos p0]; exact ⟨⟨_, rfl⟩, by simp⟩
    by_cases p1 : p = 1
    · simp only [if_neg p0, if_pos p1]; exact ⟨⟨_, rfl⟩, by simp⟩
    · simp only [if_neg p0, if_neg p1]; exact ⟨⟨0, trivial⟩, by simp⟩
  · simp only [if_neg h0, if_neg h1, if_neg h2, if_neg h3]
    exact ⟨⟨0, trivial⟩, by simp⟩

theorem setSelected_self (mode : operation_t) (p : Int) (P : ParameterStore) :
    ∃ v : Int, P = setSelected mode p v P := by
  unfold setSelected
  by_cases h0 : mode = LEAK_TEST
  · exact ⟨P.leak.seconds, by simp only [if_pos h0]⟩
  by_cases h1 : mode = FULL_FLOW_MODE
  · exact ⟨P.full_flow.seconds, by simp only [if_neg h0, if_pos h1]⟩
  by_cases h2 : mode = RPM_MODE
  · by_cases p0 : p = 0
    · exact ⟨P.rpm.seconds, by simp only [if_neg h0, if_neg h1, if_pos h2, if_pos p0]⟩
    by_cases p1 : p = 1
    · exact ⟨P.rpm.rpm, by simp only [if_neg h0, if_neg h1, if_pos h2, if_neg p0, if_pos p1]⟩
    by_cases p2 : p = 2
    · exact ⟨P.rpm.duty,
        by simp only [if_neg h0, if_neg h1, if_pos h2, if_neg p0, if_neg p1, if_pos p2]⟩
    · exact ⟨0, by simp only [if_neg h0, if_neg h1, if_pos h2, if_neg p0, if_neg p1, if_neg p2]⟩
  by_cases h3 : mode = PWM_MODE
  · by_cases p0 : p = 0
    · exact ⟨P.pwm.pulses,
        by simp only [if_neg h0, if_neg h1, if_neg h2, if_pos h3, if_pos p0]⟩
    by_cases p1 : p = 1
    · exact ⟨P.pwm.microseconds,
        by simp only [if_neg h0, if_neg h1, if_neg h2, if_pos h3, if_neg p0, if_pos p1]⟩
    · exact ⟨0, by simp only [if_neg h0, if_neg h1, if_neg h2, if_pos h3, if_neg p0, if_neg p1]⟩
  · exact ⟨0, by simp only [if_neg h0, if_neg h1, if_neg h2, if_neg h3]⟩

/-! ## Held SELECT saves the settings (lines 693-701) -/

/-- C13. On a pass whose sampled button is SELECT and equals `LAST_BUTTON`,
`save_settings` is called, once, exactly when `now - last_button_press_time` (in
`unsigned long`) is greater than 1000000; the globals after the pass are the old ones,
with the EEPROM written by `save_settings(false)` in that case, so that `CURRENT_MODE`,
`PARAM_NUM`, `LAST_BUTTON`, `last_button_press_time` and the parameters are unchanged.
Any pass at all (`m2`, `x2`, `clock2`) either leaves the EEPROM as it was or is a pass on
a held SELECT. -/
theorem held_select_saves_after_one_second (pf : Platform) (m : Machine) (x now : Int)
    (rest : List Int) (hx : get_button x = SELECT) (hl : m.globals.LAST_BUTTON = SELECT)
    (m2 : Machine) (x2 : Int) (clock2 : List Int) :
    callsIn (loop_pass pf (observe m) x (now :: rest)).machine.trace =
      (if elapsed pf m.globals now > 1000000 then [Routine.save_settings] else []) ∧
    (loop_pass pf m x (now :: rest)).machine.globals =
      (if elapsed pf m.globals now > 1000000 then
        { m.globals with
          eeprom := save_settings pf false m.globals.params m.globals.eeprom }
       else m.globals) ∧
    (loop_pass pf m x (now :: rest)).machine.globals.CURRENT_MODE = m.globals.CURRENT_MODE ∧
    (loop_pass pf m x (now :: rest)).machine.globals.PARAM_NUM = m.globals.PARAM_NUM ∧
    (loop_pass pf m x (now :: rest)).machine.globals.LAST_BUTTON = m.globals.LAST_BUTTON ∧
    (loop_pass pf m x (now :: rest)).machine.globals.last_button_press_time =
      m.globals.last_button_press_time ∧
    (loop_pass pf m x (now :: rest)).machine.globals.params = m.globals.params ∧
    ((loop_pass pf m2 x2 clock2).machine.globals.eeprom = m2.globals.eeprom ∨
      (get_button x2 = SELECT ∧ m2.globals.LAST_BUTTON = SELECT)) := by
  have hnr : ¬ (get_button x = RIGHT ∧ (observe m).globals.LAST_BUTTON ≠ RIGHT) := by
    rw [hx]; exact fun h => absurd h.1 (by decide)
  have hg : (loop_pass pf m x (now :: rest)).machine.globals =
      (if elapsed pf m.globals now > 1000000 then
        { m.globals with
          eeprom := save_settings pf false m.globals.params m.globals.eeprom }
       else m.globals) := by
    rw [loop_pass_globals]
    unfold loop elapsed
    have hud : ¬ (SELECT = UP ∨ SELECT = DOWN) := by decide
    simp only [hx, hl, if_neg hud, if_true]
  refine ⟨?_, hg, ?_, ?_, ?_, ?_, ?_, ?_⟩
  · rw [loop_pass_calls]
    have ho : (observe m).globals = m.globals := rfl
    have ht : (observe m).trace = [] := rfl
    have hc : callsIn ([] : List Event) = [] := rfl
    rw [if_neg hnr, ht, hc, List.nil_append, ho]
    by_cases he : elapsed pf m.globals now > 1000000
    · rw [if_pos ⟨hx, hl, he⟩, if_pos he]
    · rw [if_neg (fun h => he h.2.2), if_neg he]
  · rw [hg]; split_ifs <;> rfl
  · rw [hg]; split_ifs <;> rfl
  · rw [hg]; split_ifs <;> rfl
  · rw [hg]; split_ifs <;> rfl
  · rw [hg]; split_ifs <;> rfl
  · cases clock2 with
    | nil => exact Or.inl (loop_pass_without_reading pf m2 x2).2.1
    | cons now2 rest2 =>
      rw [loop_pass_globals, loop_eeprom]
      by_cases h : get_button x2 = SELECT ∧ m2.globals.LAST_BUTTON = SELECT ∧
          elapsed pf m2.globals now2 > 1000000
      · exact Or.inr ⟨h.1, h.2.1⟩
      · exact Or.inl (if_neg h)

/-- C13, witness: SELECT held on the idle machine; 1.5 s after the press the pass calls
`save_settings`, 0.5 s after the press it does not. -/
theorem held_select_saves_after_one_second_witness :
    get_button 700 = SELECT ∧ heldSelectMachine.globals.LAST_BUTTON = SELECT ∧
    callsIn (loop_pass avr (observe heldSelectMachine) 700 [1500000]).machine.trace =
      [Routine.save_settings] ∧
    callsIn (loop_pass avr (observe heldSelectMachine) 700 [500000]).machine.trace = [] :=
  ⟨by decide, by decide,
    (held_select_saves_after_one_second avr heldSelectMachine 700 1500000 []
      (by decide) (by decide) heldSelectMachine 700 []).1.trans (by decide),
    (held_select_saves_after_one_second avr heldSelectMachine 700 500000 []
      (by decide) (by decide) heldSelectMachine 700 []).1.trans (by decide)⟩

/-! ## RIGHT starts the test procedure of the mode (lines 762-785) -/

/-- C14. The calls of any pass (`m2`, `x2`, `now2`) are: on RIGHT with `LAST_BUTTON` not
RIGHT the one procedure of `CURRENT_MODE` (`do_leak_test_mode`, `do_constant_rpm_mode`,
`do_full_flow_mode`, `do_pwm_mode` for the leak test, RPM, full flow, PWM; none for a
mode outside the four), on a SELECT held for more than a second `save_settings`, and
nothing otherwise; so a held RIGHT starts nothing.  On RIGHT with `LAST_BUTTON` not
RIGHT the pass is the bookkeeping of the press, that procedure run on the resulting
machine, whose parameters are the current ones, and the display refresh. -/
theorem right_press_starts_the_mode_procedure (pf : Platform) (m : Machine) (x now : Int)
    (rest : List Int) (hx : get_button x = RIGHT) (hl : m.globals.LAST_BUTTON ≠ RIGHT)
    (m2 : Machine) (x2 now2 : Int) (rest2 : List Int) :
    callsIn (loop_pass pf (observe m2) x2 (now2 :: rest2)).machine.trace =
      (if get_button x2 = RIGHT ∧ m2.globals.LAST_BUTTON ≠ RIGHT then
        (if m2.globals.CURRENT_MODE = LEAK_TEST then [Routine.do_leak_test_mode]
         else if m2.globals.CURRENT_MODE = RPM_MODE then [Routine.do_constant_rpm_mode]
         else if m2.globals.CURRENT_MODE = FULL_FLOW_MODE then [Routine.do_full_flow_mode]
         else if m2.globals.CURRENT_MODE = PWM_MODE then [Routine.do_pwm_mode]
         else [])
       else if get_button x2 = SELECT ∧ m2.globals.LAST_BUTTON = SELECT ∧
           elapsed pf m2.globals now2 > 1000000 then [Routine.save_settings]
       else []) ∧
    loop_pass pf m x (now :: rest) =
      refresh_display
        (if m.globals.CURRENT_MODE = RPM_MODE then
          do_constant_rpm_mode pf
            (emit (record_press pf m RIGHT now) (Event.call Routine.do_constant_rpm_mode)) rest
         else if m.globals.CURRENT_MODE = LEAK_TEST then
          do_leak_test_mode pf
            (emit (record_press pf m RIGHT now) (Event.call Routine.do_leak_test_mode)) rest
         else if m.globals.CURRENT_MODE = FULL_FLOW_MODE then
          do_full_flow_mode pf
            (emit (record_press pf m RIGHT now) (Event.call Routine.do_full_flow_mode)) rest
         else if m.globals.CURRENT_MODE = PWM_MODE then
          { machine :=
              do_pwm_mode pf (emit (record_press pf m RIGHT now) (Event.call Routine.do_pwm_mode)),
            clock := rest, returned := true }
         else { machine := record_press pf m RIGHT now, clock := rest, returned := true })
        RIGHT ∧
    (emit (record_press pf m RIGHT now) (Event.call Routine.do_leak_test_mode)).globals.params =
      m.globals.params := by
  refine ⟨?_, ?_, rfl⟩
  · rw [loop_pass_calls]
    have ht : callsIn (observe m2).trace = [] := rfl
    rw [ht, List.nil_append]
    rfl
  · have hne : ¬ (m.globals.LAST_BUTTON = RIGHT) := hl
    have h1 : ¬ (RIGHT = SELECT) := by decide
    have h2 : ¬ (RIGHT = LEFT) := by decide
    have h3 : ¬ (RIGHT = UP ∨ RIGHT = DOWN) := by decide
    unfold loop_pass refresh_display record_press
    simp only [hx, if_neg hne, if_neg h1, if_neg h2, if_neg h3, if_true]

/-- C14, witness: RIGHT on the idle machine in PWM mode starts `do_pwm_mode` and nothing
else; the same sample with RIGHT already recorded starts nothing. -/
theorem right_press_starts_the_mode_procedure_witness :
    get_button 0 = RIGHT ∧ (readyMachine PWM_MODE).globals.LAST_BUTTON ≠ RIGHT ∧
    callsIn (loop_pass avr (observe (readyMachine PWM_MODE)) 0 [5]).machine.trace =
      [Routine.do_pwm_mode] ∧
    callsIn (loop_pass avr (observe (idleMachine (heldState PWM_MODE RIGHT))) 0
      [5]).machine.trace = [] :=
  ⟨by decide, by decide,
    (right_press_starts_the_mode_procedure avr (readyMachine PWM_MODE) 0 5 []
      (by decide) (by decide) (readyMachine PWM_MODE) 0 5 []).1.trans (by decide),
    (right_press_starts_the_mode_procedure avr (readyMachine PWM_MODE) 0 5 []
      (by decide) (by decide) (idleMachine (heldState PWM_MODE RIGHT)) 0 5 []).1.trans
      (by decide)⟩

/-! ## What a pass may change in the parameter store -/

/-- C15. After any pass of `loop` (any machine, sample and clock) the parameter store is
the old one with at most the current value of the field selected by
`(CURRENT_MODE, PARAM_NUM)` replaced; it is the old store unless the sample is UP or
DOWN and differs from `LAST_BUTTON`, in which case it is the old store after one step
of that field; every `min`, `max` and `step` member is as before.  The four test
procedures leave all globals, the parameter store among them, as they found them. -/
theorem pass_changes_only_the_selected_value (pf : Platform) (m : Machine) (x : Int)
    (clock : List Int) :
    (∃ v : Int, (loop_pass pf m x clock).machine.globals.params =
      setSelected m.globals.CURRENT_MODE m.globals.PARAM_NUM v m.globals.params) ∧
    ((loop_pass pf m x clock).machine.globals.params = m.globals.params ∨
      ((get_button x = UP ∨ get_button x = DOWN) ∧ m.globals.LAST_BUTTON ≠ get_button x ∧
        (loop_pass pf m x clock).machine.globals.params =
          stepSelected pf m.globals.CURRENT_MODE m.globals.PARAM_NUM
            (decide (get_button x = UP)) m.globals.params)) ∧
    sameConstants (loop_pass pf m x clock).machine.globals.params m.globals.params ∧
    (do_leak_test_mode pf m clock).machine.globals = m.globals ∧
    (do_full_flow_mode pf m clock).machine.globals = m.globals ∧
    (do_constant_rpm_mode pf m clock).machine.globals = m.globals ∧
    (do_pwm_mode pf m).globals = m.globals := by
  have hsame : ∀ P : ParameterStore, sameConstants P P := fun P => by
    simp [sameConstants]
  refine ⟨?_, ?_, ?_, (do_leak_test_mode_summary pf m clock).1,
    (do_full_flow_mode_summary pf m clock).1, (do_constant_rpm_mode_summary pf m clock).1,
    (do_pwm_mode_summary pf m).1⟩
  · cases clock with
    | nil =>
      rw [(loop_pass_without_reading pf m x).2.2]
      exact setSelected_self _ _ _
    | cons now rest =>
      rw [loop_pass_globals, loop_params]
      split_ifs
      · exact (stepSelected_frame pf _ _ _ _).1
      · exact setSelected_self _ _ _
  · cases clock with
    | nil => exact Or.inl (loop_pass_without_reading pf m x).2.2
    | cons now rest =>
      rw [loop_pass_globals, loop_params]
      by_cases h : (get_button x = UP ∨ get_button x = DOWN) ∧
          m.globals.LAST_BUTTON ≠ get_button x
      · rw [if_pos h]; exact Or.inr ⟨h.1, h.2, rfl⟩
      · rw [if_neg h]; exact Or.inl rfl
  · cases clock with
    | nil =>
      rw [(loop_pass_without_reading pf m x).2.2]
      exact hsame _
    | cons now rest =>
      rw [loop_pass_globals, loop_params]
      split_ifs
      · exact (stepSelected_frame pf _ _ _ _).2
      · exact hsame _

/-! ## The pulses of PWM mode (lines 595-635) -/

/-- The `delayMicroseconds` calls of the pulse loop: one per round, each with the pulse
width converted to `unsigned int`. -/
theorem pwm_pulse_loop_delays (pf : Platform) (w : Int) : ∀ (n : Nat) (m : Machine),
    microsecondDelays (pwm_pulse_loop pf w n m).trace =
      microsecondDelays m.trace ++ List.replicate n (toUInt pf w)
  | 0, m => by simp [pwm_pulse_loop]
  | n + 1, m => by
    rw [pwm_pulse_loop, pwm_pulse_loop_delays pf w n]
    simp [delay, emit, close_injectors, delayMicroseconds, open_injectors,
      microsecondDelays_append, microsecondDelays, List.replicate_succ]

/-- The `delayMicroseconds` calls of `do_pwm_mode`. -/
theorem do_pwm_mode_delays (pf : Platform) (m : Machine) :
    microsecondDelays (do_pwm_mode pf (observe m)).trace =
      List.replicate (toLong pf m.globals.params.pwm.pulses).toNat
        (toUInt pf m.globals.params.pwm.microseconds) := by
  unfold do_pwm_mode
  simp only [digitalWrite_pump_trace, microsecondDelays_append]
  rw [pwm_pulse_loop_delays]
  simp [observe, delay, emit, digitalWrite_pump, microsecondDelays_append, microsecondDelays]

/-- C16, on the AVR target with 2 pulses of 100000 microseconds (both in range).
`do_pwm_mode` enables the pump, waits 2000 ms, makes two rounds of (injectors opened,
`delayMicroseconds`, injectors closed, one display update, 500 ms wait) and disables the
pump, but the argument of each `delayMicroseconds` is 34464, not 100000: the pulse width
is a `long long`, the parameter of `delayMicroseconds` an `unsigned int` of 16 bits.  On
every platform and machine the calls are `pulses` calls with the width converted to
`unsigned int`. -/
theorem do_pwm_mode_truncates_pulse_width :
    ((1 : Int) ≤ 2 ∧ (2 : Int) ≤ PWM_PARAMS.max_pulses ∧
      PWM_PARAMS.min_microseconds ≤ 100000 ∧ 100000 ≤ PWM_PARAMS.max_microseconds) ∧
    (do_pwm_mode avr (idleMachine (pwmState 2 100000))).trace =
      [Event.pump_relay false, Event.delay 2000,
       Event.injectors 15, Event.delayMicroseconds 34464, Event.injectors 0, Event.lcd 0,
       Event.delay 500,
       Event.injectors 15, Event.delayMicroseconds 34464, Event.injectors 0, Event.lcd 0,
       Event.delay 500,
       Event.pump_relay true] ∧
    (∀ (pf : Platform) (m : Machine),
      microsecondDelays (do_pwm_mode pf (observe m)).trace =
        List.replicate (toLong pf m.globals.params.pwm.pulses).toNat
          (toUInt pf m.globals.params.pwm.microseconds)) :=
  ⟨by decide, by decide, do_pwm_mode_delays⟩

/-! ## The outputs when a test procedure returns (lines 473-635) -/

/-- C17. Entered with the four injector bits closed, each of `do_leak_test_mode`,
`do_full_flow_mode` and `do_constant_rpm_mode` either does not return (the clock
readings given do not reach the end of the run) or returns with the pump relay line
HIGH and the four injector bits closed; `do_pwm_mode` always returns so.
`do_leak_test_mode` leaves `PORTB` as it is and writes it at no point. -/
theorem procedures_return_with_pump_off_and_injectors_closed (pf : Platform) (m : Machine)
    (clock : List Int) (hc : injectorsClosed m) :
    ((do_leak_test_mode pf m clock).returned = false ∨
      ((do_leak_test_mode pf m clock).machine.pump_relay = true ∧
        injectorsClosed (do_leak_test_mode pf m clock).machine)) ∧
    ((do_full_flow_mode pf m clock).returned = false ∨
      ((do_full_flow_mode pf m clock).machine.pump_relay = true ∧
        injectorsClosed (do_full_flow_mode pf m clock).machine)) ∧
    ((do_constant_rpm_mode pf m clock).returned = false ∨
      ((do_constant_rpm_mode pf m clock).machine.pump_relay = true ∧
        injectorsClosed (do_constant_rpm_mode pf m clock).machine)) ∧
    ((do_pwm_mode pf m).pump_relay = true ∧ injectorsClosed (do_pwm_mode pf m)) ∧
    (do_leak_test_mode pf m clock).machine.PORTB = m.PORTB ∧
    injectorWrites (do_leak_test_mode pf (observe m) clock).machine.trace = [] := by
  obtain ⟨_, _, l3, _, l5⟩ := do_leak_test_mode_summary pf m clock
  obtain ⟨_, _, _, o4, _⟩ := do_leak_test_mode_summary pf (observe m) clock
  obtain ⟨_, _, f3⟩ := do_full_flow_mode_summary pf m clock
  obtain ⟨_, _, r3⟩ := do_constant_rpm_mode_summary pf m clock
  obtain ⟨_, _, p3, p4⟩ := do_pwm_mode_summary pf m
  refine ⟨?_, ?_, ?_, ⟨p3, p4 hc⟩, l3, o4⟩
  · cases h : (do_leak_test_mode pf m clock).returned with
    | false => exact Or.inl rfl
    | true =>
      refine Or.inr ⟨l5 h, ?_⟩
      unfold injectorsClosed at hc ⊢
      rw [l3]; exact hc
  · cases h : (do_full_flow_mode pf m clock).returned with
    | false => exact Or.inl rfl
    | true => exact Or.inr (f3 h)
  · cases h : (do_constant_rpm_mode pf m clock).returned with
    | false => exact Or.inl rfl
    | true => exact Or.inr (r3 h)

/-- C17, witness: the idle machine with the default parameters and the clock readings
0, 1 and 60000000 microseconds, on which the three timed procedures return. -/
theorem procedures_return_with_pump_off_and_injectors_closed_witness :
    injectorsClosed (readyMachine LEAK_TEST) ∧
    (do_leak_test_mode avr (readyMachine LEAK_TEST) [0, 1, 60000000]).returned = true ∧
    (do_full_flow_mode avr (readyMachine LEAK_TEST) [0, 1, 60000000]).returned = true ∧
    (do_constant_rpm_mode avr (readyMachine LEAK_TEST) [0, 1, 60000000]).returned = true ∧
    (do_leak_test_mode avr (readyMachine LEAK_TEST) [0, 1, 60000000]).machine.pump_relay
      = true ∧
    injectorsClosed (do_full_flow_mode avr (readyMachine LEAK_TEST) [0, 1, 60000000]).machine ∧
    injectorsClosed
      (do_constant_rpm_mode avr (readyMachine LEAK_TEST) [0, 1, 60000000]).machine ∧
    injectorsClosed (do_pwm_mode avr (readyMachine LEAK_TEST)) :=
  have h := procedures_return_with_pump_off_and_injectors_closed avr (readyMachine LEAK_TEST)
    [0, 1, 60000000] (by decide)
  have hl : (do_leak_test_mode avr (readyMachine LEAK_TEST) [0, 1, 60000000]).returned = true :=
    by decide
  have hf : (do_full_flow_mode avr (readyMachine LEAK_TEST) [0, 1, 60000000]).returned = true :=
    by decide
  have hr : (do_constant_rpm_mode avr (readyMachine LEAK_TEST) [0, 1, 60000000]).returned
      = true := by decide
  ⟨by decide, hl, hf, hr,
    (h.1.resolve_left (by rw [hl]; decide)).1,
    (h.2.1.resolve_left (by rw [hf]; decide)).2,
    (h.2.2.1.resolve_left (by rw [hr]; decide)).2,
    h.2.2.2.1.2⟩

/-! ## The end of a timed run and the wraparound of `micros()` (lines 500-519, 536-551,
571-587) -/

/-- C18, on the AVR target with the duration 10 s of full flow (fails in both
directions).  Started at `s = 2^32 - 1000`, the end time `s + 10000000` wraps to
9999000; at the reading `t = s + 500` the test `end_time > micros()` is false although
the elapsed time `(t - s) mod 2^32` is 500, and `do_full_flow_mode` returns at that
reading.  Started at `s = 2^32 - 10001000`, the end time is `2^32 - 1000` as an
`unsigned long`; at the reading `t = 1000`, taken after the counter has wrapped, the test
is true although the elapsed time is 10002000, more than the duration. -/
theorem end_time_test_fails_at_wraparound :
    end_time avr 4294966296 10 = 9999000 ∧
    ¬ wait_continues avr (end_time avr 4294966296 10) 4294966796 ∧
    toULong avr (4294966796 - 4294966296) = 500 ∧
    (500 : Int) < 10 * 1000000 ∧
    (do_full_flow_mode avr (readyMachine FULL_FLOW_MODE)
      [4294966296, 4294966396, 4294966796, 5]).returned = true ∧
    (do_full_flow_mode avr (readyMachine FULL_FLOW_MODE)
      [4294966296, 4294966396, 4294966796, 5]).clock = [5] ∧
    toULong avr (end_time avr 4284966296 10) = 4294966296 ∧
    wait_continues avr (end_time avr 4284966296 10) 1000 ∧
    toULong avr (1000 - 4284966296) = 10002000 ∧
    ¬ ((10002000 : Int) < 10 * 1000000) := by
  refine ⟨by decide, by decide, by decide, by decide, by decide, by decide, by decide,
    by decide, by decide, by decide⟩

/-! ## Factory reset at power-up (lines 637-654) -/

theorem defaultStore_fits (pf : Platform) (hc : pf.conforming) : fitsFields pf defaultStore := by
  obtain ⟨h1, h2, h3, h4, h5, h6⟩ := hc
  refine ⟨?_, ?_, ?_, ?_, ?_, ?_, ?_⟩ <;>
    exact fitsSigned_of_small _ (by omega) _ (by decide) (by decide)

/-- C19. When `setup` runs at power-up with a reading `600 ≤ x < 800`, whatever the
EEPROM held: it calls `save_settings` once, the parameter store afterwards is the
store of the initialisers (leak test 60 s; RPM mode 15 s, 1000 rpm, duty 50; full flow
10 s; PWM 30 pulses of 1000 microseconds), the EEPROM is the old one with the image of
that store written into it, and reading that image back into any store gives these seven
values. -/
theorem setup_with_select_held_restores_defaults (pf : Platform) (hc : pf.conforming)
    (e : Eeprom) (x : Int) (hx : 600 ≤ x ∧ x < 800) :
    (setup pf (bootMachine e) x).globals.params = defaultStore ∧
    ((setup pf (bootMachine e) x).globals.params.leak.seconds = 60 ∧
      (setup pf (bootMachine e) x).globals.params.rpm.seconds = 15 ∧
      (setup pf (bootMachine e) x).globals.params.rpm.rpm = 1000 ∧
      (setup pf (bootMachine e) x).globals.params.rpm.duty = 50 ∧
      (setup pf (bootMachine e) x).globals.params.full_flow.seconds = 10 ∧
      (setup pf (bootMachine e) x).globals.params.pwm.pulses = 30 ∧
      (setup pf (bootMachine e) x).globals.params.pwm.microseconds = 1000) ∧
    (setup pf (bootMachine e) x).globals.eeprom = save_settings pf true defaultStore e ∧
    (∀ T : ParameterStore,
      load_settings pf T (setup pf (bootMachine e) x).globals.eeprom =
        { leak := { T.leak with seconds := 60 },
          rpm := { T.rpm with seconds := 15, duty := 50, rpm := 1000 },
          full_flow := { T.full_flow with seconds := 10 },
          pwm := { T.pwm with pulses := 30, microseconds := 1000 } }) ∧
    callsIn (setup pf (bootMachine e) x).trace = [Routine.save_settings] := by
  obtain ⟨f1, f2, f3, f4, f5, f6, f7⟩ := defaultStore_fits pf hc
  have hx2 : x ≥ 600 ∧ x < 800 := hx
  have key : ∀ T : ParameterStore, load_settings pf T (save_settings pf true defaultStore e) =
      { leak := { T.leak with seconds := 60 },
        rpm := { T.rpm with seconds := 15, duty := 50, rpm := 1000 },
        full_flow := { T.full_flow with seconds := 10 },
        pwm := { T.pwm with pulses := 30, microseconds := 1000 } } := by
    intro T
    rw [load_after_save, toInt_of_fits pf hc _ f1, toInt_of_fits pf hc _ f2,
      toShort_of_fits pf hc _ f3, toInt_of_fits pf hc _ f4, toInt_of_fits pf hc _ f5,
      toInt_of_fits pf hc _ f6, toLongLong_of_fits pf hc _ f7]
    rfl
  have hp : (setup pf (bootMachine e) x).globals.params =
      load_settings pf defaultStore (save_settings pf true defaultStore e) := by
    unfold setup
    rw [if_pos hx2]
    rfl
  have he : (setup pf (bootMachine e) x).globals.eeprom = save_settings pf true defaultStore e := by
    unfold setup
    rw [if_pos hx2]
    rfl
  have hd : (setup pf (bootMachine e) x).globals.params = defaultStore := by
    rw [hp, key]; rfl
  refine ⟨hd, ?_, he, ?_, ?_⟩
  · rw [hd]; decide
  · intro T; rw [he]; exact key T
  · unfold setup
    rw [if_pos hx2]
    rfl

/-- C19, witness: the AVR target, an erased EEPROM and the reading 700; the first twenty
bytes of the EEPROM afterwards. -/
theorem setup_with_select_held_restores_defaults_witness :
    avr.conforming ∧ ((600 : Int) ≤ 700 ∧ (700 : Int) < 800) ∧
    (setup avr (bootMachine (fun _ => 255)) 700).globals.params = defaultStore ∧
    (List.range 20).map (setup avr (bootMachine (fun _ => 255)) 700).globals.eeprom =
      [60, 0, 15, 0, 50, 0, 232, 3, 10, 0, 30, 0, 232, 3, 0, 0, 0, 0, 0, 0] :=
  ⟨by decide, by decide,
    (setup_with_select_held_restores_defaults avr (by decide) (fun _ => 255) 700
      (by decide)).1,
    by decide⟩

/-! ## A close interval that is not positive (lines 462-470, 479-481, 511-518) -/

/-- C21, counterexample.  A duty of 150, as an image in the EEPROM can hold it, at 1000
rpm on the AVR target: `load_settings` takes the value over as it is, the close interval
is 120000 - 180000 = -60000, and the close phase of one pulse is one call
`delayMicroseconds(5536)`: a wait of 5536 microseconds, not of zero.  Where `unsigned int` has
32 bits the same call asks for 4294907296 microseconds. -/
theorem negative_close_interval_is_waited_for :
    (load_settings avr defaultStore
      (save_settings avr true { defaultStore with rpm := overDutyParams }
        (fun _ => 255))).rpm = overDutyParams ∧
    do_constant_rpm_mode_intervals avr overDutyParams =
      some { cycle_720_time := 120000, injector_open_time := 180000,
             injector_close_time := -60000 } ∧
    (do_longer_delay avr (observe (readyMachine RPM_MODE)) (-60000)).trace =
      [Event.delayMicroseconds 5536] ∧
    (microsecondDelays
      (do_longer_delay avr (observe (readyMachine RPM_MODE)) (-60000)).trace).sum = 5536 ∧
    (rpm_pulse avr 180000 (-60000) (observe (readyMachine RPM_MODE))).trace =
      Event.injectors 15 :: (List.replicate 10 (Event.delayMicroseconds 16383) ++
        [Event.delayMicroseconds 16170, Event.injectors 0, Event.delayMicroseconds 5536]) ∧
    (do_longer_delay ilp32 (observe (readyMachine RPM_MODE)) (-60000)).trace =
      [Event.delayMicroseconds 4294907296] := by
  refine ⟨by decide, by decide, by decide, by decide, by decide, by decide⟩

/-- C21 (amended).  For a close interval `close ≤ 0`, `do_longer_delay(close)` does not
recurse: it is the single call `delayMicroseconds(close)`, which leaves the globals and
the outputs alone, and the close phase of a pulse is that one call.  The primitive
receives `close` converted to `unsigned int`, that is `close mod 2^N` for an `int` of `N`
bits: zero exactly when `2^N` divides `close` (so for `close = 0`), and `2^N + close`,
a positive wait, for `-2^N < close < 0`. -/
theorem nonpositive_close_interval_is_one_delay (pf : Platform) (m : Machine)
    (open_time close : Int) (h : close ≤ 0) :
    do_longer_delay pf m close = delayMicroseconds pf m close ∧
    (do_longer_delay pf (observe m) close).trace =
      [Event.delayMicroseconds (close % 2 ^ (8 * pf.sizeof_int))] ∧
    (microsecondDelays (do_longer_delay pf (observe m) close).trace).sum =
      close % 2 ^ (8 * pf.sizeof_int) ∧
    (close % 2 ^ (8 * pf.sizeof_int) = 0 ↔ (2 : Int) ^ (8 * pf.sizeof_int) ∣ close) ∧
    (close = 0 ∨ close ≤ -(2 ^ (8 * pf.sizeof_int)) ∨
      (close % 2 ^ (8 * pf.sizeof_int) = 2 ^ (8 * pf.sizeof_int) + close ∧
        0 < close % 2 ^ (8 * pf.sizeof_int))) ∧
    (do_longer_delay pf (observe m) 0).trace = [Event.delayMicroseconds 0] ∧
    (do_longer_delay pf m close).globals = m.globals ∧
    (do_longer_delay pf m close).pump_relay = m.pump_relay ∧
    (do_longer_delay pf m close).PORTB = m.PORTB ∧
    rpm_pulse pf open_time close m =
      delayMicroseconds pf (close_injectors (do_longer_delay pf (open_injectors m) open_time))
        close := by
  have hsteps : ∀ c : Int, c ≤ 0 →
      do_longer_delay_steps (c.toNat / 16383 + 1) c = [c] := by
    intro c hcl
    have h0 : c.toNat = 0 := Int.toNat_eq_zero.mpr hcl
    have hn : ¬ (c > 16383) := by omega
    rw [h0]
    simp only [Nat.zero_div, Nat.zero_add, do_longer_delay_steps, if_neg hn]
  have hone : ∀ (n : Machine) (c : Int), c ≤ 0 →
      do_longer_delay pf n c = delayMicroseconds pf n c := by
    intro n c hcl
    unfold do_longer_delay
    rw [hsteps c hcl]
    rfl
  have htrace : (do_longer_delay pf (observe m) close).trace =
      [Event.delayMicroseconds (close % 2 ^ (8 * pf.sizeof_int))] := by
    rw [hone _ _ h]
    rfl
  have hpos : (0 : Int) < 2 ^ (8 * pf.sizeof_int) := by positivity
  refine ⟨hone m close h, htrace, ?_, ?_, ?_, ?_, ?_, ?_, ?_, ?_⟩
  · rw [htrace]
    simp [microsecondDelays]
  · exact Int.dvd_iff_emod_eq_zero.symm
  · by_cases h0 : close = 0
    · exact Or.inl h0
    · by_cases hb : close ≤ -(2 ^ (8 * pf.sizeof_int))
      · exact Or.inr (Or.inl hb)
      · refine Or.inr (Or.inr ?_)
        have hlt : close < 0 := lt_of_le_of_ne h h0
        have hgt : -(2 ^ (8 * pf.sizeof_int)) < close := not_le.mp hb
        have hm : close % 2 ^ (8 * pf.sizeof_int) = 2 ^ (8 * pf.sizeof_int) + close := by
          have hs : close % 2 ^ (8 * pf.sizeof_int) =
              (close + 2 ^ (8 * pf.sizeof_int)) % 2 ^ (8 * pf.sizeof_int) :=
            Int.add_emod_self.symm
          rw [hs, Int.emod_eq_of_lt (by linarith) (by linarith)]
          ring
        exact ⟨hm, by rw [hm]; linarith⟩
  · rw [hone _ _ (le_refl 0)]
    show [Event.delayMicroseconds (toUInt pf 0)] = _
    simp [toUInt, wrapUnsigned]
  · rw [hone m close h]; rfl
  · rw [hone m close h]; rfl
  · rw [hone m close h]; rfl
  · unfold rpm_pulse
    exact hone _ close h

/-- C21 (amended), witness: the close interval -60000 after an open interval of 180000 on
the AVR target. -/
theorem nonpositive_close_interval_is_one_delay_witness :
    (-60000 : Int) ≤ 0 ∧
    (do_longer_delay avr (observe (readyMachine RPM_MODE)) (-60000)).trace =
      [Event.delayMicroseconds ((-60000 : Int) % 2 ^ (8 * avr.sizeof_int))] ∧
    ((-60000 : Int) % 2 ^ (8 * avr.sizeof_int)) = 5536 :=
  ⟨by decide,
    (nonpositive_close_interval_is_one_delay avr (readyMachine RPM_MODE) 180000 (-60000)
      (by decide)).2.1,
    by decide⟩

/-! ## The display lines (lines 176-252) -/

theorem ten_pow_pred (k : Nat) (hk : 1 ≤ k) : 10 * 10 ^ (k - 1) = 10 ^ k := by
  obtain ⟨j, rfl⟩ : ∃ j, k = j + 1 := ⟨k - 1, by omega⟩
  simp only [Nat.add_sub_cancel]
  rw [Nat.pow_succ]; ring

theorem toDigitsCore_length : ∀ (fuel n k : Nat) (ds : List Char), n < fuel → 1 ≤ k →
    n < 10 ^ k →
    ds.length + 1 ≤ (Nat.toDigitsCore 10 fuel n ds).length ∧
    (Nat.toDigitsCore 10 fuel n ds).length ≤ ds.length + k := by
  intro fuel
  induction fuel with
  | zero => intro n k ds h; omega
  | succ fuel ih =>
    intro n k ds hf hk hn
    simp only [Nat.toDigitsCore]
    split_ifs with h0
    · simp only [List.length_cons]; omega
    · have hk2 : 2 ≤ k := by
        by_contra hlt
        have hk1 : k = 1 := by omega
        rw [hk1] at hn
        apply h0
        omega
      have hdiv : n / 10 < 10 ^ (k - 1) := by
        apply Nat.div_lt_of_lt_mul
        have hp : 10 ^ k = 10 * 10 ^ (k - 1) := by
          rw [← ten_pow_pred k hk]
        rw [← hp]; exact hn
      have hlt : n / 10 < fuel := by omega
      obtain ⟨i1, i2⟩ := ih (n / 10) (k - 1) ((n % 10).digitChar :: ds) hlt (by omega) hdiv
      simp only [List.length_cons] at i1 i2
      omega

theorem toDigits_length (n k : Nat) (hk : 1 ≤ k) (hn : n < 10 ^ k) :
    1 ≤ (Nat.toDigits 10 n).length ∧ (Nat.toDigits 10 n).length ≤ k := by
  obtain ⟨h1, h2⟩ := toDigitsCore_length (n + 1) n k [] (by omega) hk hn
  simp only [List.length_nil] at h1 h2
  unfold Nat.toDigits
  omega

/-- The digits that `%d` prints for a value in `[0, 10^k)`: at least one, at most `k`. -/
theorem fmt_d_length (x : Int) (k : Nat) (hk : 1 ≤ k) (h0 : 0 ≤ x) (hx : x.natAbs < 10 ^ k) :
    1 ≤ (fmt_d x).length ∧ (fmt_d x).length ≤ k := by
  unfold fmt_d
  rw [if_neg (by omega)]
  exact toDigits_length _ k hk hx

/-- The conversion `%02d` prints two characters for a value in `[0, 100)`. -/
theorem fmt_02d_length (x : Int) (h0 : 0 ≤ x) (hx : x < 100) : (fmt_02d x).length = 2 := by
  obtain ⟨h1, h2⟩ := toDigits_length x.natAbs 2 (by norm_num) (by norm_num; omega)
  unfold fmt_02d
  rw [if_neg (by omega)]
  simp only [List.nil_append, List.length_append, List.length_replicate, List.length_nil,
    Nat.zero_add]
  omega

/-- An output that reaches 16 characters only in its trailing spaces is cut inside
them. -/
theorem snprintf_pads (c : List Char) (j : Nat) (h1 : c.length ≤ 16)
    (h2 : 16 ≤ c.length + j) : snprintf 17 (c ++ List.replicate j ' ') = padded16 c := by
  unfold snprintf padded16
  rw [List.take_append_eq_append_take, List.take_of_length_le h1, List.take_replicate,
    Nat.min_eq_left (by omega)]

theorem set_top_line_buf_shape (mode : operation_t) (running : Bool) :
    set_top_line_buf mode running =
      (padded16 (modeTitle mode)).take 15 ++ [if running then '*' else ' '] ∧
    (modeTitle mode).length ≤ 14 := by
  unfold set_top_line_buf modeTitle
  by_cases h0 : mode = LEAK_TEST
  · simp only [if_pos h0]; cases running <;> decide
  by_cases h1 : mode = RPM_MODE
  · simp only [if_neg h0, if_pos h1]; cases running <;> decide
  by_cases h2 : mode = FULL_FLOW_MODE
  · simp only [if_neg h0, if_neg h1, if_pos h2]; cases running <;> decide
  by_cases h3 : mode = PWM_MODE
  · simp only [if_neg h0, if_neg h1, if_neg h2, if_pos h3]; cases running <;> decide
  · simp only [if_neg h0, if_neg h1, if_neg h2, if_neg h3]; cases running <;> decide
theorem seconds_line (m0 : Char) (d : List Char) (h1 : 1 ≤ d.length) (h2 : d.length ≤ 7) :
    snprintf 17 ([m0] ++ d ++ String.toList " seconds      ") =
      padded16 ((m0 :: (d ++ String.toList " seconds")) ++ []) ∧
    ((m0 :: (d ++ String.toList " seconds")) ++ []).length ≤ 16 := by
  have hp : String.toList " seconds      " = String.toList " seconds" ++ List.replicate 6 ' ' := by
    decide
  have hl : (String.toList " seconds").length = 8 := by decide
  have hre : [m0] ++ d ++ (String.toList " seconds" ++ List.replicate 6 ' ') =
      ((m0 :: (d ++ String.toList " seconds")) ++ []) ++ List.replicate 6 ' ' := by
    simp only [List.append_assoc, List.singleton_append, List.cons_append, List.append_nil,
      List.nil_append]
  have hlen : ((m0 :: (d ++ String.toList " seconds")) ++ []).length = d.length + 9 := by
    simp only [List.append_nil, List.length_cons, List.length_append, hl]
  rw [hp, hre]
  exact ⟨snprintf_pads _ 6 (by omega) (by omega), by omega⟩

theorem rpm_line (m0 m1 m2 : Char) (a b c : List Char) (ha : 1 ≤ a.length)
    (hb : 1 ≤ b.length) (hc : 1 ≤ c.length) (hsum : a.length + b.length + c.length ≤ 8) :
    snprintf 17 ([m0] ++ a ++ ['s'] ++ [m1] ++ b ++ String.toList "rpm" ++ [m2] ++ c ++
        String.toList "%     ") =
      padded16 ((m0 :: (a ++ ['s'])) ++ ((m1 :: (b ++ String.toList "rpm")) ++
        ((m2 :: (c ++ ['%'])) ++ []))) ∧
    ((m0 :: (a ++ ['s'])) ++ ((m1 :: (b ++ String.toList "rpm")) ++
        ((m2 :: (c ++ ['%'])) ++ []))).length ≤ 16 := by
  have hp : String.toList "%     " = ['%'] ++ List.replicate 5 ' ' := by decide
  have hl : (String.toList "rpm").length = 3 := by decide
  have hre : [m0] ++ a ++ ['s'] ++ [m1] ++ b ++ String.toList "rpm" ++ [m2] ++ c ++
      (['%'] ++ List.replicate 5 ' ') =
      ((m0 :: (a ++ ['s'])) ++ ((m1 :: (b ++ String.toList "rpm")) ++
        ((m2 :: (c ++ ['%'])) ++ []))) ++ List.replicate 5 ' ' := by
    simp only [List.append_assoc, List.singleton_append, List.cons_append, List.append_nil,
      List.nil_append]
  have hlen : ((m0 :: (a ++ ['s'])) ++ ((m1 :: (b ++ String.toList "rpm")) ++
        ((m2 :: (c ++ ['%'])) ++ []))).length = a.length + b.length + c.length + 8 := by
    simp only [List.append_nil, List.length_cons, List.length_append, hl, List.length_nil]
    omega
  rw [hp, hre]
  exact ⟨snprintf_pads _ 5 (by omega) (by omega), by omega⟩

theorem pwm_line (m0 m1 : Char) (a b c : List Char) (ha : 1 ≤ a.length)
    (hb : 1 ≤ b.length) (hc : c.length = 2) (hsum : a.length + b.length ≤ 7) :
    snprintf 17 ([m0] ++ a ++ String.toList "p " ++ [m1] ++ b ++ ['.'] ++ c ++
        String.toList "ms     ") =
      padded16 ((m0 :: (a ++ String.toList "p ")) ++
        ((m1 :: (b ++ ['.'] ++ c ++ String.toList "ms")) ++ [])) ∧
    ((m0 :: (a ++ String.toList "p ")) ++
        ((m1 :: (b ++ ['.'] ++ c ++ String.toList "ms")) ++ [])).length ≤ 16 := by
  have hp : String.toList "ms     " = String.toList "ms" ++ List.replicate 5 ' ' := by decide
  have hl : (String.toList "p ").length = 2 := by decide
  have hl2 : (String.toList "ms").length = 2 := by decide
  have hre : [m0] ++ a ++ String.toList "p " ++ [m1] ++ b ++ ['.'] ++ c ++
      (String.toList "ms" ++ List.replicate 5 ' ') =
      ((m0 :: (a ++ String.toList "p ")) ++
        ((m1 :: (b ++ ['.'] ++ c ++ String.toList "ms")) ++ [])) ++ List.replicate 5 ' ' := by
    simp only [List.append_assoc, List.singleton_append, List.cons_append, List.append_nil,
      List.nil_append]
  have hlen : ((m0 :: (a ++ String.toList "p ")) ++
        ((m1 :: (b ++ ['.'] ++ c ++ String.toList "ms")) ++ [])).length =
        a.length + b.length + 9 := by
    simp only [List.append_nil, List.length_cons, List.length_append, hl, hl2, hc,
      List.length_nil]
    omega
  rw [hp, hre]
  exact ⟨snprintf_pads _ 5 (by omega) (by omega), by omega⟩
theorem set_top_line_buf_facts (mode : operation_t) (running : Bool) :
    (set_top_line_buf mode running).length = 16 ∧
    ((set_top_line_buf mode running).get? 15 = some '*' ↔ running = true) := by
  unfold set_top_line_buf
  by_cases h0 : mode = LEAK_TEST
  · simp only [if_pos h0]; cases running <;> decide
  by_cases h1 : mode = RPM_MODE
  · simp only [if_neg h0, if_pos h1]; cases running <;> decide
  by_cases h2 : mode = FULL_FLOW_MODE
  · simp only [if_neg h0, if_neg h1, if_pos h2]; cases running <;> decide
  by_cases h3 : mode = PWM_MODE
  · simp only [if_neg h0, if_neg h1, if_neg h2, if_pos h3]; cases running <;> decide
  · simp only [if_neg h0, if_neg h1, if_neg h2, if_neg h3]; cases running <;> decide

theorem padded16_length (c : List Char) (h : c.length ≤ 16) : (padded16 c).length = 16 := by
  unfold padded16
  rw [List.length_append, List.length_replicate]
  omega

/-- The bottom line of a valid selection with in-range values is the marked fields of
the mode, padded; nothing of them is cut. -/
theorem set_bottom_line_buf_shape (pf : Platform) (hc : pf.conforming) (s : State)
    (button : button_t) (hv : validSelection s) (hr : inRange s.params)
    (hk : hasDefaultConstants s.params) :
    set_bottom_line_buf pf s s.CURRENT_MODE button =
      some (padded16 (markedFields s.PARAM_NUM 0 (fieldTexts s s.CURRENT_MODE))) ∧
    (markedFields s.PARAM_NUM 0 (fieldTexts s s.CURRENT_MODE)).length ≤ 16 ∧
    ((fieldTexts s s.CURRENT_MODE).length : Int) = fieldCount s.CURRENT_MODE := by
  obtain ⟨⟨l1, l2⟩, ⟨f1, f2⟩, ⟨r1, r2⟩, ⟨r3, r4⟩, ⟨r5, r6⟩, ⟨p1, p2⟩, ⟨p3, p4⟩⟩ := hr
  obtain ⟨⟨kl1, kl2, _⟩, ⟨kf1, kf2, _⟩, ⟨kr1, kr2, _⟩, ⟨kr3, kr4, _⟩, ⟨kr5, kr6, _⟩,
    ⟨kp1, kp2, _⟩, ⟨kp3, kp4, _⟩⟩ := hk
  rw [kl1] at l2; rw [kl2] at l1; rw [kf1] at f2; rw [kf2] at f1
  rw [kr1] at r2; rw [kr2] at r1; rw [kr3] at r4; rw [kr4] at r3
  rw [kr5] at r6; rw [kr6] at r5; rw [kp1] at p2; rw [kp2] at p1
  rw [kp3] at p4; rw [kp4] at p3
  obtain ⟨hmode, hp0, hp1⟩ := hv
  rcases hmode with hm | hm | hm | hm
  · have hP : s.PARAM_NUM = 0 := by
      rw [hm] at hp1; simp [fieldCount] at hp1; omega
    obtain ⟨d1, d2⟩ := fmt_d_length s.params.leak.seconds 3 (by norm_num) (by omega)
      (by norm_num; omega)
    obtain ⟨k1, k2⟩ := seconds_line '>' (fmt_d s.params.leak.seconds) d1 (by omega)
    rw [hm, hP]
    exact ⟨congrArg some k1, k2, rfl⟩
  · have hP : s.PARAM_NUM = 0 ∨ s.PARAM_NUM = 1 ∨ s.PARAM_NUM = 2 := by
      rw [hm] at hp1; simp [fieldCount] at hp1; omega
    obtain ⟨a1, a2⟩ := fmt_d_length s.params.rpm.seconds 2 (by norm_num) (by omega)
      (by norm_num; omega)
    obtain ⟨b1, b2⟩ := fmt_d_length s.params.rpm.rpm 4 (by norm_num) (by omega)
      (by norm_num; omega)
    obtain ⟨c1, c2⟩ := fmt_d_length s.params.rpm.duty 2 (by norm_num) (by omega)
      (by norm_num; omega)
    rw [hm]
    rcases hP with hP | hP | hP
    · obtain ⟨k1, k2⟩ := rpm_line '>' ' ' ' ' _ _ _ a1 b1 c1 (by omega)
      unfold set_bottom_line_buf
      rw [hP]
      exact ⟨congrArg some k1, k2, rfl⟩
    · obtain ⟨k1, k2⟩ := rpm_line ' ' '>' ' ' _ _ _ a1 b1 c1 (by omega)
      unfold set_bottom_line_buf
      rw [hP]
      exact ⟨congrArg some k1, k2, rfl⟩
    · obtain ⟨k1, k2⟩ := rpm_line ' ' ' ' '>' _ _ _ a1 b1 c1 (by omega)
      unfold set_bottom_line_buf
      rw [hP]
      exact ⟨congrArg some k1, k2, rfl⟩
  · have hP : s.PARAM_NUM = 0 := by
      rw [hm] at hp1; simp [fieldCount] at hp1; omega
    obtain ⟨d1, d2⟩ := fmt_d_length s.params.full_flow.seconds 2 (by norm_num) (by omega)
      (by norm_num; omega)
    obtain ⟨k1, k2⟩ := seconds_line '>' (fmt_d s.params.full_flow.seconds) d1 (by omega)
    rw [hm, hP]
    exact ⟨congrArg some k1, k2, rfl⟩
  · have hP : s.PARAM_NUM = 0 ∨ s.PARAM_NUM = 1 := by
      rw [hm] at hp1; simp [fieldCount] at hp1; omega
    have hbig : toInt pf (toLong pf (Int.tdiv s.params.pwm.microseconds 1000)) =
        s.params.pwm.microseconds / 1000 := by
      rw [Int.tdiv_eq_ediv (by omega) (by norm_num),
        toLong_of_small pf hc _ (by omega) (by omega),
        toInt_of_small pf hc _ (by omega) (by omega)]
    have hsmall : toInt pf (toLong pf
        (Int.tdiv (Int.tmod s.params.pwm.microseconds 1000) 10)) =
        s.params.pwm.microseconds % 1000 / 10 := by
      rw [Int.tmod_eq_emod (by omega) (by norm_num),
        Int.tdiv_eq_ediv (by omega) (by norm_num),
        toLong_of_small pf hc _ (by omega) (by omega),
        toInt_of_small pf hc _ (by omega) (by omega)]
    obtain ⟨a1, a2⟩ := fmt_d_length s.params.pwm.pulses 3 (by norm_num) (by omega)
      (by norm_num; omega)
    obtain ⟨b1, b2⟩ := fmt_d_length (s.params.pwm.microseconds / 1000) 4 (by norm_num)
      (by omega) (by norm_num; omega)
    have c2 := fmt_02d_length (s.params.pwm.microseconds % 1000 / 10) (by omega) (by omega)
    rw [hm]
    rcases hP with hP | hP
    · obtain ⟨k1, k2⟩ := pwm_line '>' ' ' _ _ _ a1 b1 c2 (by omega)
      unfold set_bottom_line_buf
      rw [hP]
      simp only [hbig, hsmall]
      exact ⟨congrArg some k1, k2, rfl⟩
    · obtain ⟨k1, k2⟩ := pwm_line ' ' '>' _ _ _ a1 b1 c2 (by omega)
      unfold set_bottom_line_buf
      rw [hP]
      simp only [hbig, hsmall]
      exact ⟨congrArg some k1, k2, rfl⟩
/-- A pass of `loop` keeps the constants of the initialisers and the values in range. -/
theorem loop_keeps_range (pf : Platform) (hc : pf.conforming) (s : State) (x now : Int)
    (hk : hasDefaultConstants s.params) (hr : inRange s.params) :
    hasDefaultConstants (loop pf s x now).params ∧ inRange (loop pf s x now).params := by
  rw [loop_params]
  split_ifs
  · unfold stepSelected
    split_ifs
    · exact ⟨(applyEdit_keeps pf hc _ _ hk).1, (applyEdit_keeps pf hc _ _ hk).2 hr⟩
    · exact ⟨(applyEdit_keeps pf hc _ _ hk).1, (applyEdit_keeps pf hc _ _ hk).2 hr⟩
    · exact ⟨(applyEdit_keeps pf hc _ _ hk).1, (applyEdit_keeps pf hc _ _ hk).2 hr⟩
    · exact ⟨(applyEdit_keeps pf hc _ _ hk).1, (applyEdit_keeps pf hc _ _ hk).2 hr⟩
    · exact ⟨hk, hr⟩
  · exact ⟨hk, hr⟩

/-- C22. For globals with a valid selection (one of the four modes, `PARAM_NUM` one of
its fields) and values in the ranges of the initialisers, on every conforming target:
the text that `set_top_line` prints is 16 characters, the name of the mode padded with
spaces to 15 characters and then `*` if `running` and a space if not, so that index 15
holds `*` exactly when `running`; the text that `set_bottom_line` prints is 16
characters, the fields of the mode in order, each after `>` if it is the field number
`PARAM_NUM` and after a space if not, all of it inside the 16 characters and padded with
spaces.  A pass of `loop` from such globals ends in such globals, which are the ones
the two lines are printed from. -/
theorem display_lines_are_16_characters (pf : Platform) (hc : pf.conforming) (s : State)
    (running : Bool) (button : button_t) (x now : Int) (hv : validSelection s)
    (hr : inRange s.params) (hk : hasDefaultConstants s.params) :
    (set_top_line_buf s.CURRENT_MODE running).length = 16 ∧
    set_top_line_buf s.CURRENT_MODE running =
      (padded16 (modeTitle s.CURRENT_MODE)).take 15 ++ [if running then '*' else ' '] ∧
    (modeTitle s.CURRENT_MODE).length ≤ 14 ∧
    ((set_top_line_buf s.CURRENT_MODE running).get? 15 = some '*' ↔ running = true) ∧
    set_bottom_line_buf pf s s.CURRENT_MODE button =
      some (padded16 (markedFields s.PARAM_NUM 0 (fieldTexts s s.CURRENT_MODE))) ∧
    (markedFields s.PARAM_NUM 0 (fieldTexts s s.CURRENT_MODE)).length ≤ 16 ∧
    (padded16 (markedFields s.PARAM_NUM 0 (fieldTexts s s.CURRENT_MODE))).length = 16 ∧
    ((fieldTexts s s.CURRENT_MODE).length : Int) = fieldCount s.CURRENT_MODE ∧
    (validSelection (loop pf s x now) ∧ inRange (loop pf s x now).params ∧
      hasDefaultConstants (loop pf s x now).params) := by
  obtain ⟨t1, t2⟩ := set_top_line_buf_facts s.CURRENT_MODE running
  obtain ⟨t3, t4⟩ := set_top_line_buf_shape s.CURRENT_MODE running
  obtain ⟨b1, b2, b3⟩ := set_bottom_line_buf_shape pf hc s button hv hr hk
  obtain ⟨q1, q2⟩ := loop_keeps_range pf hc s x now hk hr
  exact ⟨t1, t3, t4, t2, b1, b2, padded16_length _ b2, b3,
    loop_keeps_valid pf hc s x now hv, q2, q1⟩

/-- C22, witness: RPM mode on the AVR target with 60 s, 6000 rpm and duty 99, the rpm
field selected: the bottom line is full to the last character. -/
theorem display_lines_are_16_characters_witness :
    avr.conforming ∧ validSelection widestRpmState ∧ inRange widestRpmState.params ∧
    hasDefaultConstants widestRpmState.params ∧
    set_bottom_line_buf avr widestRpmState widestRpmState.CURRENT_MODE NO_BUTTON =
      some (String.toList " 60s>6000rpm 99%") ∧
    set_top_line_buf widestRpmState.CURRENT_MODE true = String.toList "RPM Mode       *" ∧
    set_top_line_buf widestRpmState.CURRENT_MODE false = String.toList "RPM Mode        " ∧
    set_bottom_line_buf avr (exampleState PWM_MODE 0) PWM_MODE NO_BUTTON =
      some (String.toList ">30p  1.00ms    ") ∧
    set_bottom_line_buf avr (exampleState LEAK_TEST 0) LEAK_TEST NO_BUTTON =
      some (String.toList ">60 seconds     ") ∧
    set_bottom_line_buf avr (exampleState FULL_FLOW_MODE 0) FULL_FLOW_MODE NO_BUTTON =
      some (String.toList ">10 seconds     ") :=
  have h := display_lines_are_16_characters avr (by decide) widestRpmState true NO_BUTTON
    1023 0 (by decide) (by decide) (by decide)
  ⟨by decide, by decide, by decide, by decide, h.2.2.2.2.1.trans (by decide),
    h.2.1.trans (by decide), by decide, by decide, by decide, by decide⟩

end InjectorTester
